import Mathlib

/-!
# Frame pipeline of the IM server: grouping, authentication and send permission

A shallow embedding of `internal/server/processor.go` (`sameFrames`, `processAuth`,
`hasPermission`) together with the properties proved about it. Definitions come first, the
theorems follow.
-/

/-! ## Frames and `Processor.sameFrames` -/

/-- Modelled from the spec: the frame types of the wire protocol (package `pkg/proto`, which is
not part of the sources), one constructor per frame of the protocol table. -/
inductive FrameType where
  | CONNECT | CONNACK | SEND | SENDACK | RECV | RECVACK | PING | PONG | DISCONNECT | SUB | SUBACK
  deriving DecidableEq, Repr

/-- A decoded frame (`okproto.Frame`): its frame type, and `body` standing for the rest of the
packet, so that two frames of one type can be told apart. -/
structure Frame where
  frameType : FrameType
  body : Nat
  deriving DecidableEq, Repr

/-- The method `GetFrameType` of `okproto.Frame`. -/
def Frame.GetFrameType (f : Frame) : FrameType := f.frameType

/-- The Go slice expression `xs[s:e]`. -/
def goSlice {α : Type} (xs : List α) (s e : Nat) : List α := (xs.take e).drop s

/-- One invocation `callback(s, e, fs)` made by `sameFrames`. -/
structure Call where
  s : Nat
  e : Nat
  fs : List Frame
  deriving DecidableEq, Repr

/-- The inner loop of `sameFrames` (lines 737-744): starting at `e`, advance while
`e < len(frames)` and `frames[e]` has frame type `ft`. The first argument bounds the number of
iterations; `sameFramesFrom` passes `len(frames) - e`, which the loop cannot exceed. -/
def sameFramesEnd (frames : List Frame) (ft : FrameType) : Nat → Nat → Nat
  | 0, e => e
  | fuel + 1, e =>
    if h : e < frames.length then
      if (frames.get ⟨e, h⟩).GetFrameType = ft then sameFramesEnd frames ft fuel (e + 1) else e
    else e

/-- The outer loop of `sameFrames` (lines 733-747) from index `i`, as the list of callback
invocations in order. The first argument bounds the number of iterations. -/
def sameFramesFrom (frames : List Frame) : Nat → Nat → List Call
  | 0, _ => []
  | fuel + 1, i =>
    if h : i < frames.length then
      let e := sameFramesEnd frames (frames.get ⟨i, h⟩).GetFrameType (frames.length - (i + 1)) (i + 1)
      ⟨i, e, goSlice frames i e⟩ :: sameFramesFrom frames fuel e
    else []

/-- `Processor.sameFrames`: the callback invocations it makes on `frames`, in order. Every
iteration of the outer loop advances `i`, so `len(frames)` iterations suffice. -/
def sameFrames (frames : List Frame) : List Call := sameFramesFrom frames frames.length 0

/-- Facts about one callback invocation `c` made by `sameFrames` on `frames`. -/
def Call.wellFormed (frames : List Frame) (c : Call) : Prop :=
  c.s < c.e ∧ c.e ≤ frames.length ∧ c.fs = goSlice frames c.s c.e ∧
    ∃ ft, (∀ f ∈ c.fs, f.frameType = ft) ∧ ∀ g, frames[c.s]? = some g → g.frameType = ft

/-! ## Protocol vocabulary used by the processor -/

/-- Modelled from the spec: the reason codes of the wire protocol (package `pkg/proto`, which
is not part of the sources), one constructor per code listed in the spec. -/
inductive ReasonCode where
  | ReasonSuccess | ReasonAuthFail | ReasonBan | ReasonChannelNotExist
  | ReasonSubscriberNotExist | ReasonInBlacklist | ReasonNotAllowSend
  | ReasonNotSupportHeader | ReasonNotSupportChannelType | ReasonPayloadDecodeError
  | ReasonSystemError | ReasonConnectKick | ReasonServerStop
  deriving DecidableEq, Repr

/-- Numeric constants of `pkg/proto` that the server code compares against. Their declarations
are not part of the sources, so the values are parameters of the embedding. -/
structure ProtoConsts where
  LatestVersion : Nat
  DeviceLevelMaster : Nat
  DeviceLevelSlave : Nat
  ChannelTypePerson : Nat
  ChannelTypeInfo : Nat
  ChannelTypeCustomerService : Nat
  ChannelTypeData : Nat
  deriving DecidableEq, Repr

/-- The fields of `Options` read by `processAuth`. -/
structure Options where
  ManagerUID : String
  ManagerTokenOn : Bool
  ManagerToken : String
  TokenAuthOn : Bool
  ConnIdleTime : Nat
  deriving DecidableEq, Repr

/-- The fields of `okproto.ConnectPacket` read by `processAuth`. -/
structure ConnectPacket where
  Version : Nat
  UID : String
  Token : String
  ClientKey : String
  DeviceID : String
  DeviceFlag : Nat
  ClientTimestamp : Int
  deriving DecidableEq, Repr

/-- The frame `okproto.ConnackPacket`; unset fields hold the zero value, as in Go. -/
structure ConnackPacket where
  Salt : String := ""
  ServerKey : String := ""
  ReasonCode : ReasonCode
  TimeDiff : Int := 0
  ServerVersion : Nat := 0
  HasServerVersion : Bool := false
  deriving DecidableEq, Repr

/-- The frame `okproto.DisconnectPacket`. -/
structure DisconnectPacket where
  ReasonCode : ReasonCode
  Reason : String
  deriving DecidableEq, Repr

/-- Frames the processor writes to a connection. -/
inductive OutFrame where
  | connack (p : ConnackPacket)
  | disconnect (p : DisconnectPacket)
  | pong
  deriving DecidableEq, Repr

/-- The state of one `oknet.Conn` as far as the processor reads and writes it. -/
structure Conn where
  id : Int
  uid : String := ""
  deviceFlag : Nat := 0
  deviceID : String := ""
  deviceLevel : Nat := 0
  protoVersion : Nat := 0
  authed : Bool := false
  aesKey : Option String := none
  aesIV : Option String := none
  maxIdle : Nat := 0
  hasContext : Bool := false
  deriving DecidableEq, Repr

/-- The persisted descriptor of a channel (`okstore.ChannelInfo`), as far as it is read. -/
structure ChannelInfo where
  Ban : Bool
  Large : Bool
  deriving DecidableEq, Repr

/-- What the processor does to the outside world, in program order: store reads, key
generation, frames handed to `response`, closes scheduled on the timing wheel and the online
webhook. `closeAfter seconds connID` is the call
`timingWheel.AfterFunc(seconds, func() { oldConn.Close() })` made while `oldConn` is the
connection `connID`. -/
inductive Event where
  | getUserToken (uid : String) (deviceFlag : Nat)
  | getChannel (channelID : String) (channelType : Nat)
  | genKeyPair
  | send (connID : Int) (frame : OutFrame)
  | closeAfter (seconds : Nat) (connID : Int)
  | online (uid : String) (deviceFlag : Nat) (connID : Int) (onlineCount totalOnlineCount : Nat)
  deriving DecidableEq, Repr

/-- The three ways `getClientAesKeyAndIV` can end: a key and IV, a returned error, or a
run-time failure of the slice expression `clientKeyBytes[:32]`. -/
inductive AesOutcome where
  | ok (aesKey aesIV : String)
  | error
  | sliceOutOfRange
  deriving DecidableEq, Repr

/-- Everything `processAuth` obtains from its collaborators: the options, the answers of the
store, the generated key pair, the outcome of the key derivation and the clock. -/
structure AuthEnv where
  opts : Options
  GetUserToken : String → Nat → Except String (String × Nat)
  GetChannel : String → Nat → Except String (Option ChannelInfo)
  dhServerPrivKey : List Nat
  dhServerPublicKey : List Nat
  base64Encode : List Nat → String
  getClientAesKeyAndIV : String → List Nat → AesOutcome
  nowUnixNano : Int

/-! ## Go library functions -/

/-- Go `unicode.IsSpace`. -/
def isSpace (c : Char) : Bool :=
  let n := c.toNat
  (9 ≤ n && n ≤ 13) || n == 32 || n == 0x85 || n == 0xA0 || n == 0x1680 ||
    (0x2000 ≤ n && n ≤ 0x200A) || n == 0x2028 || n == 0x2029 || n == 0x202F ||
    n == 0x205F || n == 0x3000

/-- Go `strings.TrimSpace`: the string without its leading and trailing white space. -/
def TrimSpace (s : String) : String :=
  String.mk ((s.toList.dropWhile isSpace).reverse.dropWhile isSpace).reverse

/-- Two's-complement wrap-around of a signed 64-bit result. -/
def wrapInt64 (x : Int) : Int := (x + 2 ^ 63) % 2 ^ 64 - 2 ^ 63

/-! ## Connection manager -/

/-- Modelled from the spec: `ConnManager.GetConnsWith` (the connection manager is not part of
the sources), the indexed connections of a `(uid, deviceFlag)` pair. -/
def GetConnsWith (index : List Conn) (uid : String) (deviceFlag : Nat) : List Conn :=
  index.filter (fun c => c.uid = uid ∧ c.deviceFlag = deviceFlag)

/-- Modelled from the spec: `ConnManager.RemoveConnWithID`, which drops the connection with the
given id from the index. -/
def RemoveConnWithID (index : List Conn) (id : Int) : List Conn :=
  index.filter (fun c => c.id ≠ id)

/-- Modelled from the spec: `ConnManager.AddConn`, which indexes a connection by its id. -/
def AddConn (index : List Conn) (conn : Conn) : List Conn :=
  RemoveConnWithID index conn.id ++ [conn]

/-- Modelled from the spec: `ConnManager.GetConnCountWith`, the number of indexed connections
of `(uid, deviceFlag)` and of `uid`. -/
def GetConnCountWith (index : List Conn) (uid : String) (deviceFlag : Nat) : Nat × Nat :=
  ((GetConnsWith index uid deviceFlag).length, (index.filter (fun c => c.uid = uid)).length)

/-! ## `Processor.processAuth` -/

/-- `Processor.response` for one frame: the frame is handed to the dispatcher. -/
def response (conn : Conn) (frame : OutFrame) : List Event := [Event.send conn.id frame]

/-- `Processor.responseConnack`. -/
def responseConnack (c : Conn) (timeDiff : Int) (code : ReasonCode) : List Event :=
  response c (OutFrame.connack { ReasonCode := code, TimeDiff := timeDiff })

/-- `Processor.responseConnackAuthFail`. -/
def responseConnackAuthFail (c : Conn) : List Event :=
  responseConnack c 0 ReasonCode.ReasonAuthFail

/-- Outcome of the section "token verify" of `processAuth`: the store reads made, and either
`none` (the connect is answered with AuthFail) or the pair `(devceLevel, devceLevelI)`. -/
structure TokenVerdict where
  events : List Event
  level : Option (Nat × Nat)
  deriving DecidableEq, Repr

/-- The section "token verify" of `processAuth` (lines 102-130). -/
def tokenVerify (pc : ProtoConsts) (env : AuthEnv) (pkt : ConnectPacket) : TokenVerdict :=
  if pkt.UID = env.opts.ManagerUID then
    if env.opts.ManagerTokenOn = true ∧ pkt.Token ≠ env.opts.ManagerToken then
      ⟨[], none⟩
    else
      ⟨[], some (pc.DeviceLevelSlave, 0)⟩
  else if env.opts.TokenAuthOn = true then
    if pkt.Token = "" then
      ⟨[], none⟩
    else
      match env.GetUserToken pkt.UID pkt.DeviceFlag with
      | Except.error _ => ⟨[Event.getUserToken pkt.UID pkt.DeviceFlag], none⟩
      | Except.ok (token, devceLevelI) =>
        if token ≠ pkt.Token then
          ⟨[Event.getUserToken pkt.UID pkt.DeviceFlag], none⟩
        else
          ⟨[Event.getUserToken pkt.UID pkt.DeviceFlag], some (devceLevelI, devceLevelI)⟩
  else
    ⟨[], some (pc.DeviceLevelSlave, 0)⟩

/-- The loop of `processAuth` that runs when the new device is a master (lines 163-180): every
old connection leaves the index and is closed later; one with another device id is first sent a
Disconnect. Returns the index and the events. -/
def kickMaster (deviceID : String) : List Conn → List Conn → List Conn × List Event
  | [], index => (index, [])
  | oldConn :: rest, index =>
    let index1 := RemoveConnWithID index oldConn.id
    let evs :=
      if oldConn.deviceID ≠ deviceID then
        response oldConn (OutFrame.disconnect
          { ReasonCode := ReasonCode.ReasonConnectKick, Reason := "login in other device" }) ++
        [Event.closeAfter 5 oldConn.id]
      else
        [Event.closeAfter 4 oldConn.id]
    let r := kickMaster deviceID rest index1
    (r.1, evs ++ r.2)

/-- The loop of `processAuth` that runs when the new device is a slave (lines 182-189): only
old connections with the same device id leave the index and are closed later. -/
def kickSlave (deviceID : String) : List Conn → List Conn → List Conn × List Event
  | [], index => (index, [])
  | oldConn :: rest, index =>
    if oldConn.deviceID = deviceID then
      let r := kickSlave deviceID rest (RemoveConnWithID index oldConn.id)
      (r.1, Event.closeAfter 5 oldConn.id :: r.2)
    else
      kickSlave deviceID rest index

/-- The section "same master kicks each other" of `processAuth` (lines 160-192). -/
def kickOldConns (pc : ProtoConsts) (devceLevel : Nat) (deviceID : String)
    (oldConns index : List Conn) : List Conn × List Event :=
  if oldConns.length > 0 then
    if devceLevel = pc.DeviceLevelMaster then kickMaster deviceID oldConns index
    else if devceLevel = pc.DeviceLevelSlave then kickSlave deviceID oldConns index
    else (index, [])
  else (index, [])

/-- The `return` statement by which a run of `processAuth` ends; `failed` is the run-time
failure inside `getClientAesKeyAndIV`. -/
inductive AuthReturn where
  | authFail | ban | success | failed
  deriving DecidableEq, Repr

/-- The result of a run of `processAuth`: how it returned, the connection and the connection
index afterwards, and the events in program order. -/
structure AuthResult where
  returned : AuthReturn
  conn : Conn
  index : List Conn
  events : List Event
  deriving DecidableEq, Repr

/-- `Processor.processAuth`. -/
def processAuth (pc : ProtoConsts) (env : AuthEnv) (index : List Conn) (conn : Conn)
    (connectPacket : ConnectPacket) : AuthResult :=
  if TrimSpace connectPacket.ClientKey = "" then
    ⟨AuthReturn.authFail, conn, index, responseConnackAuthFail conn⟩
  else
    let tv := tokenVerify pc env connectPacket
    match tv.level with
    | none => ⟨AuthReturn.authFail, conn, index, tv.events ++ responseConnackAuthFail conn⟩
    | some (devceLevel, devceLevelI) =>
      let ev1 := tv.events ++ [Event.getChannel connectPacket.UID pc.ChannelTypePerson]
      match env.GetChannel connectPacket.UID pc.ChannelTypePerson with
      | Except.error _ =>
        ⟨AuthReturn.authFail, conn, index, ev1 ++ responseConnackAuthFail conn⟩
      | Except.ok userChannelInfo =>
        let ban := match userChannelInfo with
          | none => false
          | some info => info.Ban
        if ban = true then
          ⟨AuthReturn.ban, conn, index, ev1 ++ responseConnack conn 0 ReasonCode.ReasonBan⟩
        else
          let ev2 := ev1 ++ [Event.genKeyPair]
          match env.getClientAesKeyAndIV connectPacket.ClientKey env.dhServerPrivKey with
          | AesOutcome.sliceOutOfRange => ⟨AuthReturn.failed, conn, index, ev2⟩
          | AesOutcome.error =>
            ⟨AuthReturn.authFail, conn, index, ev2 ++ responseConnackAuthFail conn⟩
          | AesOutcome.ok aesKey aesIV =>
            let dhServerPublicKeyEnc := env.base64Encode env.dhServerPublicKey
            let oldConns := GetConnsWith index connectPacket.UID connectPacket.DeviceFlag
            let kicked := kickOldConns pc devceLevel connectPacket.DeviceID oldConns index
            let timeDiff := wrapInt64
              ((env.nowUnixNano.tdiv 1000).tdiv 1000 - connectPacket.ClientTimestamp)
            let conn1 : Conn :=
              { conn with
                hasContext := true
                protoVersion := connectPacket.Version
                authed := true
                deviceFlag := connectPacket.DeviceFlag
                deviceID := connectPacket.DeviceID
                uid := connectPacket.UID
                aesKey := some aesKey
                aesIV := some aesIV
                deviceLevel := devceLevelI
                maxIdle := env.opts.ConnIdleTime }
            let index2 := AddConn kicked.1 conn1
            let lastVersion :=
              if connectPacket.Version > pc.LatestVersion then pc.LatestVersion
              else connectPacket.Version
            let hasServerVersion := if connectPacket.Version > 3 then true else false
            let connack : ConnackPacket :=
              { Salt := aesIV
                ServerKey := dhServerPublicKeyEnc
                ReasonCode := ReasonCode.ReasonSuccess
                TimeDiff := timeDiff
                ServerVersion := lastVersion
                HasServerVersion := hasServerVersion }
            let counts := GetConnCountWith index2 connectPacket.UID connectPacket.DeviceFlag
            ⟨AuthReturn.success, conn1, index2,
              ev2 ++ kicked.2 ++ response conn1 (OutFrame.connack connack) ++
                [Event.online connectPacket.UID connectPacket.DeviceFlag conn1.id
                  counts.1 counts.2]⟩

/-! ## `Processor.hasPermission` -/

/-- Modelled from the spec: the cached `Channel` object (its declaration is not part of the
sources) with its four membership containers. -/
structure Channel where
  ChannelID : String
  ChannelType : Nat
  subscribers : List String
  tmpSubscribers : List String
  allowlist : List String
  denylist : List String
  Large : Bool := false
  deriving DecidableEq, Repr

/-- Modelled from the spec: `Channel.IsSubscriber`, membership in `subscribers`. -/
def Channel.IsSubscriber (c : Channel) (uid : String) : Bool := decide (uid ∈ c.subscribers)

/-- Modelled from the spec: `Channel.IsTmpSubscriber`, membership in `tmpSubscribers`. -/
def Channel.IsTmpSubscriber (c : Channel) (uid : String) : Bool :=
  decide (uid ∈ c.tmpSubscribers)

/-- Modelled from the spec: `Channel.Allow` (not part of the sources), steps 2 and 3 of the
permission evaluation: a non-empty allowlist that lacks the uid denies with NotAllowSend, then a
denylist that holds the uid denies with InBlacklist, otherwise the uid is admitted. -/
def Channel.Allow (c : Channel) (uid : String) : Bool × ReasonCode :=
  if c.allowlist ≠ [] ∧ uid ∉ c.allowlist then (false, ReasonCode.ReasonNotAllowSend)
  else if uid ∈ c.denylist then (false, ReasonCode.ReasonInBlacklist)
  else (true, ReasonCode.ReasonSuccess)

/-- `Processor.hasPermission`; `allow` is the method `Channel.Allow` it calls. -/
def hasPermission (pc : ProtoConsts) (allow : Channel → String → Bool × ReasonCode)
    (channel : Channel) (fromUID : String) : Bool × ReasonCode :=
  if channel.ChannelType = pc.ChannelTypeCustomerService then
    (true, ReasonCode.ReasonSuccess)
  else
    let r := allow channel fromUID
    if r.1 = false then
      (false, r.2)
    else if channel.ChannelType ≠ pc.ChannelTypePerson ∧
        channel.ChannelType ≠ pc.ChannelTypeInfo then
      if channel.IsSubscriber fromUID = false ∧ channel.IsTmpSubscriber fromUID = false then
        (false, ReasonCode.ReasonSubscriberNotExist)
      else
        (true, ReasonCode.ReasonSuccess)
    else
      (true, ReasonCode.ReasonSuccess)

/-! ## Observations on event lists -/

/-- The Disconnect frames among the events, each with the connection it was sent to. -/
def disconnectsSent : List Event → List (Int × DisconnectPacket)
  | [] => []
  | Event.send connID (OutFrame.disconnect p) :: rest => (connID, p) :: disconnectsSent rest
  | _ :: rest => disconnectsSent rest

/-- The Connack frames among the events, each with the connection it was sent to. -/
def connacksSent : List Event → List (Int × ConnackPacket)
  | [] => []
  | Event.send connID (OutFrame.connack p) :: rest => (connID, p) :: connacksSent rest
  | _ :: rest => connacksSent rest

/-- The closes scheduled among the events: delay in seconds and connection. -/
def closesScheduled : List Event → List (Nat × Int)
  | [] => []
  | Event.closeAfter seconds connID :: rest => (seconds, connID) :: closesScheduled rest
  | _ :: rest => closesScheduled rest

/-- The frames sent to the connection `connID` among the events. -/
def framesSentTo (connID : Int) : List Event → List OutFrame
  | [] => []
  | Event.send i frame :: rest =>
    if i = connID then frame :: framesSentTo connID rest else framesSentTo connID rest
  | _ :: rest => framesSentTo connID rest

/-! ## The token decision in the words of the specification -/

/-- The token decision as the specification words it (`none` is AuthFail, `some l` is device
level `l`): the manager uid is rejected exactly on a wrong manager token and is a slave
otherwise; under token auth a failed lookup or a stored token other than the presented one is
rejected, otherwise the stored level applies; without token auth the device is a slave. -/
def tokenDecisionAsWorded (pc : ProtoConsts) (env : AuthEnv) (pkt : ConnectPacket) :
    Option Nat :=
  if pkt.UID = env.opts.ManagerUID then
    if env.opts.ManagerTokenOn = true ∧ pkt.Token ≠ env.opts.ManagerToken then none
    else some pc.DeviceLevelSlave
  else if env.opts.TokenAuthOn = true then
    match env.GetUserToken pkt.UID pkt.DeviceFlag with
    | Except.error _ => none
    | Except.ok (token, level) => if token ≠ pkt.Token then none else some level
  else some pc.DeviceLevelSlave

/-- The token decision with the rule the code adds: under token auth an empty presented token
is rejected before any lookup. -/
def tokenDecisionAmended (pc : ProtoConsts) (env : AuthEnv) (pkt : ConnectPacket) :
    Option Nat :=
  if pkt.UID = env.opts.ManagerUID then
    if env.opts.ManagerTokenOn = true ∧ pkt.Token ≠ env.opts.ManagerToken then none
    else some pc.DeviceLevelSlave
  else if env.opts.TokenAuthOn = true then
    if pkt.Token = "" then none
    else
      match env.GetUserToken pkt.UID pkt.DeviceFlag with
      | Except.error _ => none
      | Except.ok (token, level) => if token ≠ pkt.Token then none else some level
  else some pc.DeviceLevelSlave

/-! ## Sample inputs for concrete evaluation -/

/-- Sample values for the protocol constants. -/
def sampleConsts : ProtoConsts :=
  { LatestVersion := 4
    DeviceLevelMaster := 1
    DeviceLevelSlave := 0
    ChannelTypePerson := 1
    ChannelTypeInfo := 6
    ChannelTypeCustomerService := 3
    ChannelTypeData := 7 }

/-! ## `Processor.getClientAesKeyAndIV` -/

/-- The library functions `getClientAesKeyAndIV` calls: `base64.StdEncoding.DecodeString` and
`EncodeToString`, `okutil.GetCurve25519Key`, `okutil.GetRandomString` and `okutil.MD5`. -/
structure KeyEnv where
  DecodeString : String → Except String (List Nat)
  EncodeToString : List Nat → String
  GetCurve25519Key : List Nat → List Nat → List Nat
  GetRandomString : Nat → String
  MD5 : String → String

/-- Go `base64.StdEncoding.DecodedLen`: the length of the buffer that `DecodeString` allocates
for an input of `n` bytes, which is the capacity of the slice it returns. -/
def DecodedLen (n : Nat) : Nat := n / 4 * 3

/-- `Processor.getClientAesKeyAndIV`. The slice expression `clientKeyBytes[:32]` fails at run
time when 32 exceeds the capacity of `clientKeyBytes`; bytes between its length and its capacity
are zero. The expression `MD5(...)[:16]` fails when the digest has fewer than 16 bytes (a hex
digest has 32 characters of one byte each). -/
def getClientAesKeyAndIV (env : KeyEnv) (clientKey : String) (dhServerPrivKey : List Nat) :
    AesOutcome :=
  match env.DecodeString clientKey with
  | Except.error _ => AesOutcome.error
  | Except.ok clientKeyBytes =>
    if 32 > DecodedLen clientKey.utf8ByteSize then AesOutcome.sliceOutOfRange
    else
      let dhClientPubKeyArray := (clientKeyBytes ++ List.replicate 32 0).take 32
      let shareKey := env.GetCurve25519Key dhServerPrivKey dhClientPubKeyArray
      let aesIV := env.GetRandomString 16
      let digest := env.MD5 (env.EncodeToString shareKey)
      if digest.length < 16 then AesOutcome.sliceOutOfRange
      else AesOutcome.ok (String.mk (digest.toList.take 16)) aesIV

/-- The value of a character of the standard base64 alphabet. -/
def base64Index (c : Char) : Option Nat :=
  let n := c.toNat
  if 65 ≤ n ∧ n ≤ 90 then some (n - 65)
  else if 97 ≤ n ∧ n ≤ 122 then some (n - 71)
  else if 48 ≤ n ∧ n ≤ 57 then some (n + 4)
  else if n = 43 then some 62
  else if n = 47 then some 63
  else none

/-- Standard base64 decoding of a padded input without line breaks, four characters at a
time. -/
def base64DecodeChars : List Char → Except String (List Nat)
  | [] => Except.ok []
  | a :: b :: c :: d :: rest =>
    match base64Index a, base64Index b with
    | some x, some y =>
      if c = '=' ∧ d = '=' ∧ rest = [] then Except.ok [(x * 4 + y / 16) % 256]
      else
        match base64Index c with
        | none => Except.error "illegal base64 data"
        | some z =>
          if d = '=' ∧ rest = [] then
            Except.ok [(x * 4 + y / 16) % 256, (y * 16 + z / 4) % 256]
          else
            match base64Index d, base64DecodeChars rest with
            | some w, Except.ok more =>
              Except.ok ((x * 4 + y / 16) % 256 :: (y * 16 + z / 4) % 256 ::
                (z * 64 + w) % 256 :: more)
            | _, _ => Except.error "illegal base64 data"
    | _, _ => Except.error "illegal base64 data"
  | _ => Except.error "illegal base64 data"

/-- A sample environment of `getClientAesKeyAndIV`: real base64 decoding; the shared key is the
client key, the digest is a fixed string of 32 characters and the random string is a fixed
string of the requested length. -/
def sampleKeyEnv : KeyEnv :=
  { DecodeString := fun s => base64DecodeChars s.toList
    EncodeToString := fun _ => "c2hhcmVk"
    GetCurve25519Key := fun _ pub => pub
    GetRandomString := fun n => String.mk (List.replicate n 'r')
    MD5 := fun _ => "0123456789abcdef0123456789abcdef" }

/-! ## Samples of the CONNECT path -/

/-- A sample environment: token auth is on, the store holds token `tok` with master level for
`alice`, token `tok2` with slave level for `bob`, and an empty token for everybody else; nobody
is banned and the key derivation is `getClientAesKeyAndIV` over `sampleKeyEnv`. -/
def sampleEnv : AuthEnv :=
  { opts :=
      { ManagerUID := "manager"
        ManagerTokenOn := true
        ManagerToken := "secret"
        TokenAuthOn := true
        ConnIdleTime := 180 }
    GetUserToken := fun uid _ =>
      if uid = "alice" then Except.ok ("tok", 1)
      else if uid = "bob" then Except.ok ("tok2", 0)
      else Except.ok ("", 1)
    GetChannel := fun _ _ => Except.ok none
    dhServerPrivKey := [1]
    dhServerPublicKey := [2]
    base64Encode := fun _ => "AAAA"
    getClientAesKeyAndIV := getClientAesKeyAndIV sampleKeyEnv
    nowUnixNano := 5000000 }

/-- A sample CONNECT of `alice` from device `d2`; the client key is the base64 text of 32
bytes. -/
def sampleConnect : ConnectPacket :=
  { Version := 5
    UID := "alice"
    Token := "tok"
    ClientKey := "AQIDBAUGBwgJCgsMDQ4PEBESExQVFhcYGRobHB0eHyA="
    DeviceID := "d2"
    DeviceFlag := 1
    ClientTimestamp := 3 }

/-- A sample index: `alice` is connected from devices `d1` and `d2` under device flag 1. -/
def sampleIndex : List Conn :=
  [{ id := 1, uid := "alice", deviceFlag := 1, deviceID := "d1", authed := true },
   { id := 2, uid := "alice", deviceFlag := 1, deviceID := "d2", authed := true }]

/-- A sample index holding only the connection of `alice` from device `d2`. -/
def sampleSameDeviceIndex : List Conn :=
  [{ id := 2, uid := "alice", deviceFlag := 1, deviceID := "d2", authed := true }]

/-- A sample index: `bob` is connected from devices `d1` and `d2` under device flag 1. -/
def sampleBobIndex : List Conn :=
  [{ id := 3, uid := "bob", deviceFlag := 1, deviceID := "d1", authed := true },
   { id := 4, uid := "bob", deviceFlag := 1, deviceID := "d2", authed := true }]

/-- A sample CONNECT of `bob` from device `d2`. -/
def sampleBobConnect : ConnectPacket :=
  { sampleConnect with UID := "bob", Token := "tok2" }

/-- A sample group channel with one subscriber, an allowlist and a denylist. -/
def sampleChannel : Channel :=
  { ChannelID := "grp"
    ChannelType := 2
    subscribers := ["alice"]
    tmpSubscribers := ["carol"]
    allowlist := ["alice"]
    denylist := ["alice"] }

/-! ## Person channels -/

/-- Modelled from the spec: the delimiter that joins the two uids of a person channel; the
specification does not name it, `@` stands for it. -/
def fakeChannelDelimiter : String := "@"

/-- Modelled from the spec: `GetFakeChannelIDWith` (its declaration is not part of the
sources), the storage key of a person channel: the two uids sorted lexicographically and
joined by the delimiter. -/
def GetFakeChannelIDWith (fromUID toUID : String) : String :=
  if fromUID ≤ toUID then fromUID ++ fakeChannelDelimiter ++ toUID
  else toUID ++ fakeChannelDelimiter ++ fromUID

/-! ## Packets and messages -/

/-- The flags of `okproto.Framer` that the processor reads. -/
structure Framer where
  NoPersist : Bool := false
  RedDot : Bool := false
  SyncOnce : Bool := false
  deriving DecidableEq, Repr

/-- The frame `okproto.SendPacket`; `framer` is its embedded `Framer`. -/
structure SendPacket where
  framer : Framer := {}
  Setting : Nat := 0
  ClientSeq : Nat := 0
  ClientMsgNo : String := ""
  StreamNo : String := ""
  ChannelID : String := ""
  ChannelType : Nat := 0
  Expire : Nat := 0
  Topic : String := ""
  MsgKey : String := ""
  Payload : List Nat := []
  deriving DecidableEq, Repr

/-- The stream flag of a `RecvPacket`; the processor only ever assigns `StreamFlagIng`. -/
inductive StreamFlag where
  | StreamFlagStart | StreamFlagIng | StreamFlagEnd
  deriving DecidableEq, Repr

/-- A `Message`: the embedded `okproto.RecvPacket` together with the fields `fromDeviceFlag`,
`fromDeviceID` and `large` that the server adds. -/
structure Message where
  framer : Framer := {}
  Setting : Nat := 0
  MessageID : Int := 0
  MessageSeq : Nat := 0
  ClientMsgNo : String := ""
  StreamNo : String := ""
  StreamFlag : StreamFlag := StreamFlag.StreamFlagIng
  FromUID : String := ""
  Expire : Nat := 0
  ChannelID : String := ""
  ChannelType : Nat := 0
  Topic : String := ""
  Timestamp : Int := 0
  Payload : List Nat := []
  ClientSeq : Nat := 0
  fromDeviceFlag : Nat := 0
  fromDeviceID : String := ""
  large : Bool := false
  deriving DecidableEq, Repr

/-- The frame `okproto.SendackPacket`; unset fields hold the zero value, as in Go. -/
structure SendackPacket where
  framer : Framer := {}
  ClientSeq : Nat := 0
  ClientMsgNo : String := ""
  MessageID : Int := 0
  MessageSeq : Nat := 0
  ReasonCode : ReasonCode
  deriving DecidableEq, Repr

/-- Two's-complement wrap-around of a signed 32-bit result (the conversion `int32(x)`). -/
def wrapInt32 (x : Int) : Int := (x + 2 ^ 31) % 2 ^ 32 - 2 ^ 31

/-- What the message path does to the outside world, in program order: the channel lookup,
frames handed to `response` directly, the store appends, the notify-queue append and the
delivery `channel.Put`. -/
inductive MsgEvent where
  | getChannel (channelID : String) (channelType : Nat)
  | response (connID : Int) (frame : SendackPacket)
  | appendStreamItem (channelID : String) (channelType : Nat) (streamNo clientMsgNo : String)
      (blob : List Nat)
  | appendMessages (channelID : String) (channelType : Nat) (messages : List Message)
  | appendMessageOfNotifyQueue (messages : List Message)
  | put (channelID : String) (messages : List Message) (fromUID : String)
      (fromDeviceFlag : Nat) (fromDeviceID : String)
  deriving DecidableEq, Repr

/-- Everything the message path obtains from its collaborators. An error is `some text`, no
error is `none`. `genMessageID n` and `nowUnix n` are the message id generated and the clock
read for the packet at position `n` of the batch. -/
structure MsgEnv where
  WebhookOn : Bool
  GetChannel : String → Nat → Except String (Option Channel)
  Allow : Channel → String → Bool × ReasonCode
  genMessageID : Nat → Int
  nowUnix : Nat → Int
  VerityString : SendPacket → String
  AesEncryptPkcs7Base64 : String → String → String → Except String String
  MD5 : String → String
  AesDecryptPkcs7Base64 : List Nat → String → String → Except String (List Nat)
  StreamIng : Message → Bool
  AppendStreamItem : String → Nat → String → String → List Nat → Option String
  AppendMessages : String → Nat → List Message → Except String (List Nat)
  AppendMessageOfNotifyQueue : List Message → Option String
  Put : Channel → List Message → String → Nat → String → Option String

/-- The result of a Go call that returns `(value, error)` and that may also fail at run time
on the type assertion `c.Value(key).(string)` when the connection holds no such value. -/
inductive GoResult (α : Type) where
  | ok (value : α)
  | err (text : String)
  | crashed
  deriving DecidableEq, Repr

/-- `Processor.sendPacketIsVail`; `err` stands for the return `(false, err)`. -/
def sendPacketIsVail (env : MsgEnv) (sendPacket : SendPacket) (c : Conn) : GoResult Bool :=
  match c.aesKey, c.aesIV with
  | some aesKey, some aesIV =>
    let signStr := env.VerityString sendPacket
    match env.AesEncryptPkcs7Base64 signStr aesKey aesIV with
    | Except.error e => GoResult.err e
    | Except.ok actMsgKey =>
      let actMsgKeyStr := sendPacket.MsgKey
      let exceptMsgKey := env.MD5 actMsgKey
      if actMsgKeyStr ≠ exceptMsgKey then GoResult.err "msgKey is illegal！"
      else GoResult.ok true
  | _, _ => GoResult.crashed

/-- `Processor.checkAndDecodePayload`. -/
def checkAndDecodePayload (env : MsgEnv) (sendPacket : SendPacket) (c : Conn) :
    GoResult (List Nat) :=
  match c.aesKey, c.aesIV with
  | some aesKey, some aesIV =>
    match sendPacketIsVail env sendPacket c with
    | GoResult.crashed => GoResult.crashed
    | GoResult.err e => GoResult.err e
    | GoResult.ok vail =>
      if vail = false then GoResult.err "sendPacket is illegal！"
      else
        match env.AesDecryptPkcs7Base64 sendPacket.Payload aesKey aesIV with
        | Except.error e => GoResult.err e
        | Except.ok decodePayload => GoResult.ok decodePayload
  | _, _ => GoResult.crashed

/-- `Processor.getSendackPacket`. -/
def getSendackPacket (msg : Message) (reasonCode : ReasonCode) : SendackPacket :=
  { framer := msg.framer
    ClientMsgNo := msg.ClientMsgNo
    ClientSeq := msg.ClientSeq
    MessageID := msg.MessageID
    MessageSeq := msg.MessageSeq
    ReasonCode := reasonCode }

/-- `Processor.getSendackPacketWithSendPacket`. -/
def getSendackPacketWithSendPacket (sendPacket : SendPacket) (reasonCode : ReasonCode) :
    SendackPacket :=
  { framer := sendPacket.framer
    ClientMsgNo := sendPacket.ClientMsgNo
    ClientSeq := sendPacket.ClientSeq
    ReasonCode := reasonCode }

/-! ## `Processor.storeChannelMessagesIfNeed` -/

/-- The state of the loop of `storeChannelMessagesIfNeed` when it ends: the store calls made,
the slice `storeMessages`, and the error of a failed `AppendStreamItem`, if any. -/
structure StoreLoopResult where
  events : List MsgEvent
  storeMessages : List Message
  err : Option String
  deriving DecidableEq, Repr

/-- The loop of `storeChannelMessagesIfNeed` (lines 456-472). -/
def storeLoop (env : MsgEnv) (fromUID : String) :
    List Message → List Message → List MsgEvent → StoreLoopResult
  | [], storeMessages, events => ⟨events, storeMessages, none⟩
  | m :: rest, storeMessages, events =>
    if m.framer.NoPersist = true ∨ m.framer.SyncOnce = true then
      storeLoop env fromUID rest storeMessages events
    else if env.StreamIng m = true then
      let call := MsgEvent.appendStreamItem (GetFakeChannelIDWith fromUID m.ChannelID)
        m.ChannelType m.StreamNo m.ClientMsgNo m.Payload
      match env.AppendStreamItem (GetFakeChannelIDWith fromUID m.ChannelID) m.ChannelType
          m.StreamNo m.ClientMsgNo m.Payload with
      | some err => ⟨events ++ [call], storeMessages, some err⟩
      | none => storeLoop env fromUID rest storeMessages (events ++ [call])
    else
      storeLoop env fromUID rest (storeMessages ++ [m]) events

/-- Modelled from the spec: the store assigns the returned `messageSeq` values, in order, to
the messages it appended; `stored` tells which messages of the batch were appended. -/
def assignSeqs (stored : Message → Bool) : List Message → List Nat → List Message
  | [], _ => []
  | m :: rest, seqs =>
    if stored m = true then
      match seqs with
      | [] => m :: assignSeqs stored rest []
      | seq :: more => { m with MessageSeq := seq } :: assignSeqs stored rest more
    else m :: assignSeqs stored rest seqs

/-- The result of `storeChannelMessagesIfNeed`: the store calls made, the returned error and
the messages as the store left them. -/
structure StoreResult where
  events : List MsgEvent
  err : Option String
  messages : List Message
  deriving DecidableEq, Repr

/-- `Processor.storeChannelMessagesIfNeed`. -/
def storeChannelMessagesIfNeed (pc : ProtoConsts) (env : MsgEnv) (fromUID : String)
    (messages : List Message) : StoreResult :=
  if messages.length = 0 then ⟨[], none, messages⟩
  else
    let loop := storeLoop env fromUID messages [] []
    match loop.err with
    | some err => ⟨loop.events, some err, messages⟩
    | none =>
      match loop.storeMessages with
      | [] => ⟨loop.events, none, messages⟩
      | firstMessage :: others =>
        let fakeChannelID :=
          if firstMessage.ChannelType = pc.ChannelTypePerson then
            GetFakeChannelIDWith fromUID firstMessage.ChannelID
          else firstMessage.ChannelID
        let call := MsgEvent.appendMessages fakeChannelID firstMessage.ChannelType
          (firstMessage :: others)
        match env.AppendMessages fakeChannelID firstMessage.ChannelType
            (firstMessage :: others) with
        | Except.error err => ⟨loop.events ++ [call], some err, messages⟩
        | Except.ok seqs =>
          ⟨loop.events ++ [call], none,
            assignSeqs (fun m => !(m.framer.NoPersist || m.framer.SyncOnce) && !env.StreamIng m)
              messages seqs⟩

/-- `Processor.storeChannelMessagesToNotifyQueue`: the store call made and the returned
error. -/
def storeChannelMessagesToNotifyQueue (env : MsgEnv) (messages : List Message) :
    List MsgEvent × Option String :=
  if messages.length = 0 then ([], none)
  else
    let storeMessages := messages.filter
      (fun m => !(env.StreamIng m || (m.framer.NoPersist && m.framer.SyncOnce)))
    ([MsgEvent.appendMessageOfNotifyQueue storeMessages],
      env.AppendMessageOfNotifyQueue storeMessages)

/-! ## `Processor.prcocessChannelMessages` -/

/-- The local variables of the packet loop of `prcocessChannelMessages` (lines 322-374):
the sendacks collected, the messages built, the frames sent directly, the number of packets
handled, and whether the run failed on a missing connection value. -/
structure BuildState where
  sendackPackets : List SendackPacket
  messages : List Message
  events : List MsgEvent
  handled : Nat
  crashed : Bool
  deriving DecidableEq, Repr

/-- The sendack appended for a packet with the syncOnce flag (lines 326-332). -/
def syncOnceSendack (sendPacket : SendPacket) (messageID : Int) : SendackPacket :=
  { framer := sendPacket.framer
    ClientSeq := sendPacket.ClientSeq
    ClientMsgNo := sendPacket.ClientMsgNo
    MessageID := messageID
    ReasonCode := ReasonCode.ReasonNotSupportHeader }

/-- The sendack sent for a packet whose payload check failed (lines 338-344). -/
def payloadErrorSendack (sendPacket : SendPacket) (messageID : Int) : SendackPacket :=
  { framer := sendPacket.framer
    ClientSeq := sendPacket.ClientSeq
    ClientMsgNo := sendPacket.ClientMsgNo
    MessageID := messageID
    ReasonCode := ReasonCode.ReasonPayloadDecodeError }

/-- The message built for an accepted packet (lines 348-373). -/
def newMessage (conn : Conn) (channel : Channel) (sendPacket : SendPacket) (messageID : Int)
    (timestamp : Int) (decodePayload : List Nat) : Message :=
  { framer :=
      { RedDot := sendPacket.framer.RedDot
        SyncOnce := sendPacket.framer.SyncOnce
        NoPersist := sendPacket.framer.NoPersist }
    Setting := sendPacket.Setting
    MessageID := messageID
    ClientMsgNo := sendPacket.ClientMsgNo
    StreamNo := sendPacket.StreamNo
    StreamFlag := StreamFlag.StreamFlagIng
    FromUID := conn.uid
    Expire := sendPacket.Expire
    ChannelID := sendPacket.ChannelID
    ChannelType := sendPacket.ChannelType
    Topic := sendPacket.Topic
    Timestamp := timestamp
    Payload := decodePayload
    ClientSeq := sendPacket.ClientSeq
    fromDeviceFlag := conn.deviceFlag
    fromDeviceID := conn.deviceID
    large := channel.Large }

/-- The packet loop of `prcocessChannelMessages` (lines 322-374). -/
def buildMessages (env : MsgEnv) (conn : Conn) (channel : Channel) :
    List SendPacket → BuildState → BuildState
  | [], st => st
  | sendPacket :: rest, st =>
    let messageID := env.genMessageID st.handled
    if sendPacket.framer.SyncOnce = true then
      buildMessages env conn channel rest
        { st with
          handled := st.handled + 1
          sendackPackets := st.sendackPackets ++ [syncOnceSendack sendPacket messageID] }
    else
      match checkAndDecodePayload env sendPacket conn with
      | GoResult.crashed => { st with handled := st.handled + 1, crashed := true }
      | GoResult.err _ =>
        buildMessages env conn channel rest
          { st with
            handled := st.handled + 1
            events := st.events ++
              [MsgEvent.response conn.id (payloadErrorSendack sendPacket messageID)] }
      | GoResult.ok decodePayload =>
        buildMessages env conn channel rest
          { st with
            handled := st.handled + 1
            messages := st.messages ++
              [newMessage conn channel sendPacket messageID
                (wrapInt32 (env.nowUnix st.handled)) decodePayload] }

/-- The result of `prcocessChannelMessages`: the returned sendacks and error, everything done
to the outside world in program order, the messages built by the packet loop, and whether the
run failed on a missing connection value. -/
structure ChannelMessagesResult where
  sendackPackets : List SendackPacket
  err : Option String
  events : List MsgEvent
  messages : List Message
  crashed : Bool
  deriving DecidableEq, Repr

/-- `Processor.prcocessChannelMessages`. -/
def prcocessChannelMessages (pc : ProtoConsts) (env : MsgEnv) (conn : Conn)
    (channelID : String) (channelType : Nat) (sendPackets : List SendPacket) :
    ChannelMessagesResult :=
  let respSendackPacketsFnc := fun (reasonCode : ReasonCode) =>
    sendPackets.map (fun sendPacket => getSendackPacketWithSendPacket sendPacket reasonCode)
  let fakeChannelID :=
    if channelType = pc.ChannelTypePerson then GetFakeChannelIDWith conn.uid channelID
    else channelID
  let ev0 := [MsgEvent.getChannel fakeChannelID channelType]
  match env.GetChannel fakeChannelID channelType with
  | Except.error _ =>
    ⟨respSendackPacketsFnc ReasonCode.ReasonSystemError, none, ev0, [], false⟩
  | Except.ok none =>
    ⟨respSendackPacketsFnc ReasonCode.ReasonChannelNotExist, none, ev0, [], false⟩
  | Except.ok (some channel) =>
    let perm := hasPermission pc env.Allow channel conn.uid
    if perm.1 = false then
      ⟨respSendackPacketsFnc perm.2, none, ev0, [], false⟩
    else
      let st := buildMessages env conn channel sendPackets ⟨[], [], ev0, 0, false⟩
      if st.crashed = true then
        ⟨st.sendackPackets, none, st.events, st.messages, true⟩
      else if st.messages.length = 0 then
        ⟨st.sendackPackets, none, st.events, st.messages, false⟩
      else
        let stored := storeChannelMessagesIfNeed pc env conn.uid st.messages
        let ev1 := st.events ++ stored.events
        match stored.err with
        | some err =>
          ⟨st.sendackPackets ++ stored.messages.map
              (fun m => getSendackPacket m ReasonCode.ReasonSystemError),
            some err, ev1, st.messages, false⟩
        | none =>
          let notified :=
            if env.WebhookOn = true then storeChannelMessagesToNotifyQueue env stored.messages
            else ([], none)
          let ev2 := ev1 ++ notified.1
          match notified.2 with
          | some err =>
            ⟨st.sendackPackets ++ stored.messages.map
                (fun m => getSendackPacket m ReasonCode.ReasonSystemError),
              some err, ev2, st.messages, false⟩
          | none =>
            let ev3 := ev2 ++ [MsgEvent.put channel.ChannelID stored.messages conn.uid
              conn.deviceFlag conn.deviceID]
            match env.Put channel stored.messages conn.uid conn.deviceFlag conn.deviceID with
            | some err =>
              ⟨st.sendackPackets ++ stored.messages.map
                  (fun m => getSendackPacket m ReasonCode.ReasonSystemError),
                some err, ev3, st.messages, false⟩
            | none =>
              ⟨st.sendackPackets ++ stored.messages.map
                  (fun m => getSendackPacket m ReasonCode.ReasonSuccess),
                none, ev3, st.messages, false⟩

/-- Whether the packet loop of `prcocessChannelMessages` turns a packet into a message:
the syncOnce flag is unset and `checkAndDecodePayload` returns a payload. -/
def packetAccepted (env : MsgEnv) (conn : Conn) (sendPacket : SendPacket) : Bool :=
  !sendPacket.framer.SyncOnce &&
    (match checkAndDecodePayload env sendPacket conn with
      | GoResult.ok _ => true
      | _ => false)

/-- The message `m` carries the fields of the packet `sendPacket` and its decoded payload. -/
def builtFrom (env : MsgEnv) (conn : Conn) (m : Message) (sendPacket : SendPacket) : Prop :=
  m.ClientSeq = sendPacket.ClientSeq ∧ m.ClientMsgNo = sendPacket.ClientMsgNo ∧
    m.ChannelID = sendPacket.ChannelID ∧ m.ChannelType = sendPacket.ChannelType ∧
    m.StreamNo = sendPacket.StreamNo ∧ m.FromUID = conn.uid ∧
    checkAndDecodePayload env sendPacket conn = GoResult.ok m.Payload

/-- The messages handed to the store, to the notify queue or to `channel.Put` by an event. -/
def MsgEvent.messagesPassed : MsgEvent → List Message
  | MsgEvent.appendMessages _ _ messages => messages
  | MsgEvent.appendMessageOfNotifyQueue messages => messages
  | MsgEvent.put _ messages _ _ _ => messages
  | _ => []

/-- The sendacks handed to `response` directly, among the events. -/
def sendacksSent : List MsgEvent → List SendackPacket
  | [] => []
  | MsgEvent.response _ frame :: rest => frame :: sendacksSent rest
  | _ :: rest => sendacksSent rest

/-- The calls of `store.AppendMessages` among the events: channel id, channel type and the
message list passed. -/
def appendMessagesCalls : List MsgEvent → List (String × Nat × List Message)
  | [] => []
  | MsgEvent.appendMessages channelID channelType messages :: rest =>
    (channelID, channelType, messages) :: appendMessagesCalls rest
  | _ :: rest => appendMessagesCalls rest

/-- Whether an event is the notify-queue append or the delivery `channel.Put`. -/
def MsgEvent.isDelivery : MsgEvent → Bool
  | MsgEvent.appendMessageOfNotifyQueue _ => true
  | MsgEvent.put _ _ _ _ _ => true
  | _ => false

/-- The messages that `storeChannelMessagesIfNeed` hands to `AppendMessages`: persistent, not
syncOnce and not streaming. -/
def toAppend (env : MsgEnv) (messages : List Message) : List Message :=
  messages.filter (fun m => !m.framer.NoPersist && !m.framer.SyncOnce && !env.StreamIng m)

/-- A sample group channel without allowlist and denylist; `alice` is a subscriber. -/
def sampleOpenChannel : Channel :=
  { ChannelID := "grp"
    ChannelType := 2
    subscribers := ["alice"]
    tmpSubscribers := []
    allowlist := []
    denylist := [] }

/-- A sample authenticated connection of `alice`. -/
def sampleAuthedConn : Conn :=
  { id := 9, uid := "alice", deviceFlag := 1, deviceID := "d2", deviceLevel := 1,
    authed := true, aesKey := some "K", aesIV := some "IV", hasContext := true }

/-- A sample environment of the message path: every channel is `sampleOpenChannel`, the
message key of a packet is `md5:enc:` followed by its clientMsgNo, payloads decode to
themselves, a message streams when it has a stream number, and the store never fails. -/
def sampleMsgEnv : MsgEnv :=
  { WebhookOn := true
    GetChannel := fun _ _ => Except.ok (some sampleOpenChannel)
    Allow := Channel.Allow
    genMessageID := fun n => 1000 + n
    nowUnix := fun _ => 1700000000
    VerityString := fun p => p.ClientMsgNo
    AesEncryptPkcs7Base64 := fun s _ _ => Except.ok ("enc:" ++ s)
    MD5 := fun s => "md5:" ++ s
    AesDecryptPkcs7Base64 := fun p _ _ => Except.ok p
    StreamIng := fun m => m.StreamNo != ""
    AppendStreamItem := fun _ _ _ _ _ => none
    AppendMessages := fun _ _ msgs => Except.ok (List.range' 1 msgs.length)
    AppendMessageOfNotifyQueue := fun _ => none
    Put := fun _ _ _ _ _ => none }

/-- The sample environment with a store whose `AppendMessages` fails. -/
def sampleFailingStoreEnv : MsgEnv :=
  { sampleMsgEnv with AppendMessages := fun _ _ _ => Except.error "store is down" }

/-- A sample SEND to the group `grp` with a correct message key. -/
def sampleSend : SendPacket :=
  { ClientSeq := 1, ClientMsgNo := "m1", ChannelID := "grp", ChannelType := 2,
    MsgKey := "md5:enc:m1", Payload := [104, 105] }

/-- A sample SEND with a wrong message key. -/
def sampleBadKeySend : SendPacket :=
  { ClientSeq := 2, ClientMsgNo := "m2", ChannelID := "grp", ChannelType := 2,
    MsgKey := "forged", Payload := [104, 105] }

/-- A sample SEND with a wrong message key and the syncOnce flag set. -/
def sampleSyncOnceSend : SendPacket :=
  { framer := { SyncOnce := true }, ClientSeq := 3, ClientMsgNo := "m3", ChannelID := "grp",
    ChannelType := 2, MsgKey := "forged", Payload := [104, 105] }

/-! ## `Processor.processRecvacks` -/

/-- The frame `okproto.RecvackPacket`; `framer` is its embedded `Framer`. -/
structure RecvackPacket where
  framer : Framer := {}
  MessageID : Int := 0
  MessageSeq : Nat := 0
  deriving DecidableEq, Repr

/-- The calls `processRecvacks` makes, in program order: `retryQueue.finishMessage` and
`store.UpdateMessageOfUserCursorIfNeed`. Their errors are only logged. -/
inductive AckEvent where
  | finishMessage (uid deviceID : String) (messageID : Int)
  | updateMessageOfUserCursorIfNeed (uid : String) (messageSeq : Nat)
  deriving DecidableEq, Repr

/-- `Processor.processRecvacks`. -/
def processRecvacks (pc : ProtoConsts) (conn : Conn) : List RecvackPacket → List AckEvent
  | [] => []
  | ack :: rest =>
    let persist := !ack.framer.NoPersist
    (if persist = true then [AckEvent.finishMessage conn.uid conn.deviceID ack.MessageID]
      else []) ++
    (if ack.framer.SyncOnce = true ∧ persist = true ∧
        conn.deviceLevel = pc.DeviceLevelMaster then
        [AckEvent.updateMessageOfUserCursorIfNeed conn.uid ack.MessageSeq]
      else []) ++
    processRecvacks pc conn rest

/-- The cursor updates among the events: uid and messageSeq. -/
def cursorUpdates : List AckEvent → List (String × Nat)
  | [] => []
  | AckEvent.updateMessageOfUserCursorIfNeed uid messageSeq :: rest =>
    (uid, messageSeq) :: cursorUpdates rest
  | _ :: rest => cursorUpdates rest

/-! ## `ChannelAPI.syncMessages` -/

/-- The pull mode `PullModeDown` (the first `iota` constant of `PullMode`). -/
def PullModeDown : Int := 0

/-- The pull mode `PullModeUp`. -/
def PullModeUp : Int := 1

/-- The request body of `syncMessages`, once bound. -/
structure SyncRequest where
  LoginUID : String := ""
  ChannelID : String := ""
  ChannelType : Nat := 0
  StartMessageSeq : Nat := 0
  EndMessageSeq : Nat := 0
  Limit : Int := 0
  PullMode : Int := 0
  deriving DecidableEq, Repr

/-- The store read that `syncMessages` makes. -/
inductive LoadCall where
  | LoadLastMsgs (channelID : String) (channelType : Nat) (limit : Int)
  | LoadNextRangeMsgs (channelID : String) (channelType : Nat) (startSeq endSeq : Nat)
      (limit : Int)
  | LoadPrevRangeMsgs (channelID : String) (channelType : Nat) (startSeq endSeq : Nat)
      (limit : Int)
  deriving DecidableEq, Repr

/-- The channel id of a store read. -/
def LoadCall.channelID : LoadCall → String
  | LoadCall.LoadLastMsgs channelID _ _ => channelID
  | LoadCall.LoadNextRangeMsgs channelID _ _ _ _ => channelID
  | LoadCall.LoadPrevRangeMsgs channelID _ _ _ _ => channelID

/-- The limit of a store read. -/
def LoadCall.limit : LoadCall → Int
  | LoadCall.LoadLastMsgs _ _ limit => limit
  | LoadCall.LoadNextRangeMsgs _ _ _ _ limit => limit
  | LoadCall.LoadPrevRangeMsgs _ _ _ _ limit => limit

/-- Modelled from the spec: `MessageResp` and its method `from` (their declarations are not
part of the sources): the response form of a message, which keeps its messageSeq. -/
structure MessageResp where
  MessageID : Int
  MessageSeq : Nat
  ClientMsgNo : String
  FromUID : String
  ChannelID : String
  ChannelType : Nat
  Payload : List Nat
  deriving DecidableEq, Repr

/-- Modelled from the spec: `MessageResp.from`, which copies the message into its response
form. -/
def messageRespFrom (m : Message) : MessageResp :=
  { MessageID := m.MessageID
    MessageSeq := m.MessageSeq
    ClientMsgNo := m.ClientMsgNo
    FromUID := m.FromUID
    ChannelID := m.ChannelID
    ChannelType := m.ChannelType
    Payload := m.Payload }

/-- Modelled from the spec: `okutil.BoolToInt`. -/
def BoolToInt (b : Bool) : Nat := if b = true then 1 else 0

/-- The JSON body `syncMessageResp`. -/
structure SyncMessageResp where
  StartMessageSeq : Nat
  EndMessageSeq : Nat
  More : Nat
  Messages : List MessageResp
  deriving DecidableEq, Repr

/-- What `syncMessages` answers: an error, or the JSON body. -/
inductive SyncOutcome where
  | responseError (text : String)
  | json (body : SyncMessageResp)
  deriving DecidableEq, Repr

/-- The result of `syncMessages`: the store read made, if any, and the answer. -/
structure SyncResult where
  call : Option LoadCall
  outcome : SyncOutcome
  deriving DecidableEq, Repr

/-- The flag `more` computed by `syncMessages` (lines 617-638) from the request, the limit
and the response messages. -/
def syncMore (req : SyncRequest) (limit : Int) (messageResps : List MessageResp) : Bool :=
  let more := if (messageResps.length : Int) < limit then false else true
  match messageResps.head?, messageResps.getLast? with
  | some first, some last =>
    if req.PullMode = PullModeDown then
      if req.EndMessageSeq ≠ 0 then
        if req.EndMessageSeq = first.MessageSeq then false else more
      else more
    else
      if req.EndMessageSeq ≠ 0 then
        if req.EndMessageSeq = last.MessageSeq then false else more
      else more
  | _, _ => more

/-- The limit that `syncMessages` passes to the store (lines 584-592). -/
def syncLimit (req : SyncRequest) : Int :=
  if req.Limit > 10000 then 10000 else req.Limit

/-- The store read that `syncMessages` makes for a request (lines 594-604). -/
def syncCall (pc : ProtoConsts) (req : SyncRequest) : LoadCall :=
  let limit := syncLimit req
  let fakeChannelID :=
    if req.ChannelType = pc.ChannelTypePerson then
      GetFakeChannelIDWith req.LoginUID req.ChannelID
    else req.ChannelID
  if req.StartMessageSeq = 0 ∧ req.EndMessageSeq = 0 then
    LoadCall.LoadLastMsgs fakeChannelID req.ChannelType limit
  else if req.PullMode = PullModeUp then
    LoadCall.LoadNextRangeMsgs fakeChannelID req.ChannelType req.StartMessageSeq
      req.EndMessageSeq limit
  else
    LoadCall.LoadPrevRangeMsgs fakeChannelID req.ChannelType req.StartMessageSeq
      req.EndMessageSeq limit

/-- `ChannelAPI.syncMessages`; `body` is the outcome of `BindJSON` and `load` answers the
store read. -/
def syncMessages (pc : ProtoConsts) (load : LoadCall → Except String (List Message))
    (body : Except String SyncRequest) : SyncResult :=
  match body with
  | Except.error _ => ⟨none, SyncOutcome.responseError "数据格式有误！"⟩
  | Except.ok req =>
    match load (syncCall pc req) with
    | Except.error err => ⟨some (syncCall pc req), SyncOutcome.responseError err⟩
    | Except.ok messages =>
      let messageResps := messages.map messageRespFrom
      ⟨some (syncCall pc req), SyncOutcome.json
        { StartMessageSeq := req.StartMessageSeq
          EndMessageSeq := req.EndMessageSeq
          More := BoolToInt (syncMore req (syncLimit req) messageResps)
          Messages := messageResps }⟩

/-! ## `Processor.processSub` -/

/-- Modelled from the spec: the action of a SUB packet (`okproto.Action`, whose declaration is
not part of the sources; the name `Action` is taken in Mathlib), subscribe or unsubscribe. -/
inductive SubAction where
  | Subscribe | UnSubscribe
  deriving DecidableEq, Repr

/-- The frame `okproto.SubPacket`, as far as `processSub` reads it. -/
structure SubPacket where
  SubNo : String := ""
  ChannelID : String := ""
  ChannelType : Nat := 0
  Action : SubAction := SubAction.Subscribe
  Param : String := ""
  deriving DecidableEq, Repr

/-- The frame `okproto.SubackPacket`. -/
structure SubackPacket where
  SubNo : String
  ChannelID : String
  ChannelType : Nat
  Action : SubAction
  ReasonCode : ReasonCode
  deriving DecidableEq, Repr

/-- What `url.Parse` returns, as far as `processSub` reads it: the path and the query values
(`url.Values`, one list of values per key). -/
structure ParsedURL where
  Path : String
  Query : List (String × List String)
  deriving DecidableEq, Repr

/-- Everything `processSub` obtains from its collaborators. `AddSubscriber`, `RemoveSubscriber`
and `GetAllSubscribers` are the methods of `Channel` of these names, whose declarations are not
part of the sources: the first two give the channel object after the call. -/
structure SubEnv where
  urlParse : String → Except String ParsedURL
  GetChannel : String → Nat → Except String (Option Channel)
  JSONToMap : String → List (String × String)
  ExistConnsWithUID : String → Bool
  AddSubscriber : Channel → String → Channel
  RemoveSubscriber : Channel → String → Channel
  GetAllSubscribers : Channel → List String

/-- What `processSub` does to the outside world, in program order: the channel lookup, the
frame handed to `response`, the eviction of a data channel, and the calls that change the
subscription set of the connection (`connContext.subscribeChannel` and `unscribeChannel`). -/
inductive SubEvent where
  | getChannel (channelID : String) (channelType : Nat)
  | response (connID : Int) (frame : SubackPacket)
  | removeDataChannel (channelID : String) (channelType : Nat)
  | subscribeChannel (connID : Int) (channelID : String) (channelType : Nat)
      (paramMap : List (String × String))
  | unscribeChannel (connID : Int) (channelID : String) (channelType : Nat)
  deriving DecidableEq, Repr

/-- The assignment `m[k] = v` on a Go map with string keys, held as an association list. -/
def mapSet (m : List (String × String)) (k v : String) : List (String × String) :=
  m.filter (fun e => e.1 ≠ k) ++ [(k, v)]

/-- The loop over the query values in `processSub` (lines 567-574): every key with at least
one value is mapped to its first value. -/
def queryParams (values : List (String × List String)) : List (String × String) :=
  values.foldl
    (fun paramMap kv =>
      match kv.2 with
      | [] => paramMap
      | first :: _ => mapSet paramMap kv.1 first)
    []

/-- The merge of the JSON parameters into the parameter map (lines 598-602). -/
def mergeParams (paramMap paramM : List (String × String)) : List (String × String) :=
  if paramM.length > 0 then paramM.foldl (fun m kv => mapSet m kv.1 kv.2) paramMap
  else paramMap

/-- `Processor.getSuback`. -/
def getSuback (subPacket : SubPacket) (channelID : String) (reasonCode : ReasonCode) :
    SubackPacket :=
  { SubNo := subPacket.SubNo
    ChannelID := channelID
    ChannelType := subPacket.ChannelType
    Action := subPacket.Action
    ReasonCode := reasonCode }

/-- The result of `processSub`: everything done in program order, the channel object as the
call left it when the call wrote to one (`none` when no channel was written to), and whether
the run failed on the type assertion `conn.Context().(*connContext)`. -/
structure SubResult where
  events : List SubEvent
  channel : Option Channel
  crashed : Bool
  deriving DecidableEq, Repr

/-- `Processor.processSub`. -/
def processSub (pc : ProtoConsts) (env : SubEnv) (conn : Conn) (subPacket : SubPacket) :
    SubResult :=
  match env.urlParse subPacket.ChannelID with
  | Except.error _ => ⟨[], none, false⟩
  | Except.ok channelIDUrl =>
    let channelID := channelIDUrl.Path
    if TrimSpace channelID = "" then ⟨[], none, false⟩
    else
      let paramMap := queryParams channelIDUrl.Query
      if subPacket.ChannelType ≠ pc.ChannelTypeData then
        ⟨[SubEvent.response conn.id
            (getSuback subPacket channelID ReasonCode.ReasonNotSupportChannelType)],
          none, false⟩
      else
        let ev0 := [SubEvent.getChannel channelID subPacket.ChannelType]
        match env.GetChannel channelID subPacket.ChannelType with
        | Except.error _ =>
          ⟨ev0 ++ [SubEvent.response conn.id
              (getSuback subPacket channelID ReasonCode.ReasonSystemError)], none, false⟩
        | Except.ok none =>
          ⟨ev0 ++ [SubEvent.response conn.id
              (getSuback subPacket channelID ReasonCode.ReasonChannelNotExist)], none, false⟩
        | Except.ok (some channel) =>
          if conn.hasContext = false then ⟨ev0, none, true⟩
          else if subPacket.Action = SubAction.Subscribe then
            let paramMap :=
              if TrimSpace subPacket.Param ≠ "" then
                mergeParams paramMap (env.JSONToMap subPacket.Param)
              else paramMap
            ⟨ev0 ++
              [SubEvent.subscribeChannel conn.id channelID subPacket.ChannelType paramMap,
               SubEvent.response conn.id
                (getSuback subPacket channelID ReasonCode.ReasonSuccess)],
              some (env.AddSubscriber channel conn.uid), false⟩
          else
            let removed := !env.ExistConnsWithUID conn.uid
            let channel1 := if removed = true then env.RemoveSubscriber channel conn.uid
              else channel
            ⟨ev0 ++
              (if subPacket.ChannelType = pc.ChannelTypeData ∧
                  (env.GetAllSubscribers channel1).length = 0 then
                [SubEvent.removeDataChannel channelID subPacket.ChannelType]
              else []) ++
              [SubEvent.unscribeChannel conn.id channelID subPacket.ChannelType,
               SubEvent.response conn.id
                (getSuback subPacket channelID ReasonCode.ReasonSuccess)],
              if removed = true then some channel1 else none, false⟩

/-- The subacks handed to `response`, among the events. -/
def subacksSent : List SubEvent → List SubackPacket
  | [] => []
  | SubEvent.response _ frame :: rest => frame :: subacksSent rest
  | _ :: rest => subacksSent rest

/-- Whether an event changes the subscription set of the connection. -/
def SubEvent.changesSubscriptions : SubEvent → Bool
  | SubEvent.subscribeChannel _ _ _ _ => true
  | SubEvent.unscribeChannel _ _ _ => true
  | _ => false

/-- A sample environment of `processSub`: a channel id parses to itself as path, without
query values, except that an id starting with a colon does not parse; every channel is
`sampleOpenChannel`; subscribers are kept in the list `subscribers`. -/
def sampleSubEnv : SubEnv :=
  { urlParse := fun s =>
      if s.toList.head? = some ':' then Except.error "missing protocol scheme"
      else Except.ok { Path := s, Query := [] }
    GetChannel := fun _ _ => Except.ok (some sampleOpenChannel)
    JSONToMap := fun _ => []
    ExistConnsWithUID := fun _ => false
    AddSubscriber := fun c uid => { c with subscribers := c.subscribers ++ [uid] }
    RemoveSubscriber := fun c uid => { c with subscribers := c.subscribers.filter (· ≠ uid) }
    GetAllSubscribers := fun c => c.subscribers }

/-- A sample SUB to the group channel `grp` of type 2, which is not the data channel type. -/
def sampleSub : SubPacket :=
  { SubNo := "s1", ChannelID := "grp", ChannelType := 2, Action := SubAction.Subscribe }

/-- A sample SUB with an empty channel id, to a channel type that is not the data type. -/
def sampleBlankSub : SubPacket :=
  { SubNo := "s2", ChannelID := "", ChannelType := 2, Action := SubAction.Subscribe }

/-- A sample SUB whose channel id does not parse as a URL, to a channel type that is not the
data type. -/
def sampleUnparsableSub : SubPacket :=
  { SubNo := "s3", ChannelID := ":grp", ChannelType := 2, Action := SubAction.Subscribe }

/-! ## `ChannelAPI.whitelistSet` -/

/-- The request body `whitelistReq` (the embedded `ChannelUidsReq`), once bound. -/
structure whitelistReq where
  ChannelID : String := ""
  ChannelType : Nat := 0
  UIDs : List String := []
  deriving DecidableEq, Repr

/-- What `whitelistSet` obtains from the store and the channel manager. An error is
`some text`, no error is `none`. -/
structure AllowlistEnv where
  RemoveAllAllowlist : String → Nat → Option String
  AddAllowlist : String → Nat → List String → Option String
  GetChannel : String → Nat → Except String (Option Channel)

/-- What `whitelistSet` does to the outside world, in program order: the store calls, the
channel lookup and the HTTP answer. -/
inductive ApiEvent where
  | removeAllAllowlist (channelID : String) (channelType : Nat)
  | addAllowlist (channelID : String) (channelType : Nat) (uids : List String)
  | getChannel (channelID : String) (channelType : Nat)
  | responseError (text : String)
  | responseOK
  deriving DecidableEq, Repr

/-- Modelled from the spec: `Channel.SetAllowlist` (not part of the sources), which replaces
the cached allowlist of the channel by the given uids. -/
def Channel.SetAllowlist (c : Channel) (uids : List String) : Channel :=
  { c with allowlist := uids }

/-- The result of `whitelistSet`: everything done in program order, the cached channel object
as the call left it when the call wrote to it, and whether the run failed on calling
`SetAllowlist` on the nil channel that `GetChannel` returned without an error. -/
structure AllowlistResult where
  events : List ApiEvent
  channel : Option Channel
  crashed : Bool
  deriving DecidableEq, Repr

/-- `ChannelAPI.whitelistSet`; `body` is the outcome of `BindJSON`. -/
def whitelistSet (env : AllowlistEnv) (body : Except String whitelistReq) : AllowlistResult :=
  match body with
  | Except.error err => ⟨[ApiEvent.responseError err], none, false⟩
  | Except.ok req =>
    if TrimSpace req.ChannelID = "" then
      ⟨[ApiEvent.responseError "频道ID不能为空！"], none, false⟩
    else
      let ev0 := [ApiEvent.removeAllAllowlist req.ChannelID req.ChannelType]
      match env.RemoveAllAllowlist req.ChannelID req.ChannelType with
      | some _ => ⟨ev0 ++ [ApiEvent.responseError "移除所有白明单失败！"], none, false⟩
      | none =>
        let added : List ApiEvent × Option String :=
          if req.UIDs.length > 0 then
            ([ApiEvent.addAllowlist req.ChannelID req.ChannelType req.UIDs],
              env.AddAllowlist req.ChannelID req.ChannelType req.UIDs)
          else ([], none)
        let ev1 := ev0 ++ added.1
        match added.2 with
        | some err => ⟨ev1 ++ [ApiEvent.responseError err], none, false⟩
        | none =>
          let ev2 := ev1 ++ [ApiEvent.getChannel req.ChannelID req.ChannelType]
          match env.GetChannel req.ChannelID req.ChannelType with
          | Except.error err => ⟨ev2 ++ [ApiEvent.responseError err], none, false⟩
          | Except.ok none => ⟨ev2, none, true⟩
          | Except.ok (some channelObj) =>
            ⟨ev2 ++ [ApiEvent.responseOK], some (channelObj.SetAllowlist req.UIDs), false⟩

/-- Whether an event is a call of `store.AddAllowlist`. -/
def ApiEvent.isAddAllowlist : ApiEvent → Bool
  | ApiEvent.addAllowlist _ _ _ => true
  | _ => false

/-- A sample store and channel manager that never fail; every channel is `sampleChannel`,
whose allowlist is not empty. -/
def sampleAllowlistEnv : AllowlistEnv :=
  { RemoveAllAllowlist := fun _ _ => none
    AddAllowlist := fun _ _ _ => none
    GetChannel := fun _ _ => Except.ok (some sampleChannel) }

/-- A sample request that sets the allowlist of the group channel `grp` to the empty list. -/
def sampleWhitelistReset : whitelistReq :=
  { ChannelID := "grp", ChannelType := 2, UIDs := [] }

/-- A sample streaming message of `alice` to the group channel `grp` of type 2. -/
def sampleStreamMessage : Message :=
  { MessageID := 1001, ClientMsgNo := "m1", StreamNo := "s1", FromUID := "alice",
    ChannelID := "grp", ChannelType := 2, Payload := [104, 105] }

/-- A sample message of `alice` to the group channel `grp` of type 2 that does not stream. -/
def samplePlainMessage : Message :=
  { MessageID := 1002, ClientMsgNo := "m2", FromUID := "alice", ChannelID := "grp",
    ChannelType := 2, Payload := [104, 105] }

/-- The online webhooks emitted among the events: uid, device flag and connection. -/
def onlinesEmitted : List Event → List (String × Nat × Int)
  | [] => []
  | Event.online uid deviceFlag connID _ _ :: rest =>
    (uid, deviceFlag, connID) :: onlinesEmitted rest
  | _ :: rest => onlinesEmitted rest

/-! ## `ChannelAPI.blacklistSet` -/

/-- The request body `blacklistReq` (the embedded `ChannelUidsReq`), once bound. -/
structure blacklistReq where
  ChannelID : String := ""
  ChannelType : Nat := 0
  UIDs : List String := []
  deriving DecidableEq, Repr

/-- What `blacklistSet` obtains from the options, the store and the channel manager. An error
is `some text`, no error is `none`. -/
structure DenylistEnv where
  IsFakeChannel : String → Bool
  RemoveAllDenylist : String → Nat → Option String
  AddDenylist : String → Nat → List String → Option String
  GetChannel : String → Nat → Except String (Option Channel)

/-- What `blacklistSet` does to the outside world, in program order: the store calls, the
channel lookup, the call `SetDenylist` on the channel object that the lookup under
`channelID` returned, and the HTTP answer. -/
inductive DenyEvent where
  | removeAllDenylist (channelID : String) (channelType : Nat)
  | addDenylist (channelID : String) (channelType : Nat) (uids : List String)
  | getChannel (channelID : String) (channelType : Nat)
  | setDenylist (channelID : String) (channelType : Nat) (uids : List String)
  | responseError (text : String)
  | responseOK
  deriving DecidableEq, Repr

/-- The result of `blacklistSet`: everything done in program order, and whether the run failed
on calling `SetDenylist` on the nil channel that `GetChannel` returned without an error. -/
structure DenylistResult where
  events : List DenyEvent
  crashed : Bool
  deriving DecidableEq, Repr

/-- The steps of `blacklistSet` for one channel (lines 348-368 and 371-391): remove all, add
`uids` when the request carries uids, look the channel up and set its cached denylist to
`uids`. Returns the events and `none` when the steps went through, or the events and the
result with which `blacklistSet` returns. -/
def setDenylistOf (env : DenylistEnv) (req : blacklistReq) (channelID : String)
    (uids : List String) : List DenyEvent × Option DenylistResult :=
  let ev0 := [DenyEvent.removeAllDenylist channelID req.ChannelType]
  match env.RemoveAllDenylist channelID req.ChannelType with
  | some _ => (ev0, some ⟨ev0 ++ [DenyEvent.responseError "移除所有黑明单失败！"], false⟩)
  | none =>
    let added : List DenyEvent × Option String :=
      if req.UIDs.length > 0 then
        ([DenyEvent.addDenylist channelID req.ChannelType uids],
          env.AddDenylist channelID req.ChannelType uids)
      else ([], none)
    let ev1 := ev0 ++ added.1
    match added.2 with
    | some err => (ev1, some ⟨ev1 ++ [DenyEvent.responseError err], false⟩)
    | none =>
      let ev2 := ev1 ++ [DenyEvent.getChannel channelID req.ChannelType]
      match env.GetChannel channelID req.ChannelType with
      | Except.error err => (ev2, some ⟨ev2 ++ [DenyEvent.responseError err], false⟩)
      | Except.ok none => (ev2, some ⟨ev2, true⟩)
      | Except.ok (some _) =>
        (ev2 ++ [DenyEvent.setDenylist channelID req.ChannelType uids], none)

/-- The loop of `blacklistSet` over the uids of a person channel (lines 343-369); `done` holds
the events of the iterations before. -/
def blacklistSetPerson (env : DenylistEnv) (req : blacklistReq) :
    List String → List DenyEvent → DenylistResult
  | [], done => ⟨done ++ [DenyEvent.responseOK], false⟩
  | uid :: rest, done =>
    let fakeChannelID :=
      if env.IsFakeChannel req.ChannelID = true then req.ChannelID
      else GetFakeChannelIDWith uid req.ChannelID
    match setDenylistOf env req fakeChannelID [uid] with
    | (_, some stop) => ⟨done ++ stop.events, stop.crashed⟩
    | (events, none) => blacklistSetPerson env req rest (done ++ events)

/-- `ChannelAPI.blacklistSet`; `body` is the outcome of `BindJSON`. -/
def blacklistSet (pc : ProtoConsts) (env : DenylistEnv) (body : Except String blacklistReq) :
    DenylistResult :=
  match body with
  | Except.error err => ⟨[DenyEvent.responseError err], false⟩
  | Except.ok req =>
    if TrimSpace req.ChannelID = "" then
      ⟨[DenyEvent.responseError "频道ID不能为空！"], false⟩
    else if req.ChannelType = pc.ChannelTypePerson then
      blacklistSetPerson env req req.UIDs []
    else
      match setDenylistOf env req req.ChannelID req.UIDs with
      | (_, some stop) => stop
      | (events, none) => ⟨events ++ [DenyEvent.responseOK], false⟩

/-- Modelled from the spec: the denylist that the store holds for a channel after the store
calls among the events, when it held `before`: `RemoveAllDenylist` empties the list of its
channel and `AddDenylist` adds its uids to the list of its channel. -/
def storeDenylistAfter (channelID : String) (channelType : Nat) :
    List DenyEvent → List String → List String
  | [], held => held
  | DenyEvent.removeAllDenylist c t :: rest, held =>
    if c = channelID ∧ t = channelType then storeDenylistAfter channelID channelType rest []
    else storeDenylistAfter channelID channelType rest held
  | DenyEvent.addDenylist c t uids :: rest, held =>
    if c = channelID ∧ t = channelType then
      storeDenylistAfter channelID channelType rest (held ++ uids)
    else storeDenylistAfter channelID channelType rest held
  | _ :: rest, held => storeDenylistAfter channelID channelType rest held

/-- Modelled from the spec: the denylist of the cached channel object after the calls of
`Channel.SetDenylist` among the events, when it held `before`: `SetDenylist` replaces the
list. -/
def cacheDenylistAfter (channelID : String) (channelType : Nat) :
    List DenyEvent → List String → List String
  | [], held => held
  | DenyEvent.setDenylist c t uids :: rest, held =>
    if c = channelID ∧ t = channelType then cacheDenylistAfter channelID channelType rest uids
    else cacheDenylistAfter channelID channelType rest held
  | _ :: rest, held => cacheDenylistAfter channelID channelType rest held

/-- A sample environment of `blacklistSet` in which every channel id counts as a fake channel
id already; the store never fails and every channel is `sampleOpenChannel`. -/
def sampleBypassEnv : DenylistEnv :=
  { IsFakeChannel := fun _ => true
    RemoveAllDenylist := fun _ _ => none
    AddDenylist := fun _ _ _ => none
    GetChannel := fun _ _ => Except.ok (some sampleOpenChannel) }

/-- A sample request that sets the denylist of the person channel `alice@bob` to two uids. -/
def sampleBlacklistTwo : blacklistReq :=
  { ChannelID := "alice@bob", ChannelType := 1, UIDs := ["bob", "carol"] }

/-- A sample request that sets the denylist of the person channel `alice@bob` to no uid. -/
def sampleBlacklistNone : blacklistReq :=
  { ChannelID := "alice@bob", ChannelType := 1, UIDs := [] }

/-! ## `Processor.processMsgs` -/

/-- The key `fmt.Sprintf("%s-%d", sendPacket.ChannelID, sendPacket.ChannelType)` under which
`processMsgs` files a packet. -/
def channelKey (sendPacket : SendPacket) : String :=
  sendPacket.ChannelID ++ "-" ++ toString sendPacket.ChannelType

/-- The body of the first loop of `processMsgs` (lines 260-266) on the map
`channelSendPacketMap`, held as an association list in the order in which the keys were first
inserted: the packet is appended to the slice of its key. -/
def mapAppend : List (String × List SendPacket) → String → SendPacket →
    List (String × List SendPacket)
  | [], channelKey, sendPacket => [(channelKey, [sendPacket])]
  | (k, channelSendpackets) :: rest, channelKey, sendPacket =>
    if k = channelKey then (k, channelSendpackets ++ [sendPacket]) :: rest
    else (k, channelSendpackets) :: mapAppend rest channelKey sendPacket

/-- The first loop of `processMsgs` (lines 259-267): split the packets by channel. -/
def splitByChannel : List SendPacket → List (String × List SendPacket) →
    List (String × List SendPacket)
  | [], channelSendPacketMap => channelSendPacketMap
  | sendPacket :: rest, channelSendPacketMap =>
    splitByChannel rest (mapAppend channelSendPacketMap (channelKey sendPacket) sendPacket)

/-- The result of `processMsgs`: everything its calls of `prcocessChannelMessages` did, the
frames of its final `response` (made unless the run failed), and whether the run failed. -/
structure MsgsResult where
  events : List MsgEvent
  sendackPackets : List SendackPacket
  crashed : Bool
  deriving DecidableEq, Repr

/-- The second loop of `processMsgs` (lines 270-279). Go does not fix the order in which
`range` visits a map; here the partitions are visited in the order of their first packets. -/
def processChannels (pc : ProtoConsts) (env : MsgEnv) (conn : Conn) :
    List (String × List SendPacket) → List MsgEvent → List SendackPacket → MsgsResult
  | [], events, sendackPackets => ⟨events, sendackPackets, false⟩
  | (_, sendPackets) :: rest, events, sendackPackets =>
    match sendPackets with
    | [] => ⟨events, sendackPackets, true⟩
    | firstSendPacket :: _ =>
      let r := prcocessChannelMessages pc env conn firstSendPacket.ChannelID
        firstSendPacket.ChannelType sendPackets
      if r.crashed = true then ⟨events ++ r.events, sendackPackets, true⟩
      else
        processChannels pc env conn rest (events ++ r.events)
          (if r.sendackPackets.length > 0 then sendackPackets ++ r.sendackPackets
            else sendackPackets)

/-- `Processor.processMsgs`. -/
def processMsgs (pc : ProtoConsts) (env : MsgEnv) (conn : Conn)
    (sendPackets : List SendPacket) : MsgsResult :=
  processChannels pc env conn (splitByChannel sendPackets []) [] []

/-- What the first loop of `processMsgs` keeps true of the map after the packets `done`: keys
are distinct, the slice of a key holds the packets of that key in input order and is not
empty, and every packet handled has its key in the map. -/
def partitionOf (m : List (String × List SendPacket)) (done : List SendPacket) : Prop :=
  (m.map Prod.fst).Nodup ∧
    (∀ e ∈ m, e.2 = done.filter (fun p => decide (channelKey p = e.1)) ∧ e.2 ≠ []) ∧
    ∀ p ∈ done, channelKey p ∈ m.map Prod.fst

/-- The value of a list of decimal digit characters. -/
def decimalValue (digits : List Char) : Nat :=
  digits.foldl (fun value c => 10 * value + (c.toNat - 48)) 0

/-- A sample batch of five SEND packets to three channels: `a-1` of type 2, `a` of type 12 and
`a` of type 2. -/
def sampleBatch : List SendPacket :=
  [{ ClientSeq := 1, ChannelID := "a-1", ChannelType := 2 },
   { ClientSeq := 2, ChannelID := "a", ChannelType := 12 },
   { ClientSeq := 3, ChannelID := "a-1", ChannelType := 2 },
   { ClientSeq := 4, ChannelID := "a", ChannelType := 2 },
   { ClientSeq := 5, ChannelID := "a", ChannelType := 12 }]

/-- The channels looked up, among the events: one `(channelId, channelType)` pair per call of
`channelManager.GetChannel`, which every run of `prcocessChannelMessages` makes first. -/
def channelsLookedUp : List MsgEvent → List (String × Nat)
  | [] => []
  | MsgEvent.getChannel channelID channelType :: rest =>
    (channelID, channelType) :: channelsLookedUp rest
  | _ :: rest => channelsLookedUp rest

/-- The client reference of a packet: clientSeq and clientMsgNo, by which a client matches a
sendack with the packet it sent. -/
def SendPacket.clientRef (sendPacket : SendPacket) : Nat × String :=
  (sendPacket.ClientSeq, sendPacket.ClientMsgNo)

/-- The client reference that a sendack carries. -/
def SendackPacket.clientRef (sendack : SendackPacket) : Nat × String :=
  (sendack.ClientSeq, sendack.ClientMsgNo)

/-- The client reference that a built message carries. -/
def Message.clientRef (m : Message) : Nat × String := (m.ClientSeq, m.ClientMsgNo)

/-- All sendacks that a run of `prcocessChannelMessages` produces: those it sends directly
while it runs, followed by those it returns. -/
def ChannelMessagesResult.allSendacks (r : ChannelMessagesResult) : List SendackPacket :=
  sendacksSent r.events ++ r.sendackPackets

/-! ## `Processor.processSameFrame` and `Processor.processFrames` -/

/-- What the frame handlers obtain from outside: the collaborators of the message path and of
`processSub`, and the packet behind a frame, which the type assertions
`frame.(*okproto.SendPacket)`, `frame.(*okproto.RecvackPacket)` and `frame.(*okproto.SubPacket)`
yield. -/
structure FrameEnv where
  msg : MsgEnv
  sub : SubEnv
  sendPacketOf : Frame → SendPacket
  recvackPacketOf : Frame → RecvackPacket
  subPacketOf : Frame → SubPacket

/-- What `processSameFrame` does, in program order: the Pong of `processPing`, the events of
the message path and the final `response` of `processMsgs` with its sendacks, the calls of
`processRecvacks`, the events of `processSub`, and the call `finishFrames(count)`. -/
inductive FrameEvent where
  | pong (connID : Int)
  | msg (ev : MsgEvent)
  | sendacks (connID : Int) (frames : List SendackPacket)
  | ack (ev : AckEvent)
  | sub (ev : SubEvent)
  | finishFrames (count : Nat)
  deriving DecidableEq, Repr

/-- The result of `processSameFrame`: the events in program order and whether the run failed
at run time before its end. -/
structure FrameResult where
  events : List FrameEvent
  crashed : Bool
  deriving DecidableEq, Repr

/-- `Processor.processPing`. -/
def processPing (conn : Conn) : List FrameEvent := [FrameEvent.pong conn.id]

/-- `Processor.processSubs`: `processSub` on every packet in turn; a packet on which
`processSub` fails ends the run. The channel manager answers as `env.GetChannel` says. -/
def processSubs (pc : ProtoConsts) (env : SubEnv) (conn : Conn) :
    List SubPacket → List SubEvent → List SubEvent × Bool
  | [], events => (events, false)
  | subPacket :: rest, events =>
    let r := processSub pc env conn subPacket
    if r.crashed = true then (events ++ r.events, true)
    else processSubs pc env conn rest (events ++ r.events)

/-- `Processor.processSameFrame`. The index expression `frames[0]` of the PING case fails on
an empty slice, and the type assertion `conn.Context().(*connContext)` before `finishFrames`
fails on a connection without context. -/
def processSameFrame (pc : ProtoConsts) (env : FrameEnv) (conn : Conn)
    (frameType : FrameType) (frames : List Frame) : FrameResult :=
  let handled : FrameResult :=
    match frameType with
    | FrameType.PING =>
      match frames with
      | [] => ⟨[], true⟩
      | _ :: _ => ⟨processPing conn, false⟩
    | FrameType.SEND =>
      let r := processMsgs pc env.msg conn (frames.map env.sendPacketOf)
      if r.crashed = true then ⟨r.events.map FrameEvent.msg, true⟩
      else
        ⟨r.events.map FrameEvent.msg ++ [FrameEvent.sendacks conn.id r.sendackPackets], false⟩
    | FrameType.RECVACK =>
      ⟨(processRecvacks pc conn (frames.map env.recvackPacketOf)).map FrameEvent.ack, false⟩
    | FrameType.SUB =>
      let r := processSubs pc env.sub conn (frames.map env.subPacketOf) []
      ⟨r.1.map FrameEvent.sub, r.2⟩
    | _ => ⟨[], false⟩
  if handled.crashed = true then handled
  else if conn.hasContext = false then ⟨handled.events, true⟩
  else ⟨handled.events ++ [FrameEvent.finishFrames frames.length], false⟩

/-- `Processor.processFrames`: one run of `processSameFrame` per callback of `sameFrames`, each
submitted to the worker pool; the results are listed in the order of submission. -/
def processFrames (pc : ProtoConsts) (env : FrameEnv) (conn : Conn) (frames : List Frame) :
    List FrameResult :=
  (sameFrames frames).map (fun c =>
    match c.fs with
    | [] => ⟨[], true⟩
    | first :: _ => processSameFrame pc env conn first.GetFrameType c.fs)

/-- The Pong frames sent among the events: the connection of each. -/
def pongsSent : List FrameEvent → List Int
  | [] => []
  | FrameEvent.pong connID :: rest => connID :: pongsSent rest
  | _ :: rest => pongsSent rest

/-- The counts passed to `finishFrames` among the events. -/
def finishCounts : List FrameEvent → List Nat
  | [] => []
  | FrameEvent.finishFrames count :: rest => count :: finishCounts rest
  | _ :: rest => finishCounts rest

/-- A sample environment of the frame handlers: the packet behind a frame is a sample packet
whose client sequence number is the frame body. -/
def sampleFrameEnv : FrameEnv :=
  { msg := sampleMsgEnv
    sub := sampleSubEnv
    sendPacketOf := fun f => { sampleSend with ClientSeq := f.body }
    recvackPacketOf := fun f => { MessageID := f.body, MessageSeq := f.body }
    subPacketOf := fun _ => sampleSub }

/-- A sample batch of frames: two PING, two SEND, one RECVACK, one CONNACK and one SUB. -/
def sampleFrames : List Frame :=
  [⟨FrameType.PING, 1⟩, ⟨FrameType.PING, 2⟩, ⟨FrameType.SEND, 3⟩, ⟨FrameType.SEND, 4⟩,
   ⟨FrameType.RECVACK, 5⟩, ⟨FrameType.CONNACK, 6⟩, ⟨FrameType.SUB, 7⟩]

/-! ## Lemmas on `sameFrames` -/

theorem mem_goSlice {α : Type} (xs : List α) (s e : Nat) (x : α) (hx : x ∈ goSlice xs s e) :
    ∃ k, s ≤ k ∧ k < e ∧ xs[k]? = some x := by
  unfold goSlice at hx
  obtain ⟨n, hn⟩ := List.mem_iff_getElem?.mp hx
  rw [List.getElem?_drop, List.getElem?_take] at hn
  refine ⟨s + n, Nat.le_add_right s n, ?_, ?_⟩
  · by_contra hlt
    simp [hlt] at hn
  · by_cases hlt : s + n < e
    · simpa [hlt] using hn
    · simp [hlt] at hn

theorem goSlice_append_drop {α : Type} (xs : List α) (s e : Nat) (hse : s ≤ e)
    (he : e ≤ xs.length) : goSlice xs s e ++ xs.drop e = xs.drop s := by
  unfold goSlice
  have h1 : s ≤ (xs.take e).length := by simp [List.length_take]; omega
  rw [← List.drop_append_of_le_length h1, List.take_append_drop]

theorem goSlice_head {α : Type} (xs : List α) (s e : Nat) (x : α) (hse : s < e)
    (hx : xs[s]? = some x) : x ∈ goSlice xs s e := by
  unfold goSlice
  refine List.mem_iff_getElem?.mpr ⟨0, ?_⟩
  rw [List.getElem?_drop, List.getElem?_take]
  simpa [hse] using hx

theorem sameFramesEnd_spec (frames : List Frame) (ft : FrameType) :
    ∀ fuel e, e ≤ frames.length → frames.length - e ≤ fuel →
      e ≤ sameFramesEnd frames ft fuel e ∧
      sameFramesEnd frames ft fuel e ≤ frames.length ∧
      (∀ k f, e ≤ k → k < sameFramesEnd frames ft fuel e → frames[k]? = some f →
        f.frameType = ft) ∧
      (∀ f, frames[sameFramesEnd frames ft fuel e]? = some f → f.frameType ≠ ft) := by
  intro fuel
  induction fuel with
  | zero =>
    intro e he hfuel
    have hlen : e = frames.length := by omega
    simp only [sameFramesEnd]
    refine ⟨Nat.le_refl e, he, ?_, ?_⟩
    · intro k f h1 h2; omega
    · intro f hf
      rw [hlen, List.getElem?_eq_none (Nat.le_refl _)] at hf
      cases hf
  | succ fuel ih =>
    intro e he hfuel
    simp only [sameFramesEnd]
    by_cases h : e < frames.length
    · by_cases hty : (frames.get ⟨e, h⟩).GetFrameType = ft
      · simp only [h, hty, dite_true, if_true]
        obtain ⟨h1, h2, h3, h4⟩ := ih (e + 1) h (by omega)
        refine ⟨by omega, h2, ?_, h4⟩
        intro k f hk1 hk2 hkf
        by_cases hke : k = e
        · subst hke
          rw [List.getElem?_eq_getElem h] at hkf
          cases hkf
          exact hty
        · exact h3 k f (by omega) hk2 hkf
      · simp only [h, hty, dite_true, if_false]
        refine ⟨Nat.le_refl e, he, ?_, ?_⟩
        · intro k f h1 h2; omega
        · intro f hf
          rw [List.getElem?_eq_getElem h] at hf
          cases hf
          exact hty
    · simp only [h, dite_false]
      refine ⟨Nat.le_refl e, he, ?_, ?_⟩
      · intro k f h1 h2; omega
      · intro f hf
        rw [List.getElem?_eq_none (by omega)] at hf
        cases hf

theorem sameFramesFrom_spec (frames : List Frame) :
    ∀ fuel i, i ≤ frames.length → frames.length - i ≤ fuel →
      ((sameFramesFrom frames fuel i).map Call.fs).flatten = frames.drop i ∧
      (∀ c ∈ sameFramesFrom frames fuel i, Call.wellFormed frames c) ∧
      (∀ c, (sameFramesFrom frames fuel i).head? = some c → c.s = i) ∧
      List.Chain' (fun a b => b.s = a.e ∧ ∀ f ∈ a.fs, ∀ g ∈ b.fs, f.frameType ≠ g.frameType)
        (sameFramesFrom frames fuel i) ∧
      (∀ c, (sameFramesFrom frames fuel i).getLast? = some c → c.e = frames.length) := by
  intro fuel
  induction fuel with
  | zero =>
    intro i hi hfuel
    have hlen : frames.length ≤ i := by omega
    simp [sameFramesFrom, List.drop_eq_nil_of_le hlen]
  | succ fuel ih =>
    intro i hi hfuel
    by_cases h : i < frames.length
    · obtain ⟨e1, e2, e3, e4⟩ :=
        sameFramesEnd_spec frames (frames.get ⟨i, h⟩).GetFrameType
          (frames.length - (i + 1)) (i + 1) h (Nat.le_refl _)
      generalize hE : sameFramesEnd frames (frames.get ⟨i, h⟩).GetFrameType
        (frames.length - (i + 1)) (i + 1) = e at e1 e2 e3 e4
      have hunf : sameFramesFrom frames (fuel + 1) i =
          ⟨i, e, goSlice frames i e⟩ :: sameFramesFrom frames fuel e := by
        simp only [sameFramesFrom, h, dite_true, hE]
      obtain ⟨r1, r2, r3, r4, r5⟩ := ih e e2 (by omega)
      have hget : frames[i]? = some (frames.get ⟨i, h⟩) := by
        rw [List.getElem?_eq_getElem h]; rfl
      have huni : ∀ f ∈ goSlice frames i e, f.frameType = (frames.get ⟨i, h⟩).GetFrameType := by
        intro f hf
        obtain ⟨k, hk1, hk2, hk3⟩ := mem_goSlice frames i e f hf
        by_cases hki : k = i
        · subst hki
          rw [hget] at hk3
          cases hk3
          rfl
        · exact e3 k f (by omega) hk2 hk3
      rw [hunf]
      refine ⟨?_, ?_, ?_, ?_, ?_⟩
      · simp only [List.map_cons, List.flatten_cons, r1]
        exact goSlice_append_drop frames i e (by omega) e2
      · intro c hc
        rcases List.mem_cons.mp hc with hc | hc
        · subst hc
          refine ⟨by show i < e; omega, e2, rfl, (frames.get ⟨i, h⟩).GetFrameType, huni, ?_⟩
          intro g hg
          simp only [hget] at hg
          cases hg
          rfl
        · exact r2 c hc
      · intro c hc
        simp only [List.head?_cons, Option.some.injEq] at hc
        subst hc
        rfl
      · refine List.chain'_cons'.mpr ⟨?_, r4⟩
        intro b hb
        have hbs : b.s = e := r3 b hb
        refine ⟨hbs, ?_⟩
        intro f hf g hg
        have hbmem : b ∈ sameFramesFrom frames fuel e := List.mem_of_mem_head? hb
        obtain ⟨w1, w2, w3, ft, w4, w5⟩ := r2 b hbmem
        have hlt : e < frames.length := by omega
        have hge : frames[b.s]? = some (frames.get ⟨e, hlt⟩) := by
          rw [hbs, List.getElem?_eq_getElem hlt]; rfl
        have hft : (frames.get ⟨e, hlt⟩).frameType = ft := w5 _ hge
        have hne := e4 (frames.get ⟨e, hlt⟩) (by rw [List.getElem?_eq_getElem hlt]; rfl)
        rw [huni f hf, w4 g hg, ← hft]
        exact fun hcon => hne hcon.symm
      · intro c hc
        rw [List.getLast?_cons] at hc
        cases hlast : (sameFramesFrom frames fuel e).getLast? with
        | none =>
          rw [hlast] at hc
          simp only [Option.getD_none, Option.some.injEq] at hc
          subst hc
          have hnil : sameFramesFrom frames fuel e = [] := List.getLast?_eq_none_iff.mp hlast
          rw [hnil] at r1
          simp only [List.map_nil, List.flatten_nil] at r1
          have := List.drop_eq_nil_iff.mp r1.symm
          show e = frames.length
          omega
        | some d =>
          rw [hlast] at hc
          simp only [Option.getD_some, Option.some.injEq] at hc
          subst hc
          exact r5 _ hlast
    · have hlen : frames.length ≤ i := by omega
      simp [sameFramesFrom, h, List.drop_eq_nil_of_le hlen]

theorem sameFramesFrom_succ (frames : List Frame) (fuel i e : Nat) (f : Frame)
    (hf : frames[i]? = some f)
    (he : sameFramesEnd frames f.frameType (frames.length - (i + 1)) (i + 1) = e) :
    sameFramesFrom frames (fuel + 1) i =
      ⟨i, e, goSlice frames i e⟩ :: sameFramesFrom frames fuel e := by
  obtain ⟨h, hget⟩ := List.getElem?_eq_some_iff.mp hf
  subst he
  simp only [sameFramesFrom, h, dite_true, Frame.GetFrameType, List.get_eq_getElem, hget]

/-! ## Frame grouping (`sameFrames`) -/

/-- C1: on every frame list `fs` the callbacks of `sameFrames` cover consecutive, non-empty
index ranges that start at 0, each begin where the previous one ended and end at `len(fs)`; the
slice passed is `fs[s:e]`, and the groups concatenated in callback order are `fs` itself. On
`[PING, PING, SEND, SEND, RECVACK, SEND]` the callbacks are `[PING, PING]`, `[SEND, SEND]`,
`[RECVACK]`, `[SEND]`, in that order. -/
theorem sameFrames_covers_input_in_order (fs : List Frame) :
    (∀ c, (sameFrames fs).head? = some c → c.s = 0) ∧
    List.Chain' (fun a b => b.s = a.e) (sameFrames fs) ∧
    (∀ c, (sameFrames fs).getLast? = some c → c.e = fs.length) ∧
    (∀ c ∈ sameFrames fs, c.s < c.e ∧ c.fs ≠ [] ∧ c.fs = goSlice fs c.s c.e) ∧
    ((sameFrames fs).map Call.fs).flatten = fs ∧
    (∀ b1 b2 b3 b4 b5 b6 : Nat,
      sameFrames [⟨FrameType.PING, b1⟩, ⟨FrameType.PING, b2⟩, ⟨FrameType.SEND, b3⟩,
          ⟨FrameType.SEND, b4⟩, ⟨FrameType.RECVACK, b5⟩, ⟨FrameType.SEND, b6⟩] =
        [⟨0, 2, [⟨FrameType.PING, b1⟩, ⟨FrameType.PING, b2⟩]⟩,
         ⟨2, 4, [⟨FrameType.SEND, b3⟩, ⟨FrameType.SEND, b4⟩]⟩,
         ⟨4, 5, [⟨FrameType.RECVACK, b5⟩]⟩,
         ⟨5, 6, [⟨FrameType.SEND, b6⟩]⟩]) := by
  obtain ⟨h1, h2, h3, h4, h5⟩ :=
    sameFramesFrom_spec fs fs.length 0 (Nat.zero_le _) (Nat.le_refl _)
  refine ⟨h3, h4.imp (fun _ _ hab => hab.1), h5, ?_, ?_, ?_⟩
  · intro c hc
    obtain ⟨w1, w2, w3, _⟩ := h2 c hc
    refine ⟨w1, ?_, w3⟩
    intro hnil
    have hlt : c.s < fs.length := by omega
    have hmem : fs.get ⟨c.s, hlt⟩ ∈ goSlice fs c.s c.e :=
      goSlice_head fs c.s c.e _ w1 (by rw [List.getElem?_eq_getElem hlt]; rfl)
    rw [← w3, hnil] at hmem
    cases hmem
  · simpa [sameFrames] using h1
  · intro b1 b2 b3 b4 b5 b6
    unfold sameFrames
    generalize hfs : ([⟨FrameType.PING, b1⟩, ⟨FrameType.PING, b2⟩, ⟨FrameType.SEND, b3⟩,
      ⟨FrameType.SEND, b4⟩, ⟨FrameType.RECVACK, b5⟩, ⟨FrameType.SEND, b6⟩] : List Frame) = fs
    have hlen : fs.length = 5 + 1 := by rw [← hfs]; rfl
    rw [hlen,
      sameFramesFrom_succ fs 5 0 2 ⟨FrameType.PING, b1⟩ (by rw [← hfs]; rfl) (by rw [← hfs]; rfl),
      sameFramesFrom_succ fs 4 2 4 ⟨FrameType.SEND, b3⟩ (by rw [← hfs]; rfl) (by rw [← hfs]; rfl),
      sameFramesFrom_succ fs 3 4 5 ⟨FrameType.RECVACK, b5⟩ (by rw [← hfs]; rfl)
        (by rw [← hfs]; rfl),
      sameFramesFrom_succ fs 2 5 6 ⟨FrameType.SEND, b6⟩ (by rw [← hfs]; rfl) (by rw [← hfs]; rfl)]
    rw [← hfs]
    rfl

/-- C2: every group that `sameFrames` passes to its callback is a maximal run: it is not empty,
all its frames have one frame type, and the frames of two consecutive groups differ in frame
type. -/
theorem sameFrames_groups_are_maximal_runs (fs : List Frame) :
    (∀ c ∈ sameFrames fs, c.fs ≠ [] ∧ ∀ f ∈ c.fs, ∀ g ∈ c.fs, f.frameType = g.frameType) ∧
    List.Chain' (fun a b => b.s = a.e ∧ ∀ f ∈ a.fs, ∀ g ∈ b.fs, f.frameType ≠ g.frameType)
      (sameFrames fs) := by
  obtain ⟨_, h2, _, h4, _⟩ :=
    sameFramesFrom_spec fs fs.length 0 (Nat.zero_le _) (Nat.le_refl _)
  refine ⟨?_, h4⟩
  intro c hc
  obtain ⟨w1, w2, w3, ft, w4, _⟩ := h2 c hc
  refine ⟨?_, fun f hf g hg => (w4 f hf).trans (w4 g hg).symm⟩
  intro hnil
  have hlt : c.s < fs.length := by omega
  have hmem : fs.get ⟨c.s, hlt⟩ ∈ goSlice fs c.s c.e :=
    goSlice_head fs c.s c.e _ w1 (by rw [List.getElem?_eq_getElem hlt]; rfl)
  rw [← w3, hnil] at hmem
  cases hmem

/-! ## Send permission (`hasPermission`) -/

/-- C3: on a group-like channel (not customer-service, not person, not info), for a uid that
`Channel.Allow` admits, `hasPermission` returns `(false, SubscriberNotExist)` when the uid is
in neither `subscribers` nor `tmpSubscribers`, and `(true, Success)` when it is in one of
them. -/
theorem hasPermission_group_subscriber_rule (pc : ProtoConsts)
    (allow : Channel → String → Bool × ReasonCode) (channel : Channel) (uid : String)
    (hcs : channel.ChannelType ≠ pc.ChannelTypeCustomerService)
    (hperson : channel.ChannelType ≠ pc.ChannelTypePerson)
    (hinfo : channel.ChannelType ≠ pc.ChannelTypeInfo)
    (hallow : (allow channel uid).1 = true) :
    (uid ∉ channel.subscribers ∧ uid ∉ channel.tmpSubscribers →
      hasPermission pc allow channel uid = (false, ReasonCode.ReasonSubscriberNotExist)) ∧
    (uid ∈ channel.subscribers ∨ uid ∈ channel.tmpSubscribers →
      hasPermission pc allow channel uid = (true, ReasonCode.ReasonSuccess)) := by
  constructor
  · rintro ⟨h1, h2⟩
    simp [hasPermission, hcs, hperson, hinfo, hallow, Channel.IsSubscriber,
      Channel.IsTmpSubscriber, h1, h2]
  · intro h
    rcases h with h | h
    · simp [hasPermission, hcs, hperson, hinfo, hallow, Channel.IsSubscriber, h]
    · simp [hasPermission, hcs, hperson, hinfo, hallow, Channel.IsTmpSubscriber, h]

/-- Witness for C3 on the sample group channel: `bob` is admitted by an allow check that admits
everybody but is no subscriber, `carol` is a temporary subscriber. -/
theorem hasPermission_group_subscriber_rule_witness :
    hasPermission sampleConsts (fun _ _ => (true, ReasonCode.ReasonSuccess)) sampleChannel "bob"
        = (false, ReasonCode.ReasonSubscriberNotExist) ∧
      hasPermission sampleConsts (fun _ _ => (true, ReasonCode.ReasonSuccess)) sampleChannel
        "carol" = (true, ReasonCode.ReasonSuccess) :=
  ⟨(hasPermission_group_subscriber_rule sampleConsts
      (fun _ _ => (true, ReasonCode.ReasonSuccess)) sampleChannel "bob"
      (by decide) (by decide) (by decide) rfl).1 (by decide),
   (hasPermission_group_subscriber_rule sampleConsts
      (fun _ _ => (true, ReasonCode.ReasonSuccess)) sampleChannel "carol"
      (by decide) (by decide) (by decide) rfl).2 (by decide)⟩

/-- C4: with the allow/deny check of the specification, on a channel that is not
customer-service and has allowlist `{X}` and denylist `{X}`, a send from `X` is denied with
InBlacklist and a send from any `Y` outside the allowlist is denied with NotAllowSend; and
whatever denial `(false, r)` the allow/deny check produces, `hasPermission` returns it unchanged,
whether or not the sender is a subscriber. -/
theorem hasPermission_deny_reason_precedence (pc : ProtoConsts) (channel : Channel)
    (X Y : String)
    (hcs : channel.ChannelType ≠ pc.ChannelTypeCustomerService)
    (hallowlist : channel.allowlist = [X]) (hdenylist : channel.denylist = [X])
    (hY : Y ∉ channel.allowlist) :
    hasPermission pc Channel.Allow channel X = (false, ReasonCode.ReasonInBlacklist) ∧
    hasPermission pc Channel.Allow channel Y = (false, ReasonCode.ReasonNotAllowSend) ∧
    (∀ (allow : Channel → String → Bool × ReasonCode) (uid : String) (r : ReasonCode),
      allow channel uid = (false, r) → hasPermission pc allow channel uid = (false, r)) := by
  refine ⟨?_, ?_, ?_⟩
  · simp [hasPermission, hcs, Channel.Allow, hallowlist, hdenylist]
  · have hY2 : Y ≠ X := by
      intro h; apply hY; rw [hallowlist, h]; exact List.mem_singleton_self X
    simp [hasPermission, hcs, Channel.Allow, hallowlist, hY2]
  · intro allow uid r h
    simp [hasPermission, hcs, h]

/-- Witness for C4 on the sample channel, whose allowlist and denylist are both `{alice}`. -/
theorem hasPermission_deny_reason_precedence_witness :
    hasPermission sampleConsts Channel.Allow sampleChannel "alice"
        = (false, ReasonCode.ReasonInBlacklist) ∧
      hasPermission sampleConsts Channel.Allow sampleChannel "bob"
        = (false, ReasonCode.ReasonNotAllowSend) :=
  ⟨(hasPermission_deny_reason_precedence sampleConsts sampleChannel "alice" "bob"
      (by decide) rfl rfl (by decide)).1,
   (hasPermission_deny_reason_precedence sampleConsts sampleChannel "alice" "bob"
      (by decide) rfl rfl (by decide)).2.1⟩

/-! ## Authentication (`processAuth`) -/

theorem TrimSpace_of_all_isSpace (s : String) (h : s.toList.all isSpace = true) :
    TrimSpace s = "" := by
  have hdrop : s.toList.dropWhile isSpace = [] := by
    rw [List.dropWhile_eq_nil_iff]
    intro c hc
    exact List.all_eq_true.mp h c hc
  simp only [TrimSpace, hdrop, List.reverse_nil, List.dropWhile_nil]

/-- C5: for every CONNECT whose clientKey is empty or consists only of white space,
`processAuth` sends exactly one frame, a Connack with reason AuthFail, to the connecting
connection; it reads no token and no channel info from the store, generates no key, and leaves
the connection and the index as they were. -/
theorem processAuth_blank_clientKey (pc : ProtoConsts) (env : AuthEnv) (index : List Conn)
    (conn : Conn) (pkt : ConnectPacket) (hblank : pkt.ClientKey.toList.all isSpace = true) :
    processAuth pc env index conn pkt =
      { returned := AuthReturn.authFail
        conn := conn
        index := index
        events :=
          [Event.send conn.id (OutFrame.connack { ReasonCode := ReasonCode.ReasonAuthFail })] }
    := by
  simp [processAuth, TrimSpace_of_all_isSpace pkt.ClientKey hblank, responseConnackAuthFail,
    responseConnack, response]

/-- Witness for C5: the sample CONNECT with a clientKey of one blank and one tab. -/
theorem processAuth_blank_clientKey_witness :
    processAuth sampleConsts sampleEnv sampleIndex { id := 9 }
        { sampleConnect with ClientKey := " \t" } =
      { returned := AuthReturn.authFail
        conn := { id := 9 }
        index := sampleIndex
        events :=
          [Event.send 9 (OutFrame.connack { ReasonCode := ReasonCode.ReasonAuthFail })] } :=
  processAuth_blank_clientKey sampleConsts sampleEnv sampleIndex { id := 9 }
    { sampleConnect with ClientKey := " \t" } (by decide)

/-- C6, counterexample: token auth is on, `dave` presents the empty token and the store holds
the empty token with level 1 for `dave`. The decision as worded accepts with the stored level;
the code answers AuthFail. -/
theorem processAuth_token_decision_as_worded_fails :
    tokenDecisionAsWorded sampleConsts sampleEnv
        { sampleConnect with UID := "dave", Token := "" } = some 1 ∧
      (tokenVerify sampleConsts sampleEnv
        { sampleConnect with UID := "dave", Token := "" }).level = none ∧
      processAuth sampleConsts sampleEnv [] { id := 9 }
          { sampleConnect with UID := "dave", Token := "" } =
        { returned := AuthReturn.authFail
          conn := { id := 9 }
          index := []
          events :=
            [Event.send 9 (OutFrame.connack { ReasonCode := ReasonCode.ReasonAuthFail })] } := by
  decide

/-- C6, amended: the device level chosen by the token verification of `processAuth` is the
decision of the specification with one more rule, that under token auth an empty presented
token is rejected before any lookup; and whenever that decision rejects, `processAuth` (given a
non-blank clientKey) ends with a Connack of reason AuthFail and changes neither the connection
nor the index. -/
theorem processAuth_token_decision (pc : ProtoConsts) (env : AuthEnv) (index : List Conn)
    (conn : Conn) (pkt : ConnectPacket) (hkey : TrimSpace pkt.ClientKey ≠ "") :
    (tokenVerify pc env pkt).level.map Prod.fst = tokenDecisionAmended pc env pkt ∧
    (tokenDecisionAmended pc env pkt = none →
      processAuth pc env index conn pkt =
        { returned := AuthReturn.authFail
          conn := conn
          index := index
          events := (tokenVerify pc env pkt).events ++
            [Event.send conn.id
              (OutFrame.connack { ReasonCode := ReasonCode.ReasonAuthFail })] }) := by
  have h1 : (tokenVerify pc env pkt).level.map Prod.fst = tokenDecisionAmended pc env pkt := by
    unfold tokenVerify tokenDecisionAmended
    split_ifs <;> try rfl
    all_goals
      cases hget : env.GetUserToken pkt.UID pkt.DeviceFlag with
      | error e => rfl
      | ok v =>
        obtain ⟨token, level⟩ := v
        simp only
        split_ifs <;> rfl
  refine ⟨h1, ?_⟩
  intro hnone
  rw [← h1] at hnone
  have hlevel : (tokenVerify pc env pkt).level = none := by
    cases hl : (tokenVerify pc env pkt).level with
    | none => rfl
    | some v => rw [hl] at hnone; cases hnone
  simp only [processAuth, hkey, if_false, hlevel, responseConnackAuthFail, responseConnack,
    response]

/-- Witness for C6 (amended): `dave` with an empty token under token auth. -/
theorem processAuth_token_decision_witness :
    (tokenVerify sampleConsts sampleEnv
        { sampleConnect with UID := "dave", Token := "" }).level.map Prod.fst =
      tokenDecisionAmended sampleConsts sampleEnv
        { sampleConnect with UID := "dave", Token := "" } ∧
    processAuth sampleConsts sampleEnv sampleIndex { id := 9 }
        { sampleConnect with UID := "dave", Token := "" } =
      { returned := AuthReturn.authFail
        conn := { id := 9 }
        index := sampleIndex
        events := (tokenVerify sampleConsts sampleEnv
            { sampleConnect with UID := "dave", Token := "" }).events ++
          [Event.send 9 (OutFrame.connack { ReasonCode := ReasonCode.ReasonAuthFail })] } :=
  ⟨(processAuth_token_decision sampleConsts sampleEnv sampleIndex { id := 9 }
      { sampleConnect with UID := "dave", Token := "" } (by decide)).1,
   (processAuth_token_decision sampleConsts sampleEnv sampleIndex { id := 9 }
      { sampleConnect with UID := "dave", Token := "" } (by decide)).2 (by decide)⟩

/-! ## Lemmas on the kick policy -/

theorem disconnectsSent_append (a b : List Event) :
    disconnectsSent (a ++ b) = disconnectsSent a ++ disconnectsSent b := by
  induction a with
  | nil => rfl
  | cons ev rest ih =>
    cases ev with
    | send i f => cases f <;> simp [disconnectsSent, ih]
    | _ => simp [disconnectsSent, ih]

theorem connacksSent_append (a b : List Event) :
    connacksSent (a ++ b) = connacksSent a ++ connacksSent b := by
  induction a with
  | nil => rfl
  | cons ev rest ih =>
    cases ev with
    | send i f => cases f <;> simp [connacksSent, ih]
    | _ => simp [connacksSent, ih]

theorem closesScheduled_append (a b : List Event) :
    closesScheduled (a ++ b) = closesScheduled a ++ closesScheduled b := by
  induction a with
  | nil => rfl
  | cons ev rest ih =>
    cases ev <;> simp [closesScheduled, ih]

theorem framesSentTo_append (connID : Int) (a b : List Event) :
    framesSentTo connID (a ++ b) = framesSentTo connID a ++ framesSentTo connID b := by
  induction a with
  | nil => rfl
  | cons ev rest ih =>
    cases ev with
    | send i f =>
      by_cases hi : i = connID <;> simp [framesSentTo, ih, hi]
    | _ => simp [framesSentTo, ih]

theorem tokenVerify_events_quiet (pc : ProtoConsts) (env : AuthEnv) (pkt : ConnectPacket) :
    disconnectsSent (tokenVerify pc env pkt).events = [] ∧
    connacksSent (tokenVerify pc env pkt).events = [] ∧
    closesScheduled (tokenVerify pc env pkt).events = [] ∧
    ∀ connID, framesSentTo connID (tokenVerify pc env pkt).events = [] := by
  unfold tokenVerify
  split_ifs
  all_goals
    first
    | exact ⟨rfl, rfl, rfl, fun _ => rfl⟩
    | (cases hget : env.GetUserToken pkt.UID pkt.DeviceFlag with
        | error e => exact ⟨rfl, rfl, rfl, fun _ => rfl⟩
        | ok v =>
          obtain ⟨token, level⟩ := v
          simp only
          split_ifs <;> exact ⟨rfl, rfl, rfl, fun _ => rfl⟩)

theorem kickMaster_index (deviceID : String) (oldConns : List Conn) :
    ∀ index, (kickMaster deviceID oldConns index).1 =
      index.filter (fun c => decide (c.id ∉ oldConns.map Conn.id)) := by
  induction oldConns with
  | nil => intro index; simp [kickMaster]
  | cons o rest ih =>
    intro index
    simp only [kickMaster, ih, RemoveConnWithID, List.filter_filter, List.map_cons,
      List.mem_cons, not_or]
    apply List.filter_congr
    intro c _
    by_cases h1 : c.id = o.id <;> by_cases h2 : c.id ∈ rest.map Conn.id <;> simp [h1, h2]

theorem kickMaster_closes (deviceID : String) (oldConns : List Conn) :
    ∀ index, closesScheduled (kickMaster deviceID oldConns index).2 =
      oldConns.map (fun o => (if o.deviceID = deviceID then 4 else 5, o.id)) := by
  induction oldConns with
  | nil => intro index; rfl
  | cons o rest ih =>
    intro index
    simp only [kickMaster, closesScheduled_append, ih, List.map_cons]
    by_cases h : o.deviceID = deviceID <;> simp [h, closesScheduled, response]

theorem kickMaster_disconnects (deviceID : String) (oldConns : List Conn) :
    ∀ index, disconnectsSent (kickMaster deviceID oldConns index).2 =
      (oldConns.filter (fun o => decide (o.deviceID ≠ deviceID))).map
        (fun o => (o.id, ({ ReasonCode := ReasonCode.ReasonConnectKick,
                            Reason := "login in other device" } : DisconnectPacket))) := by
  induction oldConns with
  | nil => intro index; rfl
  | cons o rest ih =>
    intro index
    simp only [kickMaster, disconnectsSent_append, ih]
    by_cases h : o.deviceID = deviceID <;> simp [h, disconnectsSent, response]

theorem kickMaster_connacks (deviceID : String) (oldConns : List Conn) :
    ∀ index, connacksSent (kickMaster deviceID oldConns index).2 = [] := by
  induction oldConns with
  | nil => intro index; rfl
  | cons o rest ih =>
    intro index
    simp only [kickMaster, connacksSent_append, ih]
    by_cases h : o.deviceID = deviceID <;> simp [h, connacksSent, response]

theorem kickSlave_index (deviceID : String) (oldConns : List Conn) :
    ∀ index, (kickSlave deviceID oldConns index).1 =
      index.filter (fun c => decide (c.id ∉
        (oldConns.filter (fun o => decide (o.deviceID = deviceID))).map Conn.id)) := by
  induction oldConns with
  | nil => intro index; simp [kickSlave]
  | cons o rest ih =>
    intro index
    by_cases h : o.deviceID = deviceID
    · simp only [kickSlave, h, if_true, ih, RemoveConnWithID, List.filter_filter,
        decide_True, List.filter_cons_of_pos, List.map_cons, List.mem_cons, not_or]
      apply List.filter_congr
      intro c _
      by_cases h1 : c.id = o.id <;> simp [h1]
    · simp [kickSlave, h, ih]

theorem kickSlave_events (deviceID : String) (oldConns : List Conn) :
    ∀ index, (kickSlave deviceID oldConns index).2 =
      (oldConns.filter (fun o => decide (o.deviceID = deviceID))).map
        (fun o => Event.closeAfter 5 o.id) := by
  induction oldConns with
  | nil => intro index; rfl
  | cons o rest ih =>
    intro index
    by_cases h : o.deviceID = deviceID
    · simp [kickSlave, h, ih]
    · simp [kickSlave, h, ih]

theorem closesScheduled_map_closeAfter (l : List Conn) :
    closesScheduled (l.map (fun o => Event.closeAfter 5 o.id)) = l.map (fun o => (5, o.id)) := by
  induction l with
  | nil => rfl
  | cons o rest ih => simp [closesScheduled, ih]

theorem quiet_map_closeAfter (l : List Conn) :
    disconnectsSent (l.map (fun o => Event.closeAfter 5 o.id)) = [] ∧
    connacksSent (l.map (fun o => Event.closeAfter 5 o.id)) = [] ∧
    ∀ connID, framesSentTo connID (l.map (fun o => Event.closeAfter 5 o.id)) = [] := by
  induction l with
  | nil => exact ⟨rfl, rfl, fun _ => rfl⟩
  | cons o rest ih =>
    obtain ⟨h1, h2, h3⟩ := ih
    refine ⟨?_, ?_, ?_⟩
    · simpa [disconnectsSent] using h1
    · simpa [connacksSent] using h2
    · intro connID
      simpa [framesSentTo] using h3 connID

/-- The shape of a successful run of `processAuth`: the checks that passed and the resulting
connection, index and events. -/
theorem processAuth_success_shape (pc : ProtoConsts) (env : AuthEnv) (index : List Conn)
    (conn : Conn) (pkt : ConnectPacket)
    (hsucc : (processAuth pc env index conn pkt).returned = AuthReturn.success) :
    ∃ devceLevel devceLevelI aesKey aesIV,
      (tokenVerify pc env pkt).level = some (devceLevel, devceLevelI) ∧
      env.getClientAesKeyAndIV pkt.ClientKey env.dhServerPrivKey = AesOutcome.ok aesKey aesIV ∧
      (processAuth pc env index conn pkt).conn =
        { conn with
          hasContext := true
          protoVersion := pkt.Version
          authed := true
          deviceFlag := pkt.DeviceFlag
          deviceID := pkt.DeviceID
          uid := pkt.UID
          aesKey := some aesKey
          aesIV := some aesIV
          deviceLevel := devceLevelI
          maxIdle := env.opts.ConnIdleTime } ∧
      (processAuth pc env index conn pkt).index =
        AddConn (kickOldConns pc devceLevel pkt.DeviceID
          (GetConnsWith index pkt.UID pkt.DeviceFlag) index).1
          (processAuth pc env index conn pkt).conn ∧
      ∃ ck online,
        (processAuth pc env index conn pkt).events =
          (tokenVerify pc env pkt).events ++ [Event.getChannel pkt.UID pc.ChannelTypePerson] ++
            [Event.genKeyPair] ++
            (kickOldConns pc devceLevel pkt.DeviceID
              (GetConnsWith index pkt.UID pkt.DeviceFlag) index).2 ++
            [Event.send conn.id (OutFrame.connack ck)] ++ [online] ∧
        (∃ a b c d e, online = Event.online a b c d e) ∧
        ck.ReasonCode = ReasonCode.ReasonSuccess ∧
        ck.Salt = aesIV ∧
        ck.ServerVersion =
          (if pkt.Version > pc.LatestVersion then pc.LatestVersion else pkt.Version) ∧
        ck.HasServerVersion = (if pkt.Version > 3 then true else false) := by
  unfold processAuth at hsucc ⊢
  by_cases hk : TrimSpace pkt.ClientKey = ""
  · simp [hk] at hsucc
  · cases hl : (tokenVerify pc env pkt).level with
    | none => simp [hk, hl] at hsucc
    | some v =>
      obtain ⟨devceLevel, devceLevelI⟩ := v
      cases hc : env.GetChannel pkt.UID pc.ChannelTypePerson with
      | error e => simp [hk, hl, hc] at hsucc
      | ok info =>
        cases info with
        | none =>
          cases ha : env.getClientAesKeyAndIV pkt.ClientKey env.dhServerPrivKey with
          | sliceOutOfRange => simp [hk, hl, hc, ha] at hsucc
          | error => simp [hk, hl, hc, ha] at hsucc
          | ok aesKey aesIV =>
            refine ⟨devceLevel, devceLevelI, aesKey, aesIV, rfl, rfl, ?_⟩
            simp only [hk, if_false, hl, hc, ha]
            refine ⟨rfl, rfl, _, _, rfl, ⟨_, _, _, _, _, rfl⟩, rfl, rfl, rfl, rfl⟩
        | some i =>
          cases hb : i.Ban with
          | true => simp [hk, hl, hc, hb] at hsucc
          | false =>
            cases ha : env.getClientAesKeyAndIV pkt.ClientKey env.dhServerPrivKey with
            | sliceOutOfRange => simp [hk, hl, hc, ha, hb] at hsucc
            | error => simp [hk, hl, hc, ha, hb] at hsucc
            | ok aesKey aesIV =>
              refine ⟨devceLevel, devceLevelI, aesKey, aesIV, rfl, rfl, ?_⟩
              simp only [hk, if_false, hl, hc, ha, hb]
              refine ⟨rfl, rfl, _, _, rfl, ⟨_, _, _, _, _, rfl⟩, rfl, rfl, rfl, rfl⟩

theorem kickOldConns_master (pc : ProtoConsts) (deviceID : String) (oldConns index : List Conn) :
    (kickOldConns pc pc.DeviceLevelMaster deviceID oldConns index).1 =
        index.filter (fun c => decide (c.id ∉ oldConns.map Conn.id)) ∧
      closesScheduled (kickOldConns pc pc.DeviceLevelMaster deviceID oldConns index).2 =
        oldConns.map (fun o => (if o.deviceID = deviceID then 4 else 5, o.id)) ∧
      disconnectsSent (kickOldConns pc pc.DeviceLevelMaster deviceID oldConns index).2 =
        (oldConns.filter (fun o => decide (o.deviceID ≠ deviceID))).map
          (fun o => (o.id, ({ ReasonCode := ReasonCode.ReasonConnectKick,
                              Reason := "login in other device" } : DisconnectPacket))) ∧
      connacksSent (kickOldConns pc pc.DeviceLevelMaster deviceID oldConns index).2 = [] := by
  cases oldConns with
  | nil => simp [kickOldConns, closesScheduled, disconnectsSent, connacksSent]
  | cons o rest =>
    have h : kickOldConns pc pc.DeviceLevelMaster deviceID (o :: rest) index =
        kickMaster deviceID (o :: rest) index := by
      simp [kickOldConns]
    rw [h]
    exact ⟨kickMaster_index _ _ _, kickMaster_closes _ _ _, kickMaster_disconnects _ _ _,
      kickMaster_connacks _ _ _⟩

theorem kickOldConns_slave (pc : ProtoConsts) (hne : pc.DeviceLevelMaster ≠ pc.DeviceLevelSlave)
    (deviceID : String) (oldConns index : List Conn) :
    (kickOldConns pc pc.DeviceLevelSlave deviceID oldConns index).1 =
        index.filter (fun c => decide (c.id ∉
          (oldConns.filter (fun o => decide (o.deviceID = deviceID))).map Conn.id)) ∧
      (kickOldConns pc pc.DeviceLevelSlave deviceID oldConns index).2 =
        (oldConns.filter (fun o => decide (o.deviceID = deviceID))).map
          (fun o => Event.closeAfter 5 o.id) := by
  cases oldConns with
  | nil => simp [kickOldConns]
  | cons o rest =>
    have h : kickOldConns pc pc.DeviceLevelSlave deviceID (o :: rest) index =
        kickSlave deviceID (o :: rest) index := by
      simp [kickOldConns, Ne.symm hne]
    rw [h]
    exact ⟨kickSlave_index _ _ _, kickSlave_events _ _ _⟩

theorem mem_closesScheduled (s : Nat) (connID : Int) (events : List Event) :
    (s, connID) ∈ closesScheduled events ↔ Event.closeAfter s connID ∈ events := by
  induction events with
  | nil => simp [closesScheduled]
  | cons ev rest ih =>
    cases ev <;> simp [closesScheduled, ih]

theorem mem_framesSentTo (connID : Int) (frame : OutFrame) (events : List Event) :
    frame ∈ framesSentTo connID events ↔ Event.send connID frame ∈ events := by
  induction events with
  | nil => simp [framesSentTo]
  | cons ev rest ih =>
    cases ev with
    | send i f =>
      by_cases hi : i = connID
      · subst hi; simp [framesSentTo, ih]
      · have hi2 : ¬ connID = i := fun h => hi h.symm
        simp [framesSentTo, ih, hi, hi2]
    | _ => simp [framesSentTo, ih]

/-! ## Kick policy of `processAuth` -/

/-- C7: after a CONNECT that succeeds with device level Master for `(uid, deviceFlag)`, the
connections indexed under `(uid, deviceFlag)` are exactly the new connection; no index entry
other than the new connection carries the id of a previously indexed one; and the closes
scheduled are one per previously indexed connection, after 4 seconds when its deviceId equals
the new one and after 5 seconds otherwise, hence never later than 5 seconds. -/
theorem processAuth_master_replaces_connections (pc : ProtoConsts) (env : AuthEnv)
    (index : List Conn) (conn : Conn) (pkt : ConnectPacket) (devceLevelI : Nat)
    (hsucc : (processAuth pc env index conn pkt).returned = AuthReturn.success)
    (hmaster : (tokenVerify pc env pkt).level = some (pc.DeviceLevelMaster, devceLevelI)) :
    GetConnsWith (processAuth pc env index conn pkt).index pkt.UID pkt.DeviceFlag =
        [(processAuth pc env index conn pkt).conn] ∧
      (processAuth pc env index conn pkt).conn.id = conn.id ∧
      (∀ old ∈ GetConnsWith index pkt.UID pkt.DeviceFlag,
        ∀ c ∈ (processAuth pc env index conn pkt).index,
          c.id = old.id → c = (processAuth pc env index conn pkt).conn) ∧
      closesScheduled (processAuth pc env index conn pkt).events =
        (GetConnsWith index pkt.UID pkt.DeviceFlag).map
          (fun o => (if o.deviceID = pkt.DeviceID then 4 else 5, o.id)) ∧
      (∀ p ∈ closesScheduled (processAuth pc env index conn pkt).events, p.1 ≤ 5) := by
  obtain ⟨lvl, lvlI, aesKey, aesIV, hlvl, _, hconn, hindex, ck, online, hev, ⟨a, b, c, d, e, hon⟩,
    _⟩ := processAuth_success_shape pc env index conn pkt hsucc
  rw [hmaster] at hlvl
  cases hlvl
  obtain ⟨k1, k2, _, _⟩ := kickOldConns_master pc pkt.DeviceID
    (GetConnsWith index pkt.UID pkt.DeviceFlag) index
  have huid : (processAuth pc env index conn pkt).conn.uid = pkt.UID := by rw [hconn]
  have hflag : (processAuth pc env index conn pkt).conn.deviceFlag = pkt.DeviceFlag := by
    rw [hconn]
  have hid : (processAuth pc env index conn pkt).conn.id = conn.id := by rw [hconn]
  have hcloses : closesScheduled (processAuth pc env index conn pkt).events =
      (GetConnsWith index pkt.UID pkt.DeviceFlag).map
        (fun o => (if o.deviceID = pkt.DeviceID then 4 else 5, o.id)) := by
    rw [hev, hon]
    simp only [closesScheduled_append, (tokenVerify_events_quiet pc env pkt).2.2.1, k2,
      closesScheduled, List.nil_append, List.append_nil]
  refine ⟨?_, hid, ?_, hcloses, ?_⟩
  · rw [hindex, k1]
    generalize (processAuth pc env index conn pkt).conn = newConn at huid hflag
    simp only [AddConn, RemoveConnWithID, GetConnsWith, List.filter_append, List.filter_filter]
    have hnil : List.filter (fun c => decide (c.uid = pkt.UID ∧ c.deviceFlag = pkt.DeviceFlag) &&
        (decide (c.id ≠ newConn.id) &&
          decide (c.id ∉ List.map Conn.id
            (List.filter (fun c => decide (c.uid = pkt.UID ∧ c.deviceFlag = pkt.DeviceFlag))
              index)))) index = [] := by
      rw [List.filter_eq_nil_iff]
      intro c hc hcon
      simp only [Bool.and_eq_true, decide_eq_true_eq] at hcon
      obtain ⟨hq, _, hnot⟩ := hcon
      apply hnot
      exact List.mem_map.mpr ⟨c, List.mem_filter.mpr ⟨hc, by simpa using hq⟩, rfl⟩
    rw [hnil]
    simp [huid, hflag]
  · intro old hold c hc hcid
    rw [hindex, k1] at hc
    generalize (processAuth pc env index conn pkt).conn = newConn at hc ⊢
    simp only [AddConn, RemoveConnWithID, List.mem_append, List.mem_filter,
      List.mem_singleton, decide_eq_true_eq] at hc
    rcases hc with ⟨⟨_, hnot⟩, _⟩ | hc
    · exact absurd (List.mem_map.mpr ⟨old, hold, hcid.symm⟩) hnot
    · exact hc
  · intro p hp
    rw [hcloses] at hp
    obtain ⟨o, _, rfl⟩ := List.mem_map.mp hp
    by_cases h : o.deviceID = pkt.DeviceID <;> simp [h]

/-- Witness for C7: `alice` connects as master from device `d2` while connections 1 (device
`d1`) and 2 (device `d2`) are indexed. -/
theorem processAuth_master_replaces_connections_witness :
    GetConnsWith (processAuth sampleConsts sampleEnv sampleIndex { id := 9 }
          sampleConnect).index "alice" 1 =
        [(processAuth sampleConsts sampleEnv sampleIndex { id := 9 } sampleConnect).conn] ∧
      closesScheduled (processAuth sampleConsts sampleEnv sampleIndex { id := 9 }
          sampleConnect).events = [(5, 1), (4, 2)] :=
  ⟨(processAuth_master_replaces_connections sampleConsts sampleEnv sampleIndex { id := 9 }
      sampleConnect 1 (by decide) (by decide)).1,
   (processAuth_master_replaces_connections sampleConsts sampleEnv sampleIndex { id := 9 }
      sampleConnect 1 (by decide) (by decide)).2.2.2.1⟩

/-- C8, counterexample: `alice` connects as master from device `d2` while her connection 2
from the same device `d2` is indexed. Her client key is the base64 text of the 32 bytes 1 to 32,
so the decoded slice has capacity 33, `clientKeyBytes[:32]` is in range and
`getClientAesKeyAndIV` returns a key and an IV. The connect succeeds, connection 2 is among the
old connections, and no Disconnect frame is sent at all: connection 2 is only scheduled to
close. -/
theorem processAuth_master_same_device_gets_no_disconnect :
    sampleKeyEnv.DecodeString sampleConnect.ClientKey = Except.ok (List.range' 1 32) ∧
      DecodedLen sampleConnect.ClientKey.utf8ByteSize = 33 ∧
      sampleEnv.getClientAesKeyAndIV sampleConnect.ClientKey sampleEnv.dhServerPrivKey =
        getClientAesKeyAndIV sampleKeyEnv sampleConnect.ClientKey sampleEnv.dhServerPrivKey ∧
      getClientAesKeyAndIV sampleKeyEnv sampleConnect.ClientKey sampleEnv.dhServerPrivKey =
        AesOutcome.ok "0123456789abcdef" "rrrrrrrrrrrrrrrr" ∧
      (processAuth sampleConsts sampleEnv sampleSameDeviceIndex { id := 9 } sampleConnect).returned =
        AuthReturn.success ∧
      (tokenVerify sampleConsts sampleEnv sampleConnect).level =
        some (sampleConsts.DeviceLevelMaster, 1) ∧
      GetConnsWith sampleSameDeviceIndex sampleConnect.UID sampleConnect.DeviceFlag =
        sampleSameDeviceIndex ∧
      disconnectsSent (processAuth sampleConsts sampleEnv sampleSameDeviceIndex { id := 9 }
          sampleConnect).events = [] ∧
      framesSentTo 2 (processAuth sampleConsts sampleEnv sampleSameDeviceIndex { id := 9 }
          sampleConnect).events = [] ∧
      closesScheduled (processAuth sampleConsts sampleEnv sampleSameDeviceIndex { id := 9 }
          sampleConnect).events = [(4, 2)] := by
  refine ⟨by rfl, by decide, rfl, by decide, ?_⟩
  decide

/-- C8, amended: when a CONNECT succeeds with device level Master, the Disconnect frames sent
are exactly one per connection indexed under the same `(uid, deviceFlag)` whose deviceId
differs from the new connection's deviceId, in index order, each with reason ConnectKick and
text "login in other device"; a connection with the same deviceId is sent none. -/
theorem processAuth_master_disconnects_other_devices (pc : ProtoConsts) (env : AuthEnv)
    (index : List Conn) (conn : Conn) (pkt : ConnectPacket) (devceLevelI : Nat)
    (hsucc : (processAuth pc env index conn pkt).returned = AuthReturn.success)
    (hmaster : (tokenVerify pc env pkt).level = some (pc.DeviceLevelMaster, devceLevelI)) :
    disconnectsSent (processAuth pc env index conn pkt).events =
      ((GetConnsWith index pkt.UID pkt.DeviceFlag).filter
        (fun o => decide (o.deviceID ≠ pkt.DeviceID))).map
        (fun o => (o.id, ({ ReasonCode := ReasonCode.ReasonConnectKick,
                            Reason := "login in other device" } : DisconnectPacket))) := by
  obtain ⟨lvl, lvlI, aesKey, aesIV, hlvl, _, _, _, ck, online, hev, ⟨a, b, c, d, e, hon⟩,
    _⟩ := processAuth_success_shape pc env index conn pkt hsucc
  rw [hmaster] at hlvl
  cases hlvl
  obtain ⟨_, _, k3, _⟩ := kickOldConns_master pc pkt.DeviceID
    (GetConnsWith index pkt.UID pkt.DeviceFlag) index
  rw [hev, hon]
  simp only [disconnectsSent_append, (tokenVerify_events_quiet pc env pkt).1, k3,
    disconnectsSent, List.nil_append, List.append_nil]

/-- Witness for C8 (amended): of the two indexed connections of `alice`, only connection 1
(device `d1`) is sent a Disconnect when she connects as master from device `d2`. -/
theorem processAuth_master_disconnects_other_devices_witness :
    disconnectsSent (processAuth sampleConsts sampleEnv sampleIndex { id := 9 }
        sampleConnect).events =
      [(1, { ReasonCode := ReasonCode.ReasonConnectKick, Reason := "login in other device" })] :=
  processAuth_master_disconnects_other_devices sampleConsts sampleEnv sampleIndex { id := 9 }
    sampleConnect 1 (by decide) (by decide)

/-- C9: when a CONNECT succeeds with device level Slave, the closes scheduled are exactly one,
after 5 seconds, per connection indexed under `(uid, deviceFlag)` whose deviceId equals the new
deviceId, and those connections leave the index; the only frame sent is the Connack to the new
connection; and every indexed connection of `(uid, deviceFlag)` with another deviceId (and
another connection id than the new one) stays indexed, has no close scheduled and is sent no
frame. The index holds one entry per connection id. -/
theorem processAuth_slave_kicks_same_device_only (pc : ProtoConsts) (env : AuthEnv)
    (index : List Conn) (conn : Conn) (pkt : ConnectPacket) (devceLevelI : Nat)
    (hsucc : (processAuth pc env index conn pkt).returned = AuthReturn.success)
    (hslave : (tokenVerify pc env pkt).level = some (pc.DeviceLevelSlave, devceLevelI))
    (hlevels : pc.DeviceLevelMaster ≠ pc.DeviceLevelSlave)
    (hids : (index.map Conn.id).Nodup) :
    closesScheduled (processAuth pc env index conn pkt).events =
        ((GetConnsWith index pkt.UID pkt.DeviceFlag).filter
          (fun o => decide (o.deviceID = pkt.DeviceID))).map (fun o => (5, o.id)) ∧
      (∀ old ∈ GetConnsWith index pkt.UID pkt.DeviceFlag, old.deviceID = pkt.DeviceID →
        ∀ c ∈ (processAuth pc env index conn pkt).index,
          c.id = old.id → c = (processAuth pc env index conn pkt).conn) ∧
      disconnectsSent (processAuth pc env index conn pkt).events = [] ∧
      (∀ connID, connID ≠ conn.id →
        framesSentTo connID (processAuth pc env index conn pkt).events = []) ∧
      (∀ old ∈ GetConnsWith index pkt.UID pkt.DeviceFlag, old.deviceID ≠ pkt.DeviceID →
        old.id ≠ conn.id →
          old ∈ (processAuth pc env index conn pkt).index ∧
          (∀ s, (s, old.id) ∉ closesScheduled (processAuth pc env index conn pkt).events) ∧
          framesSentTo old.id (processAuth pc env index conn pkt).events = []) := by
  obtain ⟨lvl, lvlI, aesKey, aesIV, hlvl, _, hconn, hindex, ck, online, hev, ⟨a, b, c, d, e, hon⟩,
    _⟩ := processAuth_success_shape pc env index conn pkt hsucc
  rw [hslave] at hlvl
  cases hlvl
  obtain ⟨k1, k2⟩ := kickOldConns_slave pc hlevels pkt.DeviceID
    (GetConnsWith index pkt.UID pkt.DeviceFlag) index
  obtain ⟨q1, q2, q3⟩ := quiet_map_closeAfter
    ((GetConnsWith index pkt.UID pkt.DeviceFlag).filter
      (fun o => decide (o.deviceID = pkt.DeviceID)))
  obtain ⟨t1, t2, t3, t4⟩ := tokenVerify_events_quiet pc env pkt
  have hid : (processAuth pc env index conn pkt).conn.id = conn.id := by rw [hconn]
  have hcloses : closesScheduled (processAuth pc env index conn pkt).events =
      ((GetConnsWith index pkt.UID pkt.DeviceFlag).filter
        (fun o => decide (o.deviceID = pkt.DeviceID))).map (fun o => (5, o.id)) := by
    rw [hev, hon, k2]
    simp only [closesScheduled_append, t3, closesScheduled_map_closeAfter, closesScheduled,
      List.nil_append, List.append_nil]
  have hframes : ∀ connID, connID ≠ conn.id →
      framesSentTo connID (processAuth pc env index conn pkt).events = [] := by
    intro connID hne
    rw [hev, hon, k2]
    have hne2 : ¬ conn.id = connID := fun h => hne h.symm
    simp [framesSentTo_append, t4 connID, q3 connID, framesSentTo, hne2]
  have hinj : ∀ x ∈ index, ∀ y ∈ index, x.id = y.id → x = y :=
    fun x hx y hy hxy => List.inj_on_of_nodup_map hids hx hy hxy
  refine ⟨hcloses, ?_, ?_, hframes, ?_⟩
  · intro old hold hdev c hc hcid
    rw [hindex, k1] at hc
    generalize (processAuth pc env index conn pkt).conn = newConn at hc ⊢
    simp only [AddConn, RemoveConnWithID, List.mem_append, List.mem_filter,
      List.mem_singleton, decide_eq_true_eq] at hc
    rcases hc with ⟨⟨_, hnot⟩, _⟩ | hc
    · exact absurd (List.mem_map.mpr
        ⟨old, List.mem_filter.mpr ⟨hold, by simpa using hdev⟩, hcid.symm⟩) hnot
    · exact hc
  · rw [hev, hon, k2]
    simp [disconnectsSent_append, t1, q1, disconnectsSent]
  · intro old hold hdev hne
    have holdIndex : old ∈ index := (List.mem_filter.mp hold).1
    have hnotKicked : old.id ∉ List.map Conn.id
        (List.filter (fun o => decide (o.deviceID = pkt.DeviceID))
          (GetConnsWith index pkt.UID pkt.DeviceFlag)) := by
      intro hmem
      obtain ⟨o, ho, hoid⟩ := List.mem_map.mp hmem
      obtain ⟨ho1, ho2⟩ := List.mem_filter.mp ho
      have hoIndex : o ∈ index := (List.mem_filter.mp ho1).1
      have : o = old := hinj o hoIndex old holdIndex hoid
      subst this
      exact hdev (by simpa using ho2)
    refine ⟨?_, ?_, hframes old.id hne⟩
    · rw [hindex, k1]
      simp only [AddConn, RemoveConnWithID, List.mem_append, List.mem_filter,
        List.mem_singleton, decide_eq_true_eq]
      exact Or.inl ⟨⟨holdIndex, hnotKicked⟩, by rw [hid]; exact hne⟩
    · intro s hs
      rw [hcloses] at hs
      obtain ⟨o, ho, heq⟩ := List.mem_map.mp hs
      apply hnotKicked
      exact List.mem_map.mpr ⟨o, ho, (Prod.mk.inj heq).2⟩

/-- Witness for C9: `bob` (slave level in the store) connects from device `d2` while his
connections 3 (device `d1`) and 4 (device `d2`) are indexed: only connection 4 is closed. -/
theorem processAuth_slave_kicks_same_device_only_witness :
    closesScheduled (processAuth sampleConsts sampleEnv sampleBobIndex
        { id := 9 } sampleBobConnect).events = [(5, 4)] :=
  (processAuth_slave_kicks_same_device_only sampleConsts sampleEnv sampleBobIndex
    { id := 9 } sampleBobConnect 0
    (by decide) (by decide) (by decide) (by decide)).1

/-! ## The Connack of a successful CONNECT -/

/-- C10: a successful CONNECT with client protocol version `v` sends exactly one Connack, to
the connecting connection; its reason is Success, its salt is the aesIV stored on the
connection, its serverVersion is `min v LatestVersion` (so at most `v` and at most
`LatestVersion`), and hasServerVersion is true exactly when `v > 3`. -/
theorem processAuth_success_connack (pc : ProtoConsts) (env : AuthEnv) (index : List Conn)
    (conn : Conn) (pkt : ConnectPacket)
    (hsucc : (processAuth pc env index conn pkt).returned = AuthReturn.success) :
    ∃ ck : ConnackPacket,
      connacksSent (processAuth pc env index conn pkt).events = [(conn.id, ck)] ∧
      ck.ReasonCode = ReasonCode.ReasonSuccess ∧
      (processAuth pc env index conn pkt).conn.aesIV = some ck.Salt ∧
      ck.ServerVersion = min pkt.Version pc.LatestVersion ∧
      ck.ServerVersion ≤ pkt.Version ∧
      ck.ServerVersion ≤ pc.LatestVersion ∧
      (ck.HasServerVersion = true ↔ pkt.Version > 3) := by
  obtain ⟨lvl, lvlI, aesKey, aesIV, hlvl, _, hconn, _, ck, online, hev, ⟨a, b, c, d, e, hon⟩,
    hreason, hsalt, hversion, hhas⟩ := processAuth_success_shape pc env index conn pkt hsucc
  have hkick : connacksSent (kickOldConns pc lvl pkt.DeviceID
      (GetConnsWith index pkt.UID pkt.DeviceFlag) index).2 = [] := by
    unfold kickOldConns
    split_ifs
    · exact kickMaster_connacks _ _ _
    · rw [kickSlave_events]
      exact (quiet_map_closeAfter _).2.1
    · rfl
    · rfl
  have hmin : ck.ServerVersion = min pkt.Version pc.LatestVersion := by
    rw [hversion]
    split_ifs with h
    · exact (Nat.min_eq_right (Nat.le_of_lt h)).symm
    · exact (Nat.min_eq_left (Nat.le_of_not_lt h)).symm
  refine ⟨ck, ?_, hreason, ?_, hmin, ?_, ?_, ?_⟩
  · rw [hev, hon]
    simp only [connacksSent_append, (tokenVerify_events_quiet pc env pkt).2.1, hkick,
      connacksSent, List.nil_append, List.append_nil]
  · rw [hconn, hsalt]
  · rw [hmin]; exact Nat.min_le_left _ _
  · rw [hmin]; exact Nat.min_le_right _ _
  · rw [hhas]
    by_cases h : pkt.Version > 3 <;> simp [h]

/-- Witness for C10: the sample CONNECT has version 5 and the sample LatestVersion is 4. -/
theorem processAuth_success_connack_witness :
    ∃ ck : ConnackPacket,
      connacksSent (processAuth sampleConsts sampleEnv sampleIndex { id := 9 }
        sampleConnect).events = [(9, ck)] ∧
      ck.ReasonCode = ReasonCode.ReasonSuccess ∧
      (processAuth sampleConsts sampleEnv sampleIndex { id := 9 } sampleConnect).conn.aesIV =
        some ck.Salt ∧
      ck.ServerVersion = min 5 4 ∧
      ck.ServerVersion ≤ 5 ∧
      ck.ServerVersion ≤ 4 ∧
      (ck.HasServerVersion = true ↔ 5 > 3) :=
  processAuth_success_connack sampleConsts sampleEnv sampleIndex { id := 9 } sampleConnect
    (by decide)

/-! ## Rejected CONNECTs -/

/-- The shape of a rejected run of `processAuth`: some store reads and possibly a key
generation, then one Connack with zero `timeDiff` whose reason is AuthFail or Ban; connection
and index are unchanged. -/
theorem processAuth_rejected_shape (pc : ProtoConsts) (env : AuthEnv) (index : List Conn)
    (conn : Conn) (pkt : ConnectPacket)
    (hrej : (processAuth pc env index conn pkt).returned = AuthReturn.authFail ∨
      (processAuth pc env index conn pkt).returned = AuthReturn.ban) :
    ∃ pre code,
      (processAuth pc env index conn pkt).events = pre ++ responseConnack conn 0 code ∧
      closesScheduled pre = [] ∧ connacksSent pre = [] ∧ disconnectsSent pre = [] ∧
      (∀ connID, framesSentTo connID pre = []) ∧
      ((code = ReasonCode.ReasonAuthFail ∧
          (processAuth pc env index conn pkt).returned = AuthReturn.authFail) ∨
        (code = ReasonCode.ReasonBan ∧
          (processAuth pc env index conn pkt).returned = AuthReturn.ban)) ∧
      (processAuth pc env index conn pkt).conn = conn ∧
      (processAuth pc env index conn pkt).index = index := by
  obtain ⟨t1, t2, t3, t4⟩ := tokenVerify_events_quiet pc env pkt
  have hq1 : closesScheduled ((tokenVerify pc env pkt).events ++
      [Event.getChannel pkt.UID pc.ChannelTypePerson]) = [] := by
    simp [closesScheduled_append, t3, closesScheduled]
  have hq2 : connacksSent ((tokenVerify pc env pkt).events ++
      [Event.getChannel pkt.UID pc.ChannelTypePerson]) = [] := by
    simp [connacksSent_append, t2, connacksSent]
  have hq3 : disconnectsSent ((tokenVerify pc env pkt).events ++
      [Event.getChannel pkt.UID pc.ChannelTypePerson]) = [] := by
    simp [disconnectsSent_append, t1, disconnectsSent]
  have hq4 : ∀ connID, framesSentTo connID ((tokenVerify pc env pkt).events ++
      [Event.getChannel pkt.UID pc.ChannelTypePerson]) = [] := by
    intro connID
    simp [framesSentTo_append, t4, framesSentTo]
  have hr1 : closesScheduled ((tokenVerify pc env pkt).events ++
      [Event.getChannel pkt.UID pc.ChannelTypePerson] ++ [Event.genKeyPair]) = [] := by
    rw [closesScheduled_append, hq1]; rfl
  have hr2 : connacksSent ((tokenVerify pc env pkt).events ++
      [Event.getChannel pkt.UID pc.ChannelTypePerson] ++ [Event.genKeyPair]) = [] := by
    rw [connacksSent_append, hq2]; rfl
  have hr3 : disconnectsSent ((tokenVerify pc env pkt).events ++
      [Event.getChannel pkt.UID pc.ChannelTypePerson] ++ [Event.genKeyPair]) = [] := by
    rw [disconnectsSent_append, hq3]; rfl
  have hr4 : ∀ connID, framesSentTo connID ((tokenVerify pc env pkt).events ++
      [Event.getChannel pkt.UID pc.ChannelTypePerson] ++ [Event.genKeyPair]) = [] := by
    intro connID
    rw [framesSentTo_append, hq4]; rfl
  unfold processAuth at hrej ⊢
  by_cases hk : TrimSpace pkt.ClientKey = ""
  · refine ⟨[], ReasonCode.ReasonAuthFail, ?_⟩
    simp only [hk, if_true, responseConnackAuthFail, List.nil_append]
    exact ⟨by trivial, rfl, rfl, rfl, fun _ => rfl, by simp, by trivial, by trivial⟩
  · cases hl : (tokenVerify pc env pkt).level with
    | none =>
      refine ⟨(tokenVerify pc env pkt).events, ReasonCode.ReasonAuthFail, ?_⟩
      simp only [hk, if_false, hl, responseConnackAuthFail]
      exact ⟨by trivial, t3, t2, t1, t4, by simp, by trivial, by trivial⟩
    | some v =>
      obtain ⟨devceLevel, devceLevelI⟩ := v
      cases hc : env.GetChannel pkt.UID pc.ChannelTypePerson with
      | error e =>
        refine ⟨(tokenVerify pc env pkt).events ++
          [Event.getChannel pkt.UID pc.ChannelTypePerson],
          ReasonCode.ReasonAuthFail, ?_⟩
        simp only [hk, if_false, hl, hc, responseConnackAuthFail]
        exact ⟨by trivial, hq1, hq2, hq3, hq4, by simp, by trivial, by trivial⟩
      | ok info =>
        cases info with
        | none =>
          cases ha : env.getClientAesKeyAndIV pkt.ClientKey env.dhServerPrivKey with
          | sliceOutOfRange => simp [hk, hl, hc, ha] at hrej
          | error =>
            refine ⟨(tokenVerify pc env pkt).events ++
              [Event.getChannel pkt.UID pc.ChannelTypePerson] ++ [Event.genKeyPair],
              ReasonCode.ReasonAuthFail, ?_⟩
            simp only [hk, if_false, hl, hc, ha, responseConnackAuthFail]
            exact ⟨by trivial, hr1, hr2, hr3, hr4, by simp, by trivial, by trivial⟩
          | ok aesKey aesIV => simp [hk, hl, hc, ha] at hrej
        | some i =>
          cases hb : i.Ban with
          | true =>
            refine ⟨(tokenVerify pc env pkt).events ++
              [Event.getChannel pkt.UID pc.ChannelTypePerson],
              ReasonCode.ReasonBan, ?_⟩
            simp only [hk, if_false, hl, hc, hb, if_true]
            exact ⟨by trivial, hq1, hq2, hq3, hq4, by simp, by trivial, by trivial⟩
          | false =>
            cases ha : env.getClientAesKeyAndIV pkt.ClientKey env.dhServerPrivKey with
            | sliceOutOfRange => simp [hk, hl, hc, ha, hb] at hrej
            | error =>
              refine ⟨(tokenVerify pc env pkt).events ++
                [Event.getChannel pkt.UID pc.ChannelTypePerson] ++ [Event.genKeyPair],
                ReasonCode.ReasonAuthFail, ?_⟩
              simp only [hk, if_false, hl, hc, ha, hb, responseConnackAuthFail]
              exact ⟨by trivial, hr1, hr2, hr3, hr4, by simp, by trivial, by trivial⟩
            | ok aesKey aesIV => simp [hk, hl, hc, ha, hb] at hrej

/-- C11, counterexample: `alice` presents a wrong token. `processAuth` reads her token from
the store, answers with a Connack of reason AuthFail and returns; nothing closes the
connection and no close is scheduled. -/
theorem processAuth_rejected_connection_stays_open :
    processAuth sampleConsts sampleEnv sampleIndex { id := 9 }
        { sampleConnect with Token := "wrong" } =
      { returned := AuthReturn.authFail
        conn := { id := 9 }
        index := sampleIndex
        events :=
          [Event.getUserToken "alice" 1,
           Event.send 9 (OutFrame.connack { ReasonCode := ReasonCode.ReasonAuthFail })] } ∧
      closesScheduled (processAuth sampleConsts sampleEnv sampleIndex { id := 9 }
        { sampleConnect with Token := "wrong" }).events = [] := by
  decide

/-- C11, amended: whenever `processAuth` answers a CONNECT with a non-success Connack (AuthFail
or Ban), that Connack is the only frame it sends and the last thing it does; it schedules no
close and closes nothing, so the connection stays open as far as `processAuth` goes. -/
theorem processAuth_rejected_sends_connack_only (pc : ProtoConsts) (env : AuthEnv)
    (index : List Conn) (conn : Conn) (pkt : ConnectPacket)
    (hrej : (processAuth pc env index conn pkt).returned = AuthReturn.authFail ∨
      (processAuth pc env index conn pkt).returned = AuthReturn.ban) :
    ∃ code,
      (code = ReasonCode.ReasonAuthFail ∨ code = ReasonCode.ReasonBan) ∧
      (processAuth pc env index conn pkt).events.getLast? =
        some (Event.send conn.id (OutFrame.connack { ReasonCode := code })) ∧
      connacksSent (processAuth pc env index conn pkt).events =
        [(conn.id, { ReasonCode := code })] ∧
      (∀ connID, connID ≠ conn.id →
        framesSentTo connID (processAuth pc env index conn pkt).events = []) ∧
      framesSentTo conn.id (processAuth pc env index conn pkt).events =
        [OutFrame.connack { ReasonCode := code }] ∧
      closesScheduled (processAuth pc env index conn pkt).events = [] := by
  obtain ⟨pre, code, hev, h1, h2, _, h4, hcode, _, _⟩ :=
    processAuth_rejected_shape pc env index conn pkt hrej
  refine ⟨code, ?_, ?_, ?_, ?_, ?_, ?_⟩
  · rcases hcode with ⟨h, _⟩ | ⟨h, _⟩
    · exact Or.inl h
    · exact Or.inr h
  · rw [hev]; simp [responseConnack, response]
  · rw [hev, connacksSent_append, h2]; rfl
  · intro connID hne
    have hne2 : ¬ conn.id = connID := fun h => hne h.symm
    rw [hev, framesSentTo_append, h4]
    simp [responseConnack, response, framesSentTo, hne2]
  · rw [hev, framesSentTo_append, h4]
    simp [responseConnack, response, framesSentTo]
  · rw [hev, closesScheduled_append, h1]; rfl

/-- Witness for C11 (amended): `alice` with a wrong token. -/
theorem processAuth_rejected_sends_connack_only_witness :
    ∃ code,
      (code = ReasonCode.ReasonAuthFail ∨ code = ReasonCode.ReasonBan) ∧
      (processAuth sampleConsts sampleEnv sampleIndex { id := 9 }
          { sampleConnect with Token := "wrong" }).events.getLast? =
        some (Event.send 9 (OutFrame.connack { ReasonCode := code })) ∧
      connacksSent (processAuth sampleConsts sampleEnv sampleIndex { id := 9 }
          { sampleConnect with Token := "wrong" }).events =
        [(9, { ReasonCode := code })] ∧
      (∀ connID, connID ≠ 9 →
        framesSentTo connID (processAuth sampleConsts sampleEnv sampleIndex { id := 9 }
          { sampleConnect with Token := "wrong" }).events = []) ∧
      framesSentTo 9 (processAuth sampleConsts sampleEnv sampleIndex { id := 9 }
          { sampleConnect with Token := "wrong" }).events =
        [OutFrame.connack { ReasonCode := code }] ∧
      closesScheduled (processAuth sampleConsts sampleEnv sampleIndex { id := 9 }
          { sampleConnect with Token := "wrong" }).events = [] :=
  processAuth_rejected_sends_connack_only sampleConsts sampleEnv sampleIndex { id := 9 }
    { sampleConnect with Token := "wrong" } (Or.inl (by decide))

/-! ## Lemmas on the message path -/

theorem sendacksSent_append (a b : List MsgEvent) :
    sendacksSent (a ++ b) = sendacksSent a ++ sendacksSent b := by
  induction a with
  | nil => rfl
  | cons ev rest ih => cases ev <;> simp [sendacksSent, ih]

theorem appendMessagesCalls_append (a b : List MsgEvent) :
    appendMessagesCalls (a ++ b) = appendMessagesCalls a ++ appendMessagesCalls b := by
  induction a with
  | nil => rfl
  | cons ev rest ih => cases ev <;> simp [appendMessagesCalls, ih]

theorem checkAndDecodePayload_not_crashed (env : MsgEnv) (conn : Conn) (sp : SendPacket)
    (aesKey aesIV : String) (hkey : conn.aesKey = some aesKey) (hiv : conn.aesIV = some aesIV) :
    checkAndDecodePayload env sp conn ≠ GoResult.crashed := by
  unfold checkAndDecodePayload sendPacketIsVail
  simp only [hkey, hiv]
  cases env.AesEncryptPkcs7Base64 (env.VerityString sp) aesKey aesIV with
  | error e => simp
  | ok enc =>
    by_cases hm : sp.MsgKey = env.MD5 enc
    · cases env.AesDecryptPkcs7Base64 sp.Payload aesKey aesIV <;> simp [hm]
    · simp [hm]

/-- A packet whose message key is not the MD5 of the encrypted verity string fails
`checkAndDecodePayload` with an error. -/
theorem checkAndDecodePayload_bad_key (env : MsgEnv) (conn : Conn) (sp : SendPacket)
    (aesKey aesIV : String) (hkey : conn.aesKey = some aesKey) (hiv : conn.aesIV = some aesIV)
    (hbad : ∀ enc, env.AesEncryptPkcs7Base64 (env.VerityString sp) aesKey aesIV =
      Except.ok enc → sp.MsgKey ≠ env.MD5 enc) :
    ∃ e, checkAndDecodePayload env sp conn = GoResult.err e := by
  unfold checkAndDecodePayload sendPacketIsVail
  simp only [hkey, hiv]
  cases henc : env.AesEncryptPkcs7Base64 (env.VerityString sp) aesKey aesIV with
  | error e => exact ⟨e, rfl⟩
  | ok enc =>
    have hm : sp.MsgKey ≠ env.MD5 enc := hbad enc henc
    exact ⟨"msgKey is illegal！", by simp [hm]⟩

/-- What the packet loop of `prcocessChannelMessages` adds to its state on a connection that
holds key and IV: the loop does not fail, the new messages correspond one to one, in order, to
the accepted packets, every syncOnce packet gets a NotSupportHeader sendack in the collected
list and nothing else does, and every other rejected packet gets a PayloadDecodeError sendack
sent directly and nothing else is sent. -/
theorem buildMessages_spec (env : MsgEnv) (conn : Conn) (channel : Channel)
    (aesKey aesIV : String) (hkey : conn.aesKey = some aesKey) (hiv : conn.aesIV = some aesIV) :
    ∀ (sps : List SendPacket) (st : BuildState),
      (buildMessages env conn channel sps st).crashed = st.crashed ∧
      (∃ new, (buildMessages env conn channel sps st).messages = st.messages ++ new ∧
        List.Forall₂ (builtFrom env conn) new (sps.filter (packetAccepted env conn))) ∧
      (∃ acks, (buildMessages env conn channel sps st).sendackPackets =
          st.sendackPackets ++ acks ∧
        (∀ a ∈ acks, a.ReasonCode = ReasonCode.ReasonNotSupportHeader) ∧
        (∀ sp ∈ sps, sp.framer.SyncOnce = true →
          ∃ messageID, syncOnceSendack sp messageID ∈ acks)) ∧
      (∃ evs, (buildMessages env conn channel sps st).events = st.events ++ evs ∧
        (∀ ev ∈ evs, ∃ sa, ev = MsgEvent.response conn.id sa ∧
          sa.ReasonCode = ReasonCode.ReasonPayloadDecodeError) ∧
        (∀ sp ∈ sps, sp.framer.SyncOnce = false →
          (∃ e, checkAndDecodePayload env sp conn = GoResult.err e) →
          ∃ messageID,
            MsgEvent.response conn.id (payloadErrorSendack sp messageID) ∈ evs)) := by
  intro sps
  induction sps with
  | nil =>
    intro st
    exact ⟨rfl, ⟨[], by simp [buildMessages], List.Forall₂.nil⟩,
      ⟨[], by simp [buildMessages], by simp, by simp⟩,
      ⟨[], by simp [buildMessages], by simp, by simp⟩⟩
  | cons sp rest ih =>
    intro st
    by_cases hsync : sp.framer.SyncOnce = true
    · have hacc : packetAccepted env conn sp = false := by simp [packetAccepted, hsync]
      have hunf : buildMessages env conn channel (sp :: rest) st =
          buildMessages env conn channel rest
            { st with
              handled := st.handled + 1
              sendackPackets := st.sendackPackets ++
                [syncOnceSendack sp (env.genMessageID st.handled)] } := by
        simp [buildMessages, hsync]
      obtain ⟨h1, ⟨new, h2, h3⟩, ⟨acks, h4, h5, h6⟩, ⟨evs, h7, h8, h9⟩⟩ := ih
        { st with
          handled := st.handled + 1
          sendackPackets := st.sendackPackets ++
            [syncOnceSendack sp (env.genMessageID st.handled)] }
      rw [hunf]
      refine ⟨h1, ⟨new, h2, ?_⟩,
        ⟨syncOnceSendack sp (env.genMessageID st.handled) :: acks, ?_, ?_, ?_⟩,
        ⟨evs, h7, h8, ?_⟩⟩
      · simpa [List.filter_cons, hacc] using h3
      · rw [h4]; simp
      · intro a ha
        rcases List.mem_cons.mp ha with ha | ha
        · rw [ha]; rfl
        · exact h5 a ha
      · intro p hp hps
        rcases List.mem_cons.mp hp with hp | hp
        · subst hp
          exact ⟨env.genMessageID st.handled, List.mem_cons_self _ _⟩
        · obtain ⟨mid, hmid⟩ := h6 p hp hps
          exact ⟨mid, List.mem_cons_of_mem _ hmid⟩
      · intro p hp hps hperr
        rcases List.mem_cons.mp hp with hp | hp
        · subst hp
          rw [hsync] at hps
          cases hps
        · exact h9 p hp hps hperr
    · have hsync2 : sp.framer.SyncOnce = false := by
        cases h : sp.framer.SyncOnce with
        | true => exact absurd h hsync
        | false => rfl
      cases hchk : checkAndDecodePayload env sp conn with
      | crashed => exact absurd hchk (checkAndDecodePayload_not_crashed env conn sp _ _ hkey hiv)
      | err e =>
        have hacc : packetAccepted env conn sp = false := by simp [packetAccepted, hchk]
        have hunf : buildMessages env conn channel (sp :: rest) st =
            buildMessages env conn channel rest
              { st with
                handled := st.handled + 1
                events := st.events ++
                  [MsgEvent.response conn.id
                    (payloadErrorSendack sp (env.genMessageID st.handled))] } := by
          simp [buildMessages, hsync2, hchk]
        obtain ⟨h1, ⟨new, h2, h3⟩, ⟨acks, h4, h5, h6⟩, ⟨evs, h7, h8, h9⟩⟩ := ih
          { st with
            handled := st.handled + 1
            events := st.events ++
              [MsgEvent.response conn.id
                (payloadErrorSendack sp (env.genMessageID st.handled))] }
        rw [hunf]
        refine ⟨h1, ⟨new, h2, ?_⟩, ⟨acks, h4, h5, ?_⟩,
          ⟨MsgEvent.response conn.id (payloadErrorSendack sp (env.genMessageID st.handled))
            :: evs, ?_, ?_, ?_⟩⟩
        · simpa [List.filter_cons, hacc] using h3
        · intro p hp hps
          rcases List.mem_cons.mp hp with hp | hp
          · subst hp
            exact absurd hps hsync
          · exact h6 p hp hps
        · rw [h7]; simp
        · intro ev hev
          rcases List.mem_cons.mp hev with hev | hev
          · exact ⟨_, hev, rfl⟩
          · exact h8 ev hev
        · intro p hp hps hperr
          rcases List.mem_cons.mp hp with hp | hp
          · subst hp
            exact ⟨env.genMessageID st.handled, List.mem_cons_self _ _⟩
          · obtain ⟨mid, hmid⟩ := h9 p hp hps hperr
            exact ⟨mid, List.mem_cons_of_mem _ hmid⟩
      | ok payload =>
        have hacc : packetAccepted env conn sp = true := by
          simp [packetAccepted, hchk, hsync2]
        have hunf : buildMessages env conn channel (sp :: rest) st =
            buildMessages env conn channel rest
              { st with
                handled := st.handled + 1
                messages := st.messages ++
                  [newMessage conn channel sp (env.genMessageID st.handled)
                    (wrapInt32 (env.nowUnix st.handled)) payload] } := by
          simp [buildMessages, hsync2, hchk]
        obtain ⟨h1, ⟨new, h2, h3⟩, ⟨acks, h4, h5, h6⟩, ⟨evs, h7, h8, h9⟩⟩ := ih
          { st with
            handled := st.handled + 1
            messages := st.messages ++
              [newMessage conn channel sp (env.genMessageID st.handled)
                (wrapInt32 (env.nowUnix st.handled)) payload] }
        rw [hunf]
        refine ⟨h1,
          ⟨newMessage conn channel sp (env.genMessageID st.handled)
            (wrapInt32 (env.nowUnix st.handled)) payload :: new, ?_, ?_⟩,
          ⟨acks, h4, h5, ?_⟩, ⟨evs, h7, h8, ?_⟩⟩
        · rw [h2]; simp
        · rw [List.filter_cons, hacc, if_pos rfl]
          exact List.Forall₂.cons ⟨rfl, rfl, rfl, rfl, rfl, rfl, hchk⟩ h3
        · intro p hp hps
          rcases List.mem_cons.mp hp with hp | hp
          · subst hp
            exact absurd hps hsync
          · exact h6 p hp hps
        · intro p hp hps hperr
          rcases List.mem_cons.mp hp with hp | hp
          · subst hp
            obtain ⟨e, he⟩ := hperr
            rw [hchk] at he
            cases he
          · exact h9 p hp hps hperr

/-- The loop of `storeChannelMessagesIfNeed` calls only `AppendStreamItem`, each call for a
message of the batch, and collects the messages to append: all of them when no call failed. -/
theorem storeLoop_spec (env : MsgEnv) (fromUID : String) :
    ∀ (messages storeMessages : List Message) (events : List MsgEvent),
      (∃ evs, (storeLoop env fromUID messages storeMessages events).events = events ++ evs ∧
        ∀ ev ∈ evs, ∃ m ∈ messages, ev = MsgEvent.appendStreamItem
          (GetFakeChannelIDWith fromUID m.ChannelID) m.ChannelType m.StreamNo m.ClientMsgNo
          m.Payload) ∧
      ((storeLoop env fromUID messages storeMessages events).err = none →
        (storeLoop env fromUID messages storeMessages events).storeMessages =
          storeMessages ++ toAppend env messages) := by
  intro messages
  induction messages with
  | nil =>
    intro acc events
    exact ⟨⟨[], by simp [storeLoop], by simp⟩, fun _ => by simp [storeLoop, toAppend]⟩
  | cons m rest ih =>
    intro acc events
    by_cases h1 : m.framer.NoPersist = true ∨ m.framer.SyncOnce = true
    · have hunf : storeLoop env fromUID (m :: rest) acc events =
          storeLoop env fromUID rest acc events := by
        simp only [storeLoop, h1, if_true]
      have hfil : toAppend env (m :: rest) = toAppend env rest := by
        rcases h1 with h | h <;> simp [toAppend, List.filter_cons, h]
      obtain ⟨⟨evs, e1, e2⟩, e3⟩ := ih acc events
      rw [hunf, hfil]
      exact ⟨⟨evs, e1, fun ev hev => by
        obtain ⟨x, hx, hxe⟩ := e2 ev hev
        exact ⟨x, List.mem_cons_of_mem _ hx, hxe⟩⟩, e3⟩
    · have hnp : m.framer.NoPersist = false := by
        cases h : m.framer.NoPersist with
        | true => exact absurd (Or.inl h) h1
        | false => rfl
      have hso : m.framer.SyncOnce = false := by
        cases h : m.framer.SyncOnce with
        | true => exact absurd (Or.inr h) h1
        | false => rfl
      by_cases h2 : env.StreamIng m = true
      · have hfil : toAppend env (m :: rest) = toAppend env rest := by
          simp [toAppend, List.filter_cons, h2]
        cases hcall : env.AppendStreamItem (GetFakeChannelIDWith fromUID m.ChannelID)
            m.ChannelType m.StreamNo m.ClientMsgNo m.Payload with
        | some err =>
          have hunf : storeLoop env fromUID (m :: rest) acc events =
              ⟨events ++ [MsgEvent.appendStreamItem (GetFakeChannelIDWith fromUID m.ChannelID)
                m.ChannelType m.StreamNo m.ClientMsgNo m.Payload], acc, some err⟩ := by
            simp [storeLoop, hnp, hso, h2, hcall]
          rw [hunf]
          refine ⟨⟨_, rfl, ?_⟩, fun h => by cases h⟩
          intro ev hev
          rw [List.mem_singleton] at hev
          exact ⟨m, List.mem_cons_self _ _, hev⟩
        | none =>
          have hunf : storeLoop env fromUID (m :: rest) acc events =
              storeLoop env fromUID rest acc
                (events ++ [MsgEvent.appendStreamItem (GetFakeChannelIDWith fromUID m.ChannelID)
                  m.ChannelType m.StreamNo m.ClientMsgNo m.Payload]) := by
            simp [storeLoop, hnp, hso, h2, hcall]
          obtain ⟨⟨evs, e1, e2⟩, e3⟩ := ih acc
            (events ++ [MsgEvent.appendStreamItem (GetFakeChannelIDWith fromUID m.ChannelID)
              m.ChannelType m.StreamNo m.ClientMsgNo m.Payload])
          rw [hunf, hfil]
          refine ⟨⟨MsgEvent.appendStreamItem (GetFakeChannelIDWith fromUID m.ChannelID)
            m.ChannelType m.StreamNo m.ClientMsgNo m.Payload :: evs, ?_, ?_⟩, e3⟩
          · rw [e1]; simp
          · intro ev hev
            rcases List.mem_cons.mp hev with hev | hev
            · exact ⟨m, List.mem_cons_self _ _, hev⟩
            · obtain ⟨x, hx, hxe⟩ := e2 ev hev
              exact ⟨x, List.mem_cons_of_mem _ hx, hxe⟩
      · have h2f : env.StreamIng m = false := by
          cases h : env.StreamIng m with
          | true => exact absurd h h2
          | false => rfl
        have hunf : storeLoop env fromUID (m :: rest) acc events =
            storeLoop env fromUID rest (acc ++ [m]) events := by
          simp [storeLoop, hnp, hso, h2f]
        have hfil : toAppend env (m :: rest) = m :: toAppend env rest := by
          simp [toAppend, List.filter_cons, hnp, hso, h2f]
        obtain ⟨⟨evs, e1, e2⟩, e3⟩ := ih (acc ++ [m]) events
        rw [hunf, hfil]
        refine ⟨⟨evs, e1, fun ev hev => ?_⟩, fun h => ?_⟩
        · obtain ⟨x, hx, hxe⟩ := e2 ev hev
          exact ⟨x, List.mem_cons_of_mem _ hx, hxe⟩
        · rw [e3 h]; simp

theorem appendMessagesCalls_of_streamItems (evs : List MsgEvent)
    (h : ∀ ev ∈ evs, ∃ a b c d e, ev = MsgEvent.appendStreamItem a b c d e) :
    appendMessagesCalls evs = [] ∧ sendacksSent evs = [] ∧
      evs.filter MsgEvent.isDelivery = [] := by
  induction evs with
  | nil => exact ⟨rfl, rfl, rfl⟩
  | cons ev rest ih =>
    obtain ⟨a, b, c, d, e, hev⟩ := h ev (List.mem_cons_self _ _)
    obtain ⟨i1, i2, i3⟩ := ih (fun x hx => h x (List.mem_cons_of_mem _ hx))
    subst hev
    exact ⟨by simpa [appendMessagesCalls] using i1, by simpa [sendacksSent] using i2,
      by simpa [List.filter_cons, MsgEvent.isDelivery] using i3⟩

/-- The events of `storeChannelMessagesIfNeed`: stream-item appends for messages of the batch,
followed by at most one `AppendMessages` call, which is made exactly when no stream-item append
failed and some message is to be appended, and which passes those messages. -/
theorem storeChannelMessagesIfNeed_events (pc : ProtoConsts) (env : MsgEnv) (fromUID : String)
    (messages : List Message) :
    ∃ evs calls,
      (storeChannelMessagesIfNeed pc env fromUID messages).events = evs ++ calls ∧
      (∀ ev ∈ evs, ∃ m ∈ messages, ev = MsgEvent.appendStreamItem
        (GetFakeChannelIDWith fromUID m.ChannelID) m.ChannelType m.StreamNo m.ClientMsgNo
        m.Payload) ∧
      (calls = [] ∨ ∃ channelID channelType,
        calls = [MsgEvent.appendMessages channelID channelType (toAppend env messages)] ∧
        toAppend env messages ≠ []) ∧
      ((storeLoop env fromUID messages [] []).err = none → toAppend env messages ≠ [] →
        calls ≠ []) := by
  unfold storeChannelMessagesIfNeed
  by_cases hlen : messages.length = 0
  · have hnil : messages = [] := List.length_eq_zero.mp hlen
    subst hnil
    exact ⟨[], [], by simp, by simp, Or.inl rfl, fun _ h => absurd rfl h⟩
  · obtain ⟨⟨evs, e1, e2⟩, e3⟩ := storeLoop_spec env fromUID messages [] []
    simp only [List.nil_append] at e1 e3
    simp only [hlen, if_false]
    cases herr : (storeLoop env fromUID messages [] []).err with
    | some err =>
      refine ⟨evs, [], ?_, e2, Or.inl rfl, fun h => by cases h⟩
      simp [e1]
    | none =>
      have hstore := e3 herr
      cases hsm : (storeLoop env fromUID messages [] []).storeMessages with
      | nil =>
        refine ⟨evs, [], ?_, e2, Or.inl rfl, fun _ h => ?_⟩
        · simp [e1]
        · rw [← hstore, hsm] at h
          exact absurd rfl h
      | cons firstMessage others =>
        have htoAppend : toAppend env messages = firstMessage :: others := by
          rw [← hstore, hsm]
        have hne : toAppend env messages ≠ [] := by rw [htoAppend]; simp
        cases hcall : env.AppendMessages
            (if firstMessage.ChannelType = pc.ChannelTypePerson then
              GetFakeChannelIDWith fromUID firstMessage.ChannelID
            else firstMessage.ChannelID) firstMessage.ChannelType (firstMessage :: others) with
        | error err =>
          refine ⟨evs, [MsgEvent.appendMessages
              (if firstMessage.ChannelType = pc.ChannelTypePerson then
                GetFakeChannelIDWith fromUID firstMessage.ChannelID
              else firstMessage.ChannelID) firstMessage.ChannelType (toAppend env messages)],
            ?_, e2, Or.inr ⟨_, _, rfl, hne⟩, fun _ _ => by simp⟩
          simp only [hcall, e1, htoAppend]
        | ok seqs =>
          refine ⟨evs, [MsgEvent.appendMessages
              (if firstMessage.ChannelType = pc.ChannelTypePerson then
                GetFakeChannelIDWith fromUID firstMessage.ChannelID
              else firstMessage.ChannelID) firstMessage.ChannelType (toAppend env messages)],
            ?_, e2, Or.inr ⟨_, _, rfl, hne⟩, fun _ _ => by simp⟩
          simp only [hcall, e1, htoAppend]

/-- C15: on every message list, `storeChannelMessagesIfNeed` calls `store.AppendMessages` at
most once; the list it passes is exactly the subsequence of the input, in input order, of the
messages that are persistent, not syncOnce and not streaming; the call is not made when that
subsequence is empty, and it is made when the subsequence is not empty and no stream-item
append failed before. -/
theorem storeChannelMessagesIfNeed_appends_subsequence (pc : ProtoConsts) (env : MsgEnv)
    (fromUID : String) (messages : List Message) :
    toAppend env messages =
        messages.filter
          (fun m => !m.framer.NoPersist && !m.framer.SyncOnce && !env.StreamIng m) ∧
      List.Sublist (toAppend env messages) messages ∧
      ((appendMessagesCalls (storeChannelMessagesIfNeed pc env fromUID messages).events).map
          (fun call => call.2.2) = [] ∨
        (appendMessagesCalls (storeChannelMessagesIfNeed pc env fromUID messages).events).map
          (fun call => call.2.2) = [toAppend env messages]) ∧
      (toAppend env messages = [] →
        appendMessagesCalls (storeChannelMessagesIfNeed pc env fromUID messages).events = []) ∧
      (appendMessagesCalls
        (storeChannelMessagesIfNeed pc env fromUID messages).events).length ≤ 1 ∧
      ((storeLoop env fromUID messages [] []).err = none → toAppend env messages ≠ [] →
        (appendMessagesCalls (storeChannelMessagesIfNeed pc env fromUID messages).events).map
          (fun call => call.2.2) = [toAppend env messages]) := by
  obtain ⟨evs, calls, hev, hstream, hcalls, hmade⟩ :=
    storeChannelMessagesIfNeed_events pc env fromUID messages
  have hq : appendMessagesCalls evs = [] :=
    (appendMessagesCalls_of_streamItems evs (fun ev hev => by
      obtain ⟨m, _, hm⟩ := hstream ev hev
      exact ⟨_, _, _, _, _, hm⟩)).1
  have hall : appendMessagesCalls (storeChannelMessagesIfNeed pc env fromUID messages).events =
      appendMessagesCalls calls := by
    rw [hev, appendMessagesCalls_append, hq, List.nil_append]
  rw [hall]
  refine ⟨rfl, List.filter_sublist _, ?_, ?_, ?_, ?_⟩
  · rcases hcalls with h | ⟨cid, ct, h, _⟩
    · exact Or.inl (by rw [h]; rfl)
    · exact Or.inr (by rw [h]; rfl)
  · intro hempty
    rcases hcalls with h | ⟨cid, ct, _, hne⟩
    · rw [h]; rfl
    · exact absurd hempty hne
  · rcases hcalls with h | ⟨cid, ct, h, _⟩
    · rw [h]; exact Nat.zero_le _
    · rw [h]; exact Nat.le_refl _
  · intro hloop hne
    rcases hcalls with h | ⟨cid, ct, h, _⟩
    · exact absurd h (hmade hloop hne)
    · rw [h]; rfl

theorem assignSeqs_mem (stored : Message → Bool) :
    ∀ (messages : List Message) (seqs : List Nat), ∀ m ∈ assignSeqs stored messages seqs,
      ∃ b ∈ messages, m = { b with MessageSeq := m.MessageSeq } := by
  intro messages
  induction messages with
  | nil => intro seqs m hm; simp [assignSeqs] at hm
  | cons x rest ih =>
    intro seqs m hm
    by_cases hs : stored x = true
    · cases seqs with
      | nil =>
        simp only [assignSeqs, hs, if_true, List.mem_cons] at hm
        rcases hm with hm | hm
        · exact ⟨x, List.mem_cons_self _ _, by rw [hm]⟩
        · obtain ⟨b, hb, hbe⟩ := ih [] m hm
          exact ⟨b, List.mem_cons_of_mem _ hb, hbe⟩
      | cons seq more =>
        simp only [assignSeqs, hs, if_true, List.mem_cons] at hm
        rcases hm with hm | hm
        · exact ⟨x, List.mem_cons_self _ _, by rw [hm]⟩
        · obtain ⟨b, hb, hbe⟩ := ih more m hm
          exact ⟨b, List.mem_cons_of_mem _ hb, hbe⟩
    · simp only [assignSeqs, hs, Bool.false_eq_true, if_false, List.mem_cons] at hm
      rcases hm with hm | hm
      · exact ⟨x, List.mem_cons_self _ _, by rw [hm]⟩
      · obtain ⟨b, hb, hbe⟩ := ih seqs m hm
        exact ⟨b, List.mem_cons_of_mem _ hb, hbe⟩

/-- The messages that `storeChannelMessagesIfNeed` leaves are those of the batch, possibly with
a messageSeq assigned; after an error they are unchanged. -/
theorem storeChannelMessagesIfNeed_messages (pc : ProtoConsts) (env : MsgEnv)
    (fromUID : String) (messages : List Message) :
    (∀ m ∈ (storeChannelMessagesIfNeed pc env fromUID messages).messages,
      ∃ b ∈ messages, m = { b with MessageSeq := m.MessageSeq }) ∧
    (∀ e, (storeChannelMessagesIfNeed pc env fromUID messages).err = some e →
      (storeChannelMessagesIfNeed pc env fromUID messages).messages = messages) := by
  have hself : ∀ m ∈ messages, ∃ b ∈ messages, m = { b with MessageSeq := m.MessageSeq } :=
    fun m hm => ⟨m, hm, rfl⟩
  unfold storeChannelMessagesIfNeed
  by_cases hlen : messages.length = 0
  · simp only [hlen, if_true]
    exact ⟨hself, fun _ _ => trivial⟩
  · simp only [hlen, if_false]
    cases herr : (storeLoop env fromUID messages [] []).err with
    | some err =>
      simp only [herr]
      exact ⟨hself, fun _ _ => trivial⟩
    | none =>
      cases hsm : (storeLoop env fromUID messages [] []).storeMessages with
      | nil =>
        simp only [herr, hsm]
        exact ⟨hself, fun _ _ => trivial⟩
      | cons firstMessage others =>
        cases hcall : env.AppendMessages
            (if firstMessage.ChannelType = pc.ChannelTypePerson then
              GetFakeChannelIDWith fromUID firstMessage.ChannelID
            else firstMessage.ChannelID) firstMessage.ChannelType (firstMessage :: others) with
        | error err =>
          simp only [herr, hsm, hcall]
          exact ⟨hself, fun _ _ => trivial⟩
        | ok seqs =>
          simp only [herr, hsm, hcall]
          exact ⟨assignSeqs_mem _ messages seqs, fun e h => by cases h⟩

/-- The events of `storeChannelMessagesIfNeed` send no frame, deliver nothing, and pass only
messages of the batch to the store. -/
theorem storeChannelMessagesIfNeed_quiet (pc : ProtoConsts) (env : MsgEnv) (fromUID : String)
    (messages : List Message) :
    sendacksSent (storeChannelMessagesIfNeed pc env fromUID messages).events = [] ∧
    (storeChannelMessagesIfNeed pc env fromUID messages).events.filter MsgEvent.isDelivery = [] ∧
    (∀ ev ∈ (storeChannelMessagesIfNeed pc env fromUID messages).events,
      ∀ m ∈ ev.messagesPassed, m ∈ messages) ∧
    (∀ a b c d e, MsgEvent.appendStreamItem a b c d e ∈
        (storeChannelMessagesIfNeed pc env fromUID messages).events →
      ∃ m ∈ messages, c = m.StreamNo ∧ d = m.ClientMsgNo ∧ e = m.Payload) := by
  obtain ⟨evs, calls, hev, hstream, hcalls, _⟩ :=
    storeChannelMessagesIfNeed_events pc env fromUID messages
  obtain ⟨q1, q2, q3⟩ := appendMessagesCalls_of_streamItems evs (fun ev hev => by
    obtain ⟨m, _, hm⟩ := hstream ev hev
    exact ⟨_, _, _, _, _, hm⟩)
  rw [hev]
  refine ⟨?_, ?_, ?_, ?_⟩
  · rw [sendacksSent_append, q2]
    rcases hcalls with h | ⟨cid, ct, h, _⟩ <;> rw [h] <;> rfl
  · rw [List.filter_append, q3]
    rcases hcalls with h | ⟨cid, ct, h, _⟩ <;> rw [h] <;> rfl
  · intro ev hmem m hm
    rcases List.mem_append.mp hmem with hmem | hmem
    · obtain ⟨x, _, hx⟩ := hstream ev hmem
      rw [hx] at hm
      simp [MsgEvent.messagesPassed] at hm
    · rcases hcalls with h | ⟨cid, ct, h, _⟩
      · rw [h] at hmem; cases hmem
      · rw [h, List.mem_singleton] at hmem
        rw [hmem] at hm
        exact (List.filter_sublist _).subset hm
  · intro a b c d e hmem
    rcases List.mem_append.mp hmem with hmem | hmem
    · obtain ⟨x, hx, hxe⟩ := hstream _ hmem
      cases hxe
      exact ⟨x, hx, rfl, rfl, rfl⟩
    · rcases hcalls with h | ⟨cid, ct, h, _⟩
      · rw [h] at hmem; cases hmem
      · rw [h, List.mem_singleton] at hmem
        cases hmem

/-- The shape of a run of `prcocessChannelMessages` on an existing channel that permits the
sender, on a connection that holds key and IV: the run does not fail; its events are those of
the packet loop followed by a tail of store, notify and delivery calls that sends no frame and
passes only built messages (possibly with a messageSeq assigned); its sendacks are those of the
packet loop followed by one per built message, all of one reason code, which is SystemError
with no delivery when the store fails and never Success then. -/
theorem prcocessChannelMessages_shape (pc : ProtoConsts) (env : MsgEnv) (conn : Conn)
    (channelID : String) (channelType : Nat) (sendPackets : List SendPacket)
    (channel : Channel) (aesKey aesIV : String)
    (hch : env.GetChannel
      (if channelType = pc.ChannelTypePerson then GetFakeChannelIDWith conn.uid channelID
        else channelID) channelType = Except.ok (some channel))
    (hperm : (hasPermission pc env.Allow channel conn.uid).1 = true)
    (hkey : conn.aesKey = some aesKey) (hiv : conn.aesIV = some aesIV) :
    (prcocessChannelMessages pc env conn channelID channelType sendPackets).messages =
        (buildMessages env conn channel sendPackets
          ⟨[], [], [MsgEvent.getChannel
            (if channelType = pc.ChannelTypePerson then GetFakeChannelIDWith conn.uid channelID
              else channelID) channelType], 0, false⟩).messages ∧
      (prcocessChannelMessages pc env conn channelID channelType sendPackets).crashed = false ∧
      (∃ tail,
        (prcocessChannelMessages pc env conn channelID channelType sendPackets).events =
          (buildMessages env conn channel sendPackets
            ⟨[], [], [MsgEvent.getChannel
              (if channelType = pc.ChannelTypePerson then
                GetFakeChannelIDWith conn.uid channelID
              else channelID) channelType], 0, false⟩).events ++ tail ∧
        sendacksSent tail = [] ∧
        (∀ ev ∈ tail, ∀ m ∈ ev.messagesPassed,
          ∃ b ∈ (prcocessChannelMessages pc env conn channelID channelType
              sendPackets).messages, m = { b with MessageSeq := m.MessageSeq }) ∧
        (∀ a b c d e, MsgEvent.appendStreamItem a b c d e ∈ tail →
          ∃ m ∈ (prcocessChannelMessages pc env conn channelID channelType
              sendPackets).messages, c = m.StreamNo ∧ d = m.ClientMsgNo ∧ e = m.Payload) ∧
        (∀ err, (storeChannelMessagesIfNeed pc env conn.uid
            (prcocessChannelMessages pc env conn channelID channelType
              sendPackets).messages).err = some err →
          tail.filter MsgEvent.isDelivery = [])) ∧
      (∃ more,
        (prcocessChannelMessages pc env conn channelID channelType
            sendPackets).sendackPackets =
          (buildMessages env conn channel sendPackets
            ⟨[], [], [MsgEvent.getChannel
              (if channelType = pc.ChannelTypePerson then
                GetFakeChannelIDWith conn.uid channelID
              else channelID) channelType], 0, false⟩).sendackPackets ++ more ∧
        (∀ err, (storeChannelMessagesIfNeed pc env conn.uid
            (prcocessChannelMessages pc env conn channelID channelType
              sendPackets).messages).err = some err →
          (prcocessChannelMessages pc env conn channelID channelType sendPackets).err =
              some err ∧
            more = (prcocessChannelMessages pc env conn channelID channelType
              sendPackets).messages.map
                (fun m => getSendackPacket m ReasonCode.ReasonSystemError))) := by
  generalize hfake : (if channelType = pc.ChannelTypePerson then
    GetFakeChannelIDWith conn.uid channelID else channelID) = fakeChannelID at hch ⊢
  obtain ⟨hc, _, _, _⟩ := buildMessages_spec env conn channel aesKey aesIV hkey hiv sendPackets
    ⟨[], [], [MsgEvent.getChannel fakeChannelID channelType], 0, false⟩
  generalize hst : buildMessages env conn channel sendPackets
    ⟨[], [], [MsgEvent.getChannel fakeChannelID channelType], 0, false⟩ = st at hc ⊢
  have hcrash : st.crashed = false := hc
  have hperm2 : ¬ (hasPermission pc env.Allow channel conn.uid).1 = false := by
    rw [hperm]; exact fun h => by cases h
  have hunf : prcocessChannelMessages pc env conn channelID channelType sendPackets =
      (if st.messages.length = 0 then
        ⟨st.sendackPackets, none, st.events, st.messages, false⟩
      else
        let stored := storeChannelMessagesIfNeed pc env conn.uid st.messages
        let ev1 := st.events ++ stored.events
        match stored.err with
        | some err =>
          ⟨st.sendackPackets ++ stored.messages.map
              (fun m => getSendackPacket m ReasonCode.ReasonSystemError),
            some err, ev1, st.messages, false⟩
        | none =>
          let notified :=
            if env.WebhookOn = true then storeChannelMessagesToNotifyQueue env stored.messages
            else ([], none)
          let ev2 := ev1 ++ notified.1
          match notified.2 with
          | some err =>
            ⟨st.sendackPackets ++ stored.messages.map
                (fun m => getSendackPacket m ReasonCode.ReasonSystemError),
              some err, ev2, st.messages, false⟩
          | none =>
            let ev3 := ev2 ++ [MsgEvent.put channel.ChannelID stored.messages conn.uid
              conn.deviceFlag conn.deviceID]
            match env.Put channel stored.messages conn.uid conn.deviceFlag conn.deviceID with
            | some err =>
              ⟨st.sendackPackets ++ stored.messages.map
                  (fun m => getSendackPacket m ReasonCode.ReasonSystemError),
                some err, ev3, st.messages, false⟩
            | none =>
              ⟨st.sendackPackets ++ stored.messages.map
                  (fun m => getSendackPacket m ReasonCode.ReasonSuccess),
                none, ev3, st.messages, false⟩) := by
    simp only [prcocessChannelMessages, hfake, hch, hperm2, if_false, hst, hcrash,
      Bool.false_eq_true, Bool.true_eq_false]
  rw [hunf]
  obtain ⟨m1, m2⟩ := storeChannelMessagesIfNeed_messages pc env conn.uid st.messages
  obtain ⟨q1, q2, q3, q4⟩ := storeChannelMessagesIfNeed_quiet pc env conn.uid st.messages
  have hself : ∀ m ∈ st.messages, ∃ b ∈ st.messages, m = { b with MessageSeq := m.MessageSeq } :=
    fun m hm => ⟨m, hm, rfl⟩
  by_cases hlen : st.messages.length = 0
  · have hnil : st.messages = [] := List.length_eq_zero.mp hlen
    simp only [hlen, if_true]
    refine ⟨(by first | rfl | trivial), (by first | rfl | trivial), ⟨[], by simp, rfl, by simp, by simp, fun _ _ => rfl⟩,
      ⟨[], by simp, ?_⟩⟩
    intro err herr
    rw [hnil] at herr
    simp [storeChannelMessagesIfNeed] at herr
  · simp only [hlen, if_false]
    cases herr : (storeChannelMessagesIfNeed pc env conn.uid st.messages).err with
    | some err =>
      simp only [herr]
      refine ⟨(by first | rfl | trivial), (by first | rfl | trivial),
        ⟨(storeChannelMessagesIfNeed pc env conn.uid st.messages).events, rfl, q1, ?_, q4,
          fun _ _ => q2⟩,
        ⟨_, rfl, ?_⟩⟩
      · intro ev hev m hm
        exact hself m (q3 ev hev m hm)
      · intro e he
        have hee : err = e := Option.some.inj he
        subst hee
        exact ⟨rfl, by rw [m2 err herr]⟩
    | none =>
      simp only [herr]
      have hnot : ∀ (ev : MsgEvent) (ms : List Message), (∀ m ∈ ms, m ∈
            (storeChannelMessagesIfNeed pc env conn.uid st.messages).messages) →
          ev.messagesPassed = ms → ∀ m ∈ ev.messagesPassed,
            ∃ b ∈ st.messages, m = { b with MessageSeq := m.MessageSeq } := by
        intro ev ms hms hev m hm
        rw [hev] at hm
        exact m1 m (hms m hm)
      have hnotified : sendacksSent (if env.WebhookOn = true then
            storeChannelMessagesToNotifyQueue env
              (storeChannelMessagesIfNeed pc env conn.uid st.messages).messages
          else ([], none)).1 = [] ∧
          (∀ ev ∈ (if env.WebhookOn = true then
              storeChannelMessagesToNotifyQueue env
                (storeChannelMessagesIfNeed pc env conn.uid st.messages).messages
            else ([], none)).1,
            (∀ m ∈ ev.messagesPassed,
              ∃ b ∈ st.messages, m = { b with MessageSeq := m.MessageSeq }) ∧
            ∀ a b c d e, ev ≠ MsgEvent.appendStreamItem a b c d e) := by
        by_cases hw : env.WebhookOn = true
        · simp only [hw, if_true, storeChannelMessagesToNotifyQueue]
          by_cases hl2 : (storeChannelMessagesIfNeed pc env conn.uid st.messages).messages.length
              = 0
          · simp [hl2, sendacksSent]
          · simp only [hl2, if_false]
            refine ⟨rfl, ?_⟩
            intro ev hev
            rw [List.mem_singleton] at hev
            subst hev
            refine ⟨?_, fun a b c d e h => by cases h⟩
            intro m hm
            exact m1 m ((List.filter_sublist _).subset hm)
        · simp [hw, sendacksSent]
      generalize (if env.WebhookOn = true then
          storeChannelMessagesToNotifyQueue env
            (storeChannelMessagesIfNeed pc env conn.uid st.messages).messages
        else ([], none)) = notified at hnotified ⊢
      obtain ⟨n1, n2⟩ := hnotified
      have hstoretail : ∀ ev ∈ (storeChannelMessagesIfNeed pc env conn.uid st.messages).events,
          ∀ m ∈ ev.messagesPassed,
            ∃ b ∈ st.messages, m = { b with MessageSeq := m.MessageSeq } :=
        fun ev hev m hm => hself m (q3 ev hev m hm)
      have hputpassed : ∀ m ∈ (MsgEvent.put channel.ChannelID
          (storeChannelMessagesIfNeed pc env conn.uid st.messages).messages conn.uid
          conn.deviceFlag conn.deviceID).messagesPassed,
          ∃ b ∈ st.messages, m = { b with MessageSeq := m.MessageSeq } :=
        fun m hm => m1 m hm
      cases hn : notified.2 with
      | some err =>
        simp only [hn]
        refine ⟨(by first | rfl | trivial), (by first | rfl | trivial),
          ⟨(storeChannelMessagesIfNeed pc env conn.uid st.messages).events ++ notified.1,
            by simp, by rw [sendacksSent_append, q1, n1]; rfl, ?_, ?_,
            fun e he => by first | cases he | (rw [herr] at he; cases he)⟩,
          ⟨_, rfl, fun e he => by first | cases he | (rw [herr] at he; cases he)⟩⟩
        · intro ev hev m hm
          rcases List.mem_append.mp hev with hev | hev
          · exact hstoretail ev hev m hm
          · exact (n2 ev hev).1 m hm
        · intro a b c d e hmem
          rcases List.mem_append.mp hmem with hmem | hmem
          · exact q4 a b c d e hmem
          · exact absurd rfl ((n2 _ hmem).2 a b c d e)
      | none =>
        simp only [hn]
        have htail : ∀ ev ∈ (storeChannelMessagesIfNeed pc env conn.uid st.messages).events ++
            notified.1 ++ [MsgEvent.put channel.ChannelID
              (storeChannelMessagesIfNeed pc env conn.uid st.messages).messages conn.uid
              conn.deviceFlag conn.deviceID],
            (∀ m ∈ ev.messagesPassed,
              ∃ b ∈ st.messages, m = { b with MessageSeq := m.MessageSeq }) := by
          intro ev hev m hm
          rcases List.mem_append.mp hev with hev | hev
          · rcases List.mem_append.mp hev with hev | hev
            · exact hstoretail ev hev m hm
            · exact (n2 ev hev).1 m hm
          · rw [List.mem_singleton] at hev
            subst hev
            exact hputpassed m hm
        have hstream : ∀ a b c d e, MsgEvent.appendStreamItem a b c d e ∈
            (storeChannelMessagesIfNeed pc env conn.uid st.messages).events ++
              notified.1 ++ [MsgEvent.put channel.ChannelID
                (storeChannelMessagesIfNeed pc env conn.uid st.messages).messages conn.uid
                conn.deviceFlag conn.deviceID] →
            ∃ m ∈ st.messages, c = m.StreamNo ∧ d = m.ClientMsgNo ∧ e = m.Payload := by
          intro a b c d e hmem
          rcases List.mem_append.mp hmem with hmem | hmem
          · rcases List.mem_append.mp hmem with hmem | hmem
            · exact q4 a b c d e hmem
            · exact absurd rfl ((n2 _ hmem).2 a b c d e)
          · rw [List.mem_singleton] at hmem
            cases hmem
        have hsent : sendacksSent
            ((storeChannelMessagesIfNeed pc env conn.uid st.messages).events ++
              notified.1 ++ [MsgEvent.put channel.ChannelID
                (storeChannelMessagesIfNeed pc env conn.uid st.messages).messages conn.uid
                conn.deviceFlag conn.deviceID]) = [] := by
          rw [sendacksSent_append, sendacksSent_append, q1, n1]; rfl
        cases hput : env.Put channel
            (storeChannelMessagesIfNeed pc env conn.uid st.messages).messages conn.uid
            conn.deviceFlag conn.deviceID with
        | some err =>
          simp only [hput]
          exact ⟨(by first | rfl | trivial), (by first | rfl | trivial),
            ⟨_, by simp, hsent, htail, hstream, fun e he => by first | cases he | (rw [herr] at he; cases he)⟩,
            ⟨_, rfl, fun e he => by first | cases he | (rw [herr] at he; cases he)⟩⟩
        | none =>
          simp only [hput]
          exact ⟨(by first | rfl | trivial), (by first | rfl | trivial),
            ⟨_, by simp, hsent, htail, hstream, fun e he => by first | cases he | (rw [herr] at he; cases he)⟩,
            ⟨_, rfl, fun e he => by first | cases he | (rw [herr] at he; cases he)⟩⟩

/-- On an existing channel that permits the sender, on a connection that holds key and IV:
the built messages correspond one to one, in order, to the accepted packets; every message
handed to the store, to the notify queue or to `channel.Put` is a built message; every syncOnce
packet is answered with NotSupportHeader in the returned sendacks and every other rejected
packet with PayloadDecodeError sent directly. -/
theorem prcocessChannelMessages_only_accepted (pc : ProtoConsts) (env : MsgEnv) (conn : Conn)
    (channelID : String) (channelType : Nat) (sendPackets : List SendPacket)
    (channel : Channel) (aesKey aesIV : String)
    (hch : env.GetChannel
      (if channelType = pc.ChannelTypePerson then GetFakeChannelIDWith conn.uid channelID
        else channelID) channelType = Except.ok (some channel))
    (hperm : (hasPermission pc env.Allow channel conn.uid).1 = true)
    (hkey : conn.aesKey = some aesKey) (hiv : conn.aesIV = some aesIV) :
    List.Forall₂ (builtFrom env conn)
        (prcocessChannelMessages pc env conn channelID channelType sendPackets).messages
        (sendPackets.filter (packetAccepted env conn)) ∧
      (∀ ev ∈ (prcocessChannelMessages pc env conn channelID channelType sendPackets).events,
        ∀ m ∈ ev.messagesPassed,
          ∃ b ∈ (prcocessChannelMessages pc env conn channelID channelType
              sendPackets).messages, m = { b with MessageSeq := m.MessageSeq }) ∧
      (∀ a b c d e, MsgEvent.appendStreamItem a b c d e ∈
          (prcocessChannelMessages pc env conn channelID channelType sendPackets).events →
        ∃ m ∈ (prcocessChannelMessages pc env conn channelID channelType
            sendPackets).messages, c = m.StreamNo ∧ d = m.ClientMsgNo ∧ e = m.Payload) ∧
      (∀ sp ∈ sendPackets, sp.framer.SyncOnce = true → ∃ messageID,
        syncOnceSendack sp messageID ∈
          (prcocessChannelMessages pc env conn channelID channelType
            sendPackets).sendackPackets) ∧
      (∀ sp ∈ sendPackets, sp.framer.SyncOnce = false →
        (∃ e, checkAndDecodePayload env sp conn = GoResult.err e) → ∃ messageID,
          MsgEvent.response conn.id (payloadErrorSendack sp messageID) ∈
            (prcocessChannelMessages pc env conn channelID channelType sendPackets).events) := by
  obtain ⟨hmsgs, _, ⟨tail, hev, _, hpassed, hstream, _⟩, ⟨more, hacks, _⟩⟩ :=
    prcocessChannelMessages_shape pc env conn channelID channelType sendPackets channel aesKey
      aesIV hch hperm hkey hiv
  obtain ⟨_, ⟨new, b1, b2⟩, ⟨acks, b3, _, b5⟩, ⟨evs, b6, b7, b8⟩⟩ :=
    buildMessages_spec env conn channel aesKey aesIV hkey hiv sendPackets
      ⟨[], [], [MsgEvent.getChannel
        (if channelType = pc.ChannelTypePerson then GetFakeChannelIDWith conn.uid channelID
          else channelID) channelType], 0, false⟩
  simp only [List.nil_append] at b1 b3
  refine ⟨?_, ?_, ?_, ?_, ?_⟩
  · rw [hmsgs, b1]; exact b2
  · intro ev hmem m hm
    rw [hev, b6] at hmem
    rcases List.mem_append.mp hmem with hmem | hmem
    · rcases List.mem_append.mp hmem with hmem | hmem
      · rw [List.mem_singleton] at hmem
        rw [hmem] at hm
        simp [MsgEvent.messagesPassed] at hm
      · obtain ⟨sa, hsa, _⟩ := b7 ev hmem
        rw [hsa] at hm
        simp [MsgEvent.messagesPassed] at hm
    · exact hpassed ev hmem m hm
  · intro a b c d e hmem
    rw [hev, b6] at hmem
    rcases List.mem_append.mp hmem with hmem | hmem
    · rcases List.mem_append.mp hmem with hmem | hmem
      · rw [List.mem_singleton] at hmem
        cases hmem
      · obtain ⟨sa, hsa, _⟩ := b7 _ hmem
        cases hsa
    · exact hstream a b c d e hmem
  · intro sp hsp hsync
    obtain ⟨messageID, hmem⟩ := b5 sp hsp hsync
    exact ⟨messageID, by rw [hacks, b3]; exact List.mem_append_left _ hmem⟩
  · intro sp hsp hsync herr
    obtain ⟨messageID, hmem⟩ := b8 sp hsp hsync herr
    exact ⟨messageID, by
      rw [hev, b6]
      exact List.mem_append_left _ (List.mem_append_right _ hmem)⟩

/-! ## Rejected SEND packets -/

/-- C12, counterexample: a SEND with a wrong message key and the syncOnce flag set, on an
existing channel that permits the sender. The packet is answered with NotSupportHeader in the
returned sendacks; no sendack of reason PayloadDecodeError is returned or sent. -/
theorem prcocessChannelMessages_bad_key_with_syncOnce :
    sampleSyncOnceSend.MsgKey ≠
        sampleMsgEnv.MD5 ("enc:" ++ sampleMsgEnv.VerityString sampleSyncOnceSend) ∧
      (∀ enc, sampleMsgEnv.AesEncryptPkcs7Base64 (sampleMsgEnv.VerityString sampleSyncOnceSend)
          "K" "IV" = Except.ok enc → sampleSyncOnceSend.MsgKey ≠ sampleMsgEnv.MD5 enc) ∧
      (prcocessChannelMessages sampleConsts sampleMsgEnv sampleAuthedConn "grp" 2
          [sampleSyncOnceSend]).sendackPackets =
        [{ framer := { SyncOnce := true }, ClientSeq := 3, ClientMsgNo := "m3",
           MessageID := 1000, ReasonCode := ReasonCode.ReasonNotSupportHeader }] ∧
      sendacksSent (prcocessChannelMessages sampleConsts sampleMsgEnv sampleAuthedConn "grp" 2
          [sampleSyncOnceSend]).events = [] := by
  refine ⟨by decide, ?_, by decide, by decide⟩
  intro enc henc
  have : enc = "enc:m3" := by
    simp only [sampleMsgEnv, sampleSyncOnceSend] at henc
    exact (Except.ok.inj henc).symm
  subst this
  decide

/-- C12, amended: on an existing channel that permits the sender, for every SendPacket
without the syncOnce flag whose msgKey differs from the MD5 of the encrypted verity string
computed with the connection's key and IV, `prcocessChannelMessages` sends a sendack of reason
PayloadDecodeError for it; the packet is not accepted, the built messages correspond one to
one to the accepted packets, and only built messages are handed to the store (AppendMessages,
AppendStreamItem), to the notify queue and to `channel.Put`. -/
theorem prcocessChannelMessages_bad_key_rejected (pc : ProtoConsts) (env : MsgEnv)
    (conn : Conn) (channelID : String) (channelType : Nat) (sendPackets : List SendPacket)
    (channel : Channel) (aesKey aesIV : String) (sp : SendPacket)
    (hch : env.GetChannel
      (if channelType = pc.ChannelTypePerson then GetFakeChannelIDWith conn.uid channelID
        else channelID) channelType = Except.ok (some channel))
    (hperm : (hasPermission pc env.Allow channel conn.uid).1 = true)
    (hkey : conn.aesKey = some aesKey) (hiv : conn.aesIV = some aesIV)
    (hsp : sp ∈ sendPackets) (hsync : sp.framer.SyncOnce = false)
    (hbad : ∀ enc, env.AesEncryptPkcs7Base64 (env.VerityString sp) aesKey aesIV =
      Except.ok enc → sp.MsgKey ≠ env.MD5 enc) :
    (∃ messageID,
        MsgEvent.response conn.id
          { framer := sp.framer, ClientSeq := sp.ClientSeq, ClientMsgNo := sp.ClientMsgNo,
            MessageID := messageID, ReasonCode := ReasonCode.ReasonPayloadDecodeError } ∈
          (prcocessChannelMessages pc env conn channelID channelType sendPackets).events) ∧
      packetAccepted env conn sp = false ∧
      List.Forall₂ (builtFrom env conn)
        (prcocessChannelMessages pc env conn channelID channelType sendPackets).messages
        (sendPackets.filter (packetAccepted env conn)) ∧
      (∀ ev ∈ (prcocessChannelMessages pc env conn channelID channelType sendPackets).events,
        ∀ m ∈ ev.messagesPassed,
          ∃ b ∈ (prcocessChannelMessages pc env conn channelID channelType
              sendPackets).messages, m = { b with MessageSeq := m.MessageSeq }) ∧
      (∀ a b c d e, MsgEvent.appendStreamItem a b c d e ∈
          (prcocessChannelMessages pc env conn channelID channelType sendPackets).events →
        ∃ m ∈ (prcocessChannelMessages pc env conn channelID channelType
            sendPackets).messages, c = m.StreamNo ∧ d = m.ClientMsgNo ∧ e = m.Payload) := by
  obtain ⟨h1, h2, h3, _, h5⟩ := prcocessChannelMessages_only_accepted pc env conn channelID
    channelType sendPackets channel aesKey aesIV hch hperm hkey hiv
  obtain ⟨e, he⟩ := checkAndDecodePayload_bad_key env conn sp aesKey aesIV hkey hiv hbad
  refine ⟨h5 sp hsp hsync ⟨e, he⟩, ?_, h1, h2, h3⟩
  simp [packetAccepted, he]

/-- Witness for C12 (amended): a batch of a good packet and one with a forged message key. -/
theorem prcocessChannelMessages_bad_key_rejected_witness :
    (∃ messageID,
        MsgEvent.response 9
          { framer := {}, ClientSeq := 2, ClientMsgNo := "m2",
            MessageID := messageID, ReasonCode := ReasonCode.ReasonPayloadDecodeError } ∈
          (prcocessChannelMessages sampleConsts sampleMsgEnv sampleAuthedConn "grp" 2
            [sampleSend, sampleBadKeySend]).events) ∧
      packetAccepted sampleMsgEnv sampleAuthedConn sampleBadKeySend = false :=
  ⟨(prcocessChannelMessages_bad_key_rejected sampleConsts sampleMsgEnv sampleAuthedConn "grp" 2
      [sampleSend, sampleBadKeySend] sampleOpenChannel "K" "IV" sampleBadKeySend
      rfl (by decide) rfl rfl (by decide) (by decide)
      (fun enc henc => by
        have : enc = "enc:m2" := by
          simp only [sampleMsgEnv, sampleBadKeySend] at henc
          exact (Except.ok.inj henc).symm
        subst this
        decide)).1,
   (prcocessChannelMessages_bad_key_rejected sampleConsts sampleMsgEnv sampleAuthedConn "grp" 2
      [sampleSend, sampleBadKeySend] sampleOpenChannel "K" "IV" sampleBadKeySend
      rfl (by decide) rfl rfl (by decide) (by decide)
      (fun enc henc => by
        have : enc = "enc:m2" := by
          simp only [sampleMsgEnv, sampleBadKeySend] at henc
          exact (Except.ok.inj henc).symm
        subst this
        decide)).2.1⟩

/-- C13: for every SendPacket with the syncOnce flag set, on a channel that exists and permits
the sender, `prcocessChannelMessages` returns a sendack of reason NotSupportHeader that echoes
the packet's clientSeq and clientMsgNo; the packet is not accepted, so it is never turned into
a message: the built messages correspond one to one to the accepted packets, and only built
messages are stored, queued for notification or delivered. The connection holds key and IV. -/
theorem prcocessChannelMessages_syncOnce_rejected (pc : ProtoConsts) (env : MsgEnv)
    (conn : Conn) (channelID : String) (channelType : Nat) (sendPackets : List SendPacket)
    (channel : Channel) (aesKey aesIV : String) (sp : SendPacket)
    (hch : env.GetChannel
      (if channelType = pc.ChannelTypePerson then GetFakeChannelIDWith conn.uid channelID
        else channelID) channelType = Except.ok (some channel))
    (hperm : (hasPermission pc env.Allow channel conn.uid).1 = true)
    (hkey : conn.aesKey = some aesKey) (hiv : conn.aesIV = some aesIV)
    (hsp : sp ∈ sendPackets) (hsync : sp.framer.SyncOnce = true) :
    (∃ messageID,
        ({ framer := sp.framer, ClientSeq := sp.ClientSeq, ClientMsgNo := sp.ClientMsgNo,
           MessageID := messageID,
           ReasonCode := ReasonCode.ReasonNotSupportHeader } : SendackPacket) ∈
          (prcocessChannelMessages pc env conn channelID channelType
            sendPackets).sendackPackets) ∧
      packetAccepted env conn sp = false ∧
      List.Forall₂ (builtFrom env conn)
        (prcocessChannelMessages pc env conn channelID channelType sendPackets).messages
        (sendPackets.filter (packetAccepted env conn)) ∧
      (∀ ev ∈ (prcocessChannelMessages pc env conn channelID channelType sendPackets).events,
        ∀ m ∈ ev.messagesPassed,
          ∃ b ∈ (prcocessChannelMessages pc env conn channelID channelType
              sendPackets).messages, m = { b with MessageSeq := m.MessageSeq }) ∧
      (∀ a b c d e, MsgEvent.appendStreamItem a b c d e ∈
          (prcocessChannelMessages pc env conn channelID channelType sendPackets).events →
        ∃ m ∈ (prcocessChannelMessages pc env conn channelID channelType
            sendPackets).messages, c = m.StreamNo ∧ d = m.ClientMsgNo ∧ e = m.Payload) := by
  obtain ⟨h1, h2, h3, h4, _⟩ := prcocessChannelMessages_only_accepted pc env conn channelID
    channelType sendPackets channel aesKey aesIV hch hperm hkey hiv
  refine ⟨h4 sp hsp hsync, ?_, h1, h2, h3⟩
  simp [packetAccepted, hsync]

/-- Witness for C13: a batch of a good packet and one with the syncOnce flag. -/
theorem prcocessChannelMessages_syncOnce_rejected_witness :
    (∃ messageID,
        ({ framer := { SyncOnce := true }, ClientSeq := 3, ClientMsgNo := "m3",
           MessageID := messageID,
           ReasonCode := ReasonCode.ReasonNotSupportHeader } : SendackPacket) ∈
          (prcocessChannelMessages sampleConsts sampleMsgEnv sampleAuthedConn "grp" 2
            [sampleSend, sampleSyncOnceSend]).sendackPackets) ∧
      packetAccepted sampleMsgEnv sampleAuthedConn sampleSyncOnceSend = false :=
  ⟨(prcocessChannelMessages_syncOnce_rejected sampleConsts sampleMsgEnv sampleAuthedConn "grp" 2
      [sampleSend, sampleSyncOnceSend] sampleOpenChannel "K" "IV" sampleSyncOnceSend
      rfl (by decide) rfl rfl (by decide) (by decide)).1,
   (prcocessChannelMessages_syncOnce_rejected sampleConsts sampleMsgEnv sampleAuthedConn "grp" 2
      [sampleSend, sampleSyncOnceSend] sampleOpenChannel "K" "IV" sampleSyncOnceSend
      rfl (by decide) rfl rfl (by decide) (by decide)).2.1⟩

/-! ## Store failure on the message path -/

/-- C14: if `storeChannelMessagesIfNeed` returns an error for the messages built for a
partition, `prcocessChannelMessages` returns that error and a sendack of reason SystemError for
every built message; no sendack of reason Success is returned or sent; and neither the
notify-queue append nor `channel.Put` is called. The connection holds key and IV. -/
theorem prcocessChannelMessages_store_error (pc : ProtoConsts) (env : MsgEnv) (conn : Conn)
    (channelID : String) (channelType : Nat) (sendPackets : List SendPacket)
    (aesKey aesIV : String) (err : String)
    (hkey : conn.aesKey = some aesKey) (hiv : conn.aesIV = some aesIV)
    (hstore : (storeChannelMessagesIfNeed pc env conn.uid
      (prcocessChannelMessages pc env conn channelID channelType sendPackets).messages).err =
        some err) :
    (prcocessChannelMessages pc env conn channelID channelType sendPackets).err = some err ∧
      (∀ m ∈ (prcocessChannelMessages pc env conn channelID channelType sendPackets).messages,
        getSendackPacket m ReasonCode.ReasonSystemError ∈
          (prcocessChannelMessages pc env conn channelID channelType
            sendPackets).sendackPackets) ∧
      (∀ sa ∈ (prcocessChannelMessages pc env conn channelID channelType
          sendPackets).sendackPackets, sa.ReasonCode ≠ ReasonCode.ReasonSuccess) ∧
      (∀ sa ∈ sendacksSent (prcocessChannelMessages pc env conn channelID channelType
          sendPackets).events, sa.ReasonCode ≠ ReasonCode.ReasonSuccess) ∧
      (prcocessChannelMessages pc env conn channelID channelType sendPackets).events.filter
        MsgEvent.isDelivery = [] := by
  have hempty : (storeChannelMessagesIfNeed pc env conn.uid []).err = none := by
    simp [storeChannelMessagesIfNeed]
  cases hch : env.GetChannel
      (if channelType = pc.ChannelTypePerson then GetFakeChannelIDWith conn.uid channelID
        else channelID) channelType with
  | error e =>
    have hm : (prcocessChannelMessages pc env conn channelID channelType sendPackets).messages
        = [] := by simp [prcocessChannelMessages, hch]
    rw [hm, hempty] at hstore
    cases hstore
  | ok found =>
    cases found with
    | none =>
      have hm : (prcocessChannelMessages pc env conn channelID channelType
          sendPackets).messages = [] := by simp [prcocessChannelMessages, hch]
      rw [hm, hempty] at hstore
      cases hstore
    | some channel =>
      cases hperm : (hasPermission pc env.Allow channel conn.uid).1 with
      | false =>
        have hm : (prcocessChannelMessages pc env conn channelID channelType
            sendPackets).messages = [] := by simp [prcocessChannelMessages, hch, hperm]
        rw [hm, hempty] at hstore
        cases hstore
      | true =>
        obtain ⟨_, _, ⟨tail, hev, hsent, _, _, hnodel⟩, ⟨more, hacks, hmore⟩⟩ :=
          prcocessChannelMessages_shape pc env conn channelID channelType sendPackets channel
            aesKey aesIV hch hperm hkey hiv
        obtain ⟨_, _, ⟨acks, b3, b4, _⟩, ⟨evs, b6, b7, _⟩⟩ :=
          buildMessages_spec env conn channel aesKey aesIV hkey hiv sendPackets
            ⟨[], [], [MsgEvent.getChannel
              (if channelType = pc.ChannelTypePerson then
                GetFakeChannelIDWith conn.uid channelID
              else channelID) channelType], 0, false⟩
        simp only [List.nil_append] at b3
        obtain ⟨herr, hmoreEq⟩ := hmore err hstore
        have hdelBuild : ∀ l : List MsgEvent,
            (∀ ev ∈ l, ∃ sa, ev = MsgEvent.response conn.id sa ∧
              sa.ReasonCode = ReasonCode.ReasonPayloadDecodeError) →
            l.filter MsgEvent.isDelivery = [] ∧
              ∀ sa ∈ sendacksSent l, sa.ReasonCode = ReasonCode.ReasonPayloadDecodeError := by
          intro l
          induction l with
          | nil => intro _; exact ⟨rfl, fun sa h => by cases h⟩
          | cons x rest ih =>
            intro hl
            obtain ⟨sa, hx, hsa⟩ := hl x (List.mem_cons_self _ _)
            obtain ⟨i1, i2⟩ := ih (fun ev hev => hl ev (List.mem_cons_of_mem _ hev))
            subst hx
            refine ⟨by simpa [List.filter_cons, MsgEvent.isDelivery] using i1, ?_⟩
            intro sb hsb
            simp only [sendacksSent, List.mem_cons] at hsb
            rcases hsb with hsb | hsb
            · rw [hsb]; exact hsa
            · exact i2 sb hsb
        obtain ⟨d1, d2⟩ := hdelBuild evs b7
        refine ⟨herr, ?_, ?_, ?_, ?_⟩
        · intro m hm
          rw [hacks, hmoreEq]
          exact List.mem_append_right _ (List.mem_map_of_mem _ hm)
        · intro sa hsa
          rw [hacks, hmoreEq, b3] at hsa
          rcases List.mem_append.mp hsa with hsa | hsa
          · rw [b4 sa hsa]; exact fun h => by cases h
          · obtain ⟨m, _, hm⟩ := List.mem_map.mp hsa
            rw [← hm]
            exact fun h => by cases h
        · intro sa hsa
          rw [hev, b6, sendacksSent_append, sendacksSent_append, hsent] at hsa
          simp only [sendacksSent, List.nil_append, List.append_nil] at hsa
          rw [d2 sa hsa]
          exact fun h => by cases h
        · rw [hev, b6, List.filter_append, List.filter_append, d1, hnodel err hstore]
          rfl

/-- Witness for C14: a good packet and a syncOnce packet on a store whose `AppendMessages`
fails. -/
theorem prcocessChannelMessages_store_error_witness :
    (prcocessChannelMessages sampleConsts sampleFailingStoreEnv sampleAuthedConn "grp" 2
        [sampleSend, sampleSyncOnceSend]).err = some "store is down" ∧
      (prcocessChannelMessages sampleConsts sampleFailingStoreEnv sampleAuthedConn "grp" 2
        [sampleSend, sampleSyncOnceSend]).events.filter MsgEvent.isDelivery = [] :=
  ⟨(prcocessChannelMessages_store_error sampleConsts sampleFailingStoreEnv sampleAuthedConn
      "grp" 2 [sampleSend, sampleSyncOnceSend] "K" "IV" "store is down" rfl rfl
      (by decide)).1,
   (prcocessChannelMessages_store_error sampleConsts sampleFailingStoreEnv sampleAuthedConn
      "grp" 2 [sampleSend, sampleSyncOnceSend] "K" "IV" "store is down" rfl rfl
      (by decide)).2.2.2.2⟩

/-! ## Cursor updates on RECVACK -/

theorem cursorUpdates_append (a b : List AckEvent) :
    cursorUpdates (a ++ b) = cursorUpdates a ++ cursorUpdates b := by
  induction a with
  | nil => rfl
  | cons ev rest ih => cases ev <;> simp [cursorUpdates, ih]

/-- C17: the cursor updates that `processRecvacks` makes on a connection are exactly one per
ack that has syncOnce set and noPersist unset, in order, with the connection's uid and the
ack's messageSeq, provided the connection's device level is Master; on a connection of any
other device level no cursor update is made. For a single ack the update is made if and only
if syncOnce is set, noPersist is unset and the device level is Master. -/
theorem processRecvacks_cursor_updates (pc : ProtoConsts) (conn : Conn)
    (acks : List RecvackPacket) :
    cursorUpdates (processRecvacks pc conn acks) =
        (acks.filter (fun ack => ack.framer.SyncOnce && !ack.framer.NoPersist &&
          decide (conn.deviceLevel = pc.DeviceLevelMaster))).map
          (fun ack => (conn.uid, ack.MessageSeq)) ∧
      (conn.deviceLevel ≠ pc.DeviceLevelMaster →
        cursorUpdates (processRecvacks pc conn acks) = []) ∧
      (∀ ack : RecvackPacket,
        AckEvent.updateMessageOfUserCursorIfNeed conn.uid ack.MessageSeq ∈
            processRecvacks pc conn [ack] ↔
          ack.framer.SyncOnce = true ∧ ack.framer.NoPersist = false ∧
            conn.deviceLevel = pc.DeviceLevelMaster) := by
  have hmain : ∀ l : List RecvackPacket, cursorUpdates (processRecvacks pc conn l) =
      (l.filter (fun ack => ack.framer.SyncOnce && !ack.framer.NoPersist &&
        decide (conn.deviceLevel = pc.DeviceLevelMaster))).map
        (fun ack => (conn.uid, ack.MessageSeq)) := by
    intro l
    induction l with
    | nil => rfl
    | cons ack rest ih =>
      simp only [processRecvacks, cursorUpdates_append, ih]
      by_cases h1 : ack.framer.SyncOnce = true <;> by_cases h2 : ack.framer.NoPersist = true <;>
        by_cases h3 : conn.deviceLevel = pc.DeviceLevelMaster <;>
        simp [h1, h2, h3, cursorUpdates, List.filter_cons]
  refine ⟨hmain acks, ?_, ?_⟩
  · intro hne
    rw [hmain]
    simp [hne]
  · intro ack
    by_cases h1 : ack.framer.SyncOnce = true <;> by_cases h2 : ack.framer.NoPersist = true <;>
      by_cases h3 : conn.deviceLevel = pc.DeviceLevelMaster <;>
      simp [processRecvacks, h1, h2, h3]

/-! ## Message sync -/

theorem syncMessages_call (pc : ProtoConsts) (load : LoadCall → Except String (List Message))
    (req : SyncRequest) :
    (syncMessages pc load (Except.ok req)).call = some (syncCall pc req) := by
  simp only [syncMessages]
  cases load (syncCall pc req) <;> rfl

theorem syncMessages_outcome (pc : ProtoConsts)
    (load : LoadCall → Except String (List Message)) (req : SyncRequest)
    (messages : List Message) (hload : load (syncCall pc req) = Except.ok messages) :
    (syncMessages pc load (Except.ok req)).outcome = SyncOutcome.json
      { StartMessageSeq := req.StartMessageSeq
        EndMessageSeq := req.EndMessageSeq
        More := BoolToInt (syncMore req (syncLimit req) (messages.map messageRespFrom))
        Messages := messages.map messageRespFrom } := by
  simp only [syncMessages, hload]

theorem syncMore_eq_false_iff (req : SyncRequest) (limit : Int) (resps : List MessageResp) :
    syncMore req limit resps = false ↔
      ((resps.length : Int) < limit ∨
        (req.EndMessageSeq ≠ 0 ∧
          ((if req.PullMode = PullModeDown then resps.head? else resps.getLast?).map
            (fun r => r.MessageSeq)) = some req.EndMessageSeq)) := by
  cases resps with
  | nil =>
    by_cases hlt : ((0 : Nat) : Int) < limit <;> by_cases hd : req.PullMode = PullModeDown <;>
      simp [syncMore, hlt, hd]
  | cons x xs =>
    obtain ⟨l, hl⟩ : ∃ l, (x :: xs).getLast? = some l :=
      ⟨(x :: xs).getLast (by simp), List.getLast?_eq_getLast _ _⟩
    simp only [syncMore, List.head?_cons, hl]
    by_cases hlt : (((x :: xs).length : Nat) : Int) < limit
    · simp only [hlt, if_true, true_or, iff_true]
      split_ifs <;> rfl
    · simp only [hlt, if_false, false_or]
      by_cases hd : req.PullMode = PullModeDown
      · simp only [hd, if_true, Option.map_some', Option.some.injEq]
        by_cases he : req.EndMessageSeq = 0
        · simp [he]
        · by_cases h1 : req.EndMessageSeq = x.MessageSeq
          · simp [he, h1]
          · have h1' : ¬ x.MessageSeq = req.EndMessageSeq := fun h => h1 h.symm
            simp [he, h1, h1']
      · simp only [hd, if_false, Option.map_some', Option.some.injEq]
        by_cases he : req.EndMessageSeq = 0
        · simp [he]
        · by_cases h1 : req.EndMessageSeq = l.MessageSeq
          · simp [he, h1]
          · have h1' : ¬ l.MessageSeq = req.EndMessageSeq := fun h => h1 h.symm
            simp [he, h1, h1']

/-- C18: `syncMessages` passes `min (request limit) 10000` to the store; the response flag
`more` is 0 exactly when the number of returned messages is below that limit, or
`end_message_seq` is non-zero and equals the seq of the boundary message (the first returned
message under PullModeDown, the last one otherwise, so under PullModeUp), and it is 1 in every
other case. For start 10, end 5, PullModeDown, limit 3 and returned seqs 9, 8, 7 the flag is
1. -/
theorem syncMessages_limit_and_more (pc : ProtoConsts)
    (load : LoadCall → Except String (List Message)) (req : SyncRequest) :
    (∃ call, (syncMessages pc load (Except.ok req)).call = some call ∧
      call.limit = min req.Limit 10000 ∧
      ∀ messages, load call = Except.ok messages →
        ∃ body, (syncMessages pc load (Except.ok req)).outcome = SyncOutcome.json body ∧
          body.Messages = messages.map messageRespFrom ∧
          (body.More = 0 ∨ body.More = 1) ∧
          (body.More = 0 ↔
            ((messages.length : Int) < min req.Limit 10000 ∨
              (req.EndMessageSeq ≠ 0 ∧
                ((if req.PullMode = PullModeDown then messages.head?
                  else messages.getLast?).map (fun m => m.MessageSeq)) =
                  some req.EndMessageSeq)))) ∧
    (∀ (m1 m2 m3 : Message), m1.MessageSeq = 9 → m2.MessageSeq = 8 → m3.MessageSeq = 7 →
      syncMore { StartMessageSeq := 10, EndMessageSeq := 5, PullMode := PullModeDown,
                 Limit := 3 } (min 3 10000) ([m1, m2, m3].map messageRespFrom) = true) := by
  have hlimit : syncLimit req = min req.Limit 10000 := by
    unfold syncLimit
    split_ifs with h
    · exact (min_eq_right (le_of_lt h)).symm
    · exact (min_eq_left (not_lt.mp h)).symm
  refine ⟨⟨syncCall pc req, syncMessages_call pc load req, ?_, ?_⟩, ?_⟩
  · rw [← hlimit]
    unfold syncCall
    split_ifs <;> rfl
  · intro messages hload
    rw [← hlimit]
    refine ⟨_, syncMessages_outcome pc load req messages hload, rfl, ?_, ?_⟩
    · simp only [BoolToInt]
      split_ifs
      · exact Or.inr rfl
      · exact Or.inl rfl
    · have hboundary : ((if req.PullMode = PullModeDown then
            (messages.map messageRespFrom).head?
          else (messages.map messageRespFrom).getLast?).map (fun r => r.MessageSeq)) =
          ((if req.PullMode = PullModeDown then messages.head?
            else messages.getLast?).map (fun m => m.MessageSeq)) := by
        split_ifs
        · rw [List.head?_map, Option.map_map]; rfl
        · rw [List.getLast?_map, Option.map_map]; rfl
      have hiff := syncMore_eq_false_iff req (syncLimit req) (messages.map messageRespFrom)
      rw [hboundary, List.length_map] at hiff
      rw [← hiff]
      simp only [BoolToInt]
      cases syncMore req (syncLimit req) (messages.map messageRespFrom) <;> simp
  · intro m1 m2 m3 h1 h2 h3
    simp [syncMore, messageRespFrom, h1, h2, h3, PullModeDown]

/-! ## Person-channel keys -/

/-- Every `AppendMessages` call of `storeChannelMessagesIfNeed` is keyed by a message of the
batch: by the person-channel key of the sender and that message's channel id when the message
is of type Person, by the channel id otherwise. -/
theorem storeChannelMessagesIfNeed_call_key (pc : ProtoConsts) (env : MsgEnv)
    (fromUID : String) (messages : List Message) :
    ∀ c ∈ appendMessagesCalls (storeChannelMessagesIfNeed pc env fromUID messages).events,
      ∃ first ∈ messages,
        c.1 = (if first.ChannelType = pc.ChannelTypePerson then
            GetFakeChannelIDWith fromUID first.ChannelID
          else first.ChannelID) ∧
        c.2.1 = first.ChannelType := by
  obtain ⟨⟨evs, e1, e2⟩, e3⟩ := storeLoop_spec env fromUID messages [] []
  simp only [List.nil_append] at e1 e3
  have hq : appendMessagesCalls evs = [] :=
    (appendMessagesCalls_of_streamItems evs (fun ev hev => by
      obtain ⟨m, _, hm⟩ := e2 ev hev
      exact ⟨_, _, _, _, _, hm⟩)).1
  unfold storeChannelMessagesIfNeed
  by_cases hlen : messages.length = 0
  · simp [hlen, appendMessagesCalls]
  · simp only [hlen, if_false]
    cases herr : (storeLoop env fromUID messages [] []).err with
    | some err =>
      simp only [e1, hq]
      intro c hc
      cases hc
    | none =>
      have hstore := e3 herr
      cases hsm : (storeLoop env fromUID messages [] []).storeMessages with
      | nil =>
        simp only [e1, hq]
        intro c hc
        cases hc
      | cons firstMessage others =>
        have hmem : firstMessage ∈ messages := by
          have h1 : firstMessage ∈ toAppend env messages := by
            rw [← hstore, hsm]; exact List.mem_cons_self _ _
          exact (List.mem_filter.mp h1).1
        have hcalls : ∀ x, appendMessagesCalls (evs ++ [MsgEvent.appendMessages
            (if firstMessage.ChannelType = pc.ChannelTypePerson then
              GetFakeChannelIDWith fromUID firstMessage.ChannelID
            else firstMessage.ChannelID) firstMessage.ChannelType x]) =
            [((if firstMessage.ChannelType = pc.ChannelTypePerson then
              GetFakeChannelIDWith fromUID firstMessage.ChannelID
            else firstMessage.ChannelID), firstMessage.ChannelType, x)] := by
          intro x
          rw [appendMessagesCalls_append, hq]
          rfl
        cases hcall : env.AppendMessages
            (if firstMessage.ChannelType = pc.ChannelTypePerson then
              GetFakeChannelIDWith fromUID firstMessage.ChannelID
            else firstMessage.ChannelID) firstMessage.ChannelType (firstMessage :: others) with
        | error err =>
          simp only [hcall, e1, hcalls]
          intro c hc
          rw [List.mem_singleton] at hc
          subst hc
          exact ⟨firstMessage, hmem, rfl, rfl⟩
        | ok seqs =>
          simp only [hcall, e1, hcalls]
          intro c hc
          rw [List.mem_singleton] at hc
          subst hc
          exact ⟨firstMessage, hmem, rfl, rfl⟩

/-- The packet loop of `prcocessChannelMessages` only adds to the events it starts from. -/
theorem buildMessages_events_extend (env : MsgEnv) (conn : Conn) (channel : Channel) :
    ∀ (sps : List SendPacket) (st : BuildState),
      ∃ evs, (buildMessages env conn channel sps st).events = st.events ++ evs := by
  intro sps
  induction sps with
  | nil => intro st; exact ⟨[], by simp [buildMessages]⟩
  | cons sp rest ih =>
    intro st
    by_cases hsync : sp.framer.SyncOnce = true
    · simp only [buildMessages, hsync, if_true]
      exact ih _
    · simp only [buildMessages, hsync, Bool.false_eq_true, if_false]
      cases hchk : checkAndDecodePayload env sp conn with
      | crashed => exact ⟨[], by simp⟩
      | err e =>
        obtain ⟨evs, hevs⟩ := ih { st with
          handled := st.handled + 1
          events := st.events ++
            [MsgEvent.response conn.id (payloadErrorSendack sp (env.genMessageID st.handled))] }
        exact ⟨MsgEvent.response conn.id (payloadErrorSendack sp (env.genMessageID st.handled)) ::
          evs, by rw [hevs]; simp⟩
      | ok decodePayload => exact ih _

/-- The first thing `prcocessChannelMessages` does is to look the channel up, under the
person-channel key of the sender and the channel id for a channel of type Person, under the
channel id otherwise. -/
theorem prcocessChannelMessages_first_event (pc : ProtoConsts) (env : MsgEnv) (conn : Conn)
    (channelID : String) (channelType : Nat) (sendPackets : List SendPacket) :
    (prcocessChannelMessages pc env conn channelID channelType sendPackets).events.head? =
      some (MsgEvent.getChannel
        (if channelType = pc.ChannelTypePerson then GetFakeChannelIDWith conn.uid channelID
          else channelID) channelType) := by
  simp only [prcocessChannelMessages]
  generalize (if channelType = pc.ChannelTypePerson then
      GetFakeChannelIDWith conn.uid channelID else channelID) = key
  cases env.GetChannel key channelType with
  | error e => rfl
  | ok found =>
    cases found with
    | none => rfl
    | some channel =>
      dsimp only
      obtain ⟨evs, hevs⟩ := buildMessages_events_extend env conn channel sendPackets
        ⟨[], [], [MsgEvent.getChannel key channelType], 0, false⟩
      generalize buildMessages env conn channel sendPackets
        ⟨[], [], [MsgEvent.getChannel key channelType], 0, false⟩ = st at hevs
      simp only at hevs
      cases (hasPermission pc env.Allow channel conn.uid).1 with
      | false => rfl
      | true =>
        simp only [Bool.true_eq_false, if_false]
        by_cases hc : st.crashed = true
        · simp only [hc, if_true, hevs]; rfl
        · simp only [hc, if_false]
          by_cases hl : st.messages.length = 0
          · simp only [hl, if_true, hevs]; rfl
          · simp only [hl, if_false]
            cases (storeChannelMessagesIfNeed pc env conn.uid st.messages).err with
            | some err => simp only [hevs]; rfl
            | none =>
              simp only
              cases (if env.WebhookOn = true then
                  storeChannelMessagesToNotifyQueue env
                    (storeChannelMessagesIfNeed pc env conn.uid st.messages).messages
                else ([], none)).2 with
              | some err => simp only [hevs]; rfl
              | none =>
                simp only
                cases env.Put channel (storeChannelMessagesIfNeed pc env conn.uid st.messages).messages
                    conn.uid conn.deviceFlag conn.deviceID with
                | some err => simp only [hevs]; rfl
                | none => simp only [hevs]; rfl

/-- C19: for any two uids `A` and `B`, `GetFakeChannelIDWith A B = GetFakeChannelIDWith B A`;
hence the key that `syncMessages` reads for `login_uid = B`, `channel_id = A` and channel type
Person equals the key under which `prcocessChannelMessages` looks up the person channel when
`A` sends to channel id `B`, and the key of every `AppendMessages` call that
`storeChannelMessagesIfNeed` makes for a batch of person messages from `A` to channel id `B`;
a stored message of that kind is appended, under that key. -/
theorem fakeChannelID_symmetric_keys (pc : ProtoConsts) (env : MsgEnv)
    (load : LoadCall → Except String (List Message)) (A B : String) (conn : Conn)
    (req : SyncRequest)
    (hconn : conn.uid = A)
    (hreq : req.LoginUID = B ∧ req.ChannelID = A ∧ req.ChannelType = pc.ChannelTypePerson) :
    GetFakeChannelIDWith A B = GetFakeChannelIDWith B A ∧
      (∃ call, (syncMessages pc load (Except.ok req)).call = some call ∧
        call.channelID = GetFakeChannelIDWith A B ∧
        (∀ sendPackets : List SendPacket,
          (prcocessChannelMessages pc env conn B pc.ChannelTypePerson sendPackets).events.head? =
            some (MsgEvent.getChannel call.channelID pc.ChannelTypePerson)) ∧
        (∀ messages : List Message,
          (∀ x ∈ messages, x.ChannelID = B ∧ x.ChannelType = pc.ChannelTypePerson) →
          ∀ c ∈ appendMessagesCalls (storeChannelMessagesIfNeed pc env conn.uid messages).events,
            c.1 = call.channelID) ∧
        (∀ m : Message, m.ChannelID = B → m.ChannelType = pc.ChannelTypePerson →
          m.framer.NoPersist = false → m.framer.SyncOnce = false → env.StreamIng m = false →
          (appendMessagesCalls (storeChannelMessagesIfNeed pc env conn.uid [m]).events).map
            (fun c => c.1) = [call.channelID])) := by
  have hsymm : GetFakeChannelIDWith A B = GetFakeChannelIDWith B A := by
    unfold GetFakeChannelIDWith
    by_cases h1 : A ≤ B <;> by_cases h2 : B ≤ A
    · have : A = B := le_antisymm h1 h2
      subst this; rfl
    · simp [h1, h2]
    · simp [h1, h2]
    · exact absurd (le_total A B) (by simp [h1, h2])
  obtain ⟨hr1, hr2, hr3⟩ := hreq
  refine ⟨hsymm, ?_⟩
  have hcid : (syncCall pc req).channelID = GetFakeChannelIDWith A B := by
    rw [hsymm]
    simp only [syncCall, hr1, hr2, hr3, if_true]
    split_ifs <;> rfl
  refine ⟨syncCall pc req, syncMessages_call pc load req, hcid, ?_, ?_, ?_⟩
  · intro sendPackets
    rw [prcocessChannelMessages_first_event, hcid, hconn, if_pos rfl]
  · intro messages hall c hc
    obtain ⟨first, hfirst, hkey, _⟩ :=
      storeChannelMessagesIfNeed_call_key pc env conn.uid messages c hc
    obtain ⟨hB, hT⟩ := hall first hfirst
    rw [hkey, hcid, hconn, hB, if_pos hT]
  · intro m hmB hmT hs1 hs2 hs3
    rw [hcid, hconn]
    simp only [storeChannelMessagesIfNeed, storeLoop, hs1, hs2, hs3, hmT, hmB,
      List.length_singleton, one_ne_zero, if_false, Bool.false_eq_true, or_self, if_true,
      List.nil_append]
    cases env.AppendMessages (GetFakeChannelIDWith A B) pc.ChannelTypePerson [m] <;> rfl

theorem fakeChannelID_symmetric_keys_witness :
    GetFakeChannelIDWith "alice" "bob" = GetFakeChannelIDWith "bob" "alice" ∧
      (∃ call, (syncMessages sampleConsts (fun _ => Except.ok []) (Except.ok
          { LoginUID := "bob", ChannelID := "alice", ChannelType := 1 })).call = some call ∧
        call.channelID = GetFakeChannelIDWith "alice" "bob" ∧
        (∀ sendPackets : List SendPacket,
          (prcocessChannelMessages sampleConsts sampleMsgEnv sampleAuthedConn "bob"
              sampleConsts.ChannelTypePerson sendPackets).events.head? =
            some (MsgEvent.getChannel call.channelID sampleConsts.ChannelTypePerson)) ∧
        (∀ messages : List Message,
          (∀ x ∈ messages, x.ChannelID = "bob" ∧
            x.ChannelType = sampleConsts.ChannelTypePerson) →
          ∀ c ∈ appendMessagesCalls (storeChannelMessagesIfNeed sampleConsts sampleMsgEnv
              sampleAuthedConn.uid messages).events,
            c.1 = call.channelID) ∧
        (∀ m : Message, m.ChannelID = "bob" → m.ChannelType = sampleConsts.ChannelTypePerson →
          m.framer.NoPersist = false → m.framer.SyncOnce = false →
          sampleMsgEnv.StreamIng m = false →
          (appendMessagesCalls (storeChannelMessagesIfNeed sampleConsts sampleMsgEnv
              sampleAuthedConn.uid [m]).events).map
            (fun c => c.1) = [call.channelID])) :=
  fakeChannelID_symmetric_keys sampleConsts sampleMsgEnv (fun _ => Except.ok []) "alice" "bob"
    sampleAuthedConn { LoginUID := "bob", ChannelID := "alice", ChannelType := 1 }
    (by decide) (by decide)

/-! ## SUB to a channel that is not a data channel -/

/-- C16, counterexample: two SUB packets to channel type 2, which is not the data channel type,
one with an empty channel id and one whose channel id does not parse as a URL. `processSub`
returns without sending anything: no Suback is sent. -/
theorem processSub_blank_channel_gets_no_suback :
    sampleBlankSub.ChannelType ≠ sampleConsts.ChannelTypeData ∧
      sampleUnparsableSub.ChannelType ≠ sampleConsts.ChannelTypeData ∧
      (processSub sampleConsts sampleSubEnv sampleAuthedConn sampleBlankSub).events = [] ∧
      (processSub sampleConsts sampleSubEnv sampleAuthedConn sampleUnparsableSub).events =
        [] := by
  decide

/-- C16, amended: for every SUB packet whose channel id parses as a URL with a non-blank path
and whose channelType is not the data channel type, `processSub` does exactly one thing: it
sends one Suback of reason NotSupportChannelType that carries the packet's subNo, channelType
and action and the path as channel id. It looks up no channel, writes to no channel object and
makes no call that changes the subscription set of the connection. A packet whose channel id
does not parse, or parses to a blank path, gets no Suback at all. -/
theorem processSub_not_data_channel (pc : ProtoConsts) (env : SubEnv) (conn : Conn)
    (subPacket : SubPacket) (channelIDUrl : ParsedURL)
    (hurl : env.urlParse subPacket.ChannelID = Except.ok channelIDUrl)
    (hpath : TrimSpace channelIDUrl.Path ≠ "")
    (htype : subPacket.ChannelType ≠ pc.ChannelTypeData) :
    processSub pc env conn subPacket =
        { events := [SubEvent.response conn.id
            { SubNo := subPacket.SubNo
              ChannelID := channelIDUrl.Path
              ChannelType := subPacket.ChannelType
              Action := subPacket.Action
              ReasonCode := ReasonCode.ReasonNotSupportChannelType }]
          channel := none
          crashed := false } ∧
      subacksSent (processSub pc env conn subPacket).events =
        [getSuback subPacket channelIDUrl.Path ReasonCode.ReasonNotSupportChannelType] ∧
      (∀ ev ∈ (processSub pc env conn subPacket).events, ev.changesSubscriptions = false) ∧
      (∀ (other : SubPacket),
        ((∃ e, env.urlParse other.ChannelID = Except.error e) ∨
          (∃ u, env.urlParse other.ChannelID = Except.ok u ∧ TrimSpace u.Path = "")) →
        processSub pc env conn other = { events := [], channel := none, crashed := false }) := by
  have hmain : processSub pc env conn subPacket =
      { events := [SubEvent.response conn.id
          (getSuback subPacket channelIDUrl.Path ReasonCode.ReasonNotSupportChannelType)]
        channel := none
        crashed := false } := by
    simp only [processSub, hurl, hpath, if_false, htype, ne_eq, not_false_eq_true, if_true]
  refine ⟨hmain, ?_, ?_, ?_⟩
  · rw [hmain]; rfl
  · rw [hmain]
    intro ev hev
    rw [List.mem_singleton] at hev
    subst hev
    rfl
  · intro other hother
    rcases hother with ⟨e, he⟩ | ⟨u, hu, hblank⟩
    · simp only [processSub, he]
    · simp only [processSub, hu, hblank, if_true]

theorem processSub_not_data_channel_witness :
    processSub sampleConsts sampleSubEnv sampleAuthedConn sampleSub =
        { events := [SubEvent.response sampleAuthedConn.id
            { SubNo := sampleSub.SubNo
              ChannelID := "grp"
              ChannelType := sampleSub.ChannelType
              Action := sampleSub.Action
              ReasonCode := ReasonCode.ReasonNotSupportChannelType }]
          channel := none
          crashed := false } ∧
      subacksSent (processSub sampleConsts sampleSubEnv sampleAuthedConn sampleSub).events =
        [getSuback sampleSub "grp" ReasonCode.ReasonNotSupportChannelType] ∧
      (∀ ev ∈ (processSub sampleConsts sampleSubEnv sampleAuthedConn sampleSub).events,
        ev.changesSubscriptions = false) ∧
      (∀ (other : SubPacket),
        ((∃ e, sampleSubEnv.urlParse other.ChannelID = Except.error e) ∨
          (∃ u, sampleSubEnv.urlParse other.ChannelID = Except.ok u ∧ TrimSpace u.Path = "")) →
        processSub sampleConsts sampleSubEnv sampleAuthedConn other =
          { events := [], channel := none, crashed := false }) :=
  processSub_not_data_channel sampleConsts sampleSubEnv sampleAuthedConn sampleSub
    { Path := "grp", Query := [] } rfl (by decide) (by decide)

/-! ## Resetting the allowlist -/

/-- C20: when `whitelistSet` is called with a bound request whose channel id is not blank and
whose uid list is empty, the first thing it does is to call `RemoveAllAllowlist` for the channel,
and it never calls `AddAllowlist`. When the store call succeeds and the channel manager returns
the channel, the calls are exactly `RemoveAllAllowlist`, `GetChannel` and the OK answer, and the
cached channel is left with the empty allowlist and otherwise unchanged; on that channel
`Channel.Allow` never answers NotAllowSend, it decides by the denylist only, and a subscriber
that is not on the denylist is permitted to send. -/
theorem whitelistSet_empty_clears_allowlist (pc : ProtoConsts) (env : AllowlistEnv)
    (req : whitelistReq) (channel : Channel)
    (hid : TrimSpace req.ChannelID ≠ "")
    (huids : req.UIDs = [])
    (hremove : env.RemoveAllAllowlist req.ChannelID req.ChannelType = none)
    (hchannel : env.GetChannel req.ChannelID req.ChannelType = Except.ok (some channel)) :
    whitelistSet env (Except.ok req) =
        { events := [ApiEvent.removeAllAllowlist req.ChannelID req.ChannelType,
            ApiEvent.getChannel req.ChannelID req.ChannelType, ApiEvent.responseOK]
          channel := some { channel with allowlist := [] }
          crashed := false } ∧
      (∀ other : AllowlistEnv,
        (whitelistSet other (Except.ok req)).events.head? =
            some (ApiEvent.removeAllAllowlist req.ChannelID req.ChannelType) ∧
          (whitelistSet other (Except.ok req)).events.filter ApiEvent.isAddAllowlist = []) ∧
      (∀ uid, (Channel.Allow { channel with allowlist := [] } uid).2 ≠
          ReasonCode.ReasonNotAllowSend ∧
        Channel.Allow { channel with allowlist := [] } uid =
          (if uid ∈ channel.denylist then (false, ReasonCode.ReasonInBlacklist)
            else (true, ReasonCode.ReasonSuccess))) ∧
      (∀ uid, uid ∈ channel.subscribers → uid ∉ channel.denylist →
        hasPermission pc Channel.Allow { channel with allowlist := [] } uid =
          (true, ReasonCode.ReasonSuccess)) := by
  have hlen : ¬ (([] : List String).length > 0) := by simp
  refine ⟨?_, ?_, ?_, ?_⟩
  · simp only [whitelistSet, hid, if_false, hremove, huids, hlen, hchannel,
      Channel.SetAllowlist, List.append_nil, List.cons_append, List.nil_append]
  · intro other
    simp only [whitelistSet, hid, if_false, huids, hlen]
    cases other.RemoveAllAllowlist req.ChannelID req.ChannelType with
    | some err => exact ⟨rfl, rfl⟩
    | none =>
      simp only [List.append_nil]
      cases other.GetChannel req.ChannelID req.ChannelType with
      | error err => exact ⟨rfl, rfl⟩
      | ok found =>
        cases found with
        | none => exact ⟨rfl, rfl⟩
        | some channelObj => exact ⟨rfl, rfl⟩
  · intro uid
    by_cases hd : uid ∈ channel.denylist <;> simp [Channel.Allow, hd]
  · intro uid hsub hden
    have hallow : Channel.Allow { channel with allowlist := [] } uid =
        (true, ReasonCode.ReasonSuccess) := by
      simp [Channel.Allow, hden]
    unfold hasPermission
    simp only [hallow, Channel.IsSubscriber, hsub, decide_True]
    split_ifs <;> simp_all

theorem whitelistSet_empty_clears_allowlist_witness :
    whitelistSet sampleAllowlistEnv (Except.ok sampleWhitelistReset) =
        { events := [ApiEvent.removeAllAllowlist sampleWhitelistReset.ChannelID
              sampleWhitelistReset.ChannelType,
            ApiEvent.getChannel sampleWhitelistReset.ChannelID sampleWhitelistReset.ChannelType,
            ApiEvent.responseOK]
          channel := some { sampleChannel with allowlist := [] }
          crashed := false } ∧
      (∀ other : AllowlistEnv,
        (whitelistSet other (Except.ok sampleWhitelistReset)).events.head? =
            some (ApiEvent.removeAllAllowlist sampleWhitelistReset.ChannelID
              sampleWhitelistReset.ChannelType) ∧
          (whitelistSet other (Except.ok sampleWhitelistReset)).events.filter
            ApiEvent.isAddAllowlist = []) ∧
      (∀ uid, (Channel.Allow { sampleChannel with allowlist := [] } uid).2 ≠
          ReasonCode.ReasonNotAllowSend ∧
        Channel.Allow { sampleChannel with allowlist := [] } uid =
          (if uid ∈ sampleChannel.denylist then (false, ReasonCode.ReasonInBlacklist)
            else (true, ReasonCode.ReasonSuccess))) ∧
      (∀ uid, uid ∈ sampleChannel.subscribers → uid ∉ sampleChannel.denylist →
        hasPermission sampleConsts Channel.Allow { sampleChannel with allowlist := [] } uid =
          (true, ReasonCode.ReasonSuccess)) :=
  whitelistSet_empty_clears_allowlist sampleConsts sampleAllowlistEnv sampleWhitelistReset
    sampleChannel (by decide) rfl rfl rfl

/-! ## The channel id of stream items -/

/-- C29, failing input: `alice` sends a streaming message and a plain message to the group
channel `grp` of type 2, which is not the person type. `storeChannelMessagesIfNeed` appends the
stream item under `GetFakeChannelIDWith "alice" "grp"` and the plain message under `grp`: two
different channel ids for one channel. In general the stream item of a message is appended
under `GetFakeChannelIDWith fromUID channelID` whatever the channel type is, while
`AppendMessages` uses that key for the person type only. -/
theorem storeChannelMessagesIfNeed_stream_key_differs :
    sampleStreamMessage.ChannelType ≠ sampleConsts.ChannelTypePerson ∧
      sampleMsgEnv.StreamIng sampleStreamMessage = true ∧
      (storeChannelMessagesIfNeed sampleConsts sampleMsgEnv "alice"
          [sampleStreamMessage, samplePlainMessage]).events =
        [MsgEvent.appendStreamItem (GetFakeChannelIDWith "alice" "grp") 2 "s1" "m1" [104, 105],
         MsgEvent.appendMessages "grp" 2 [samplePlainMessage]] ∧
      GetFakeChannelIDWith "alice" "grp" ≠ "grp" ∧
      (∀ (pc : ProtoConsts) (env : MsgEnv) (fromUID : String) (messages : List Message)
          (a : String) (b : Nat) (c d : String) (e : List Nat),
        MsgEvent.appendStreamItem a b c d e ∈
            (storeChannelMessagesIfNeed pc env fromUID messages).events →
          ∃ m ∈ messages, a = GetFakeChannelIDWith fromUID m.ChannelID ∧
            b = m.ChannelType) ∧
      (∀ (pc : ProtoConsts) (env : MsgEnv) (fromUID : String) (messages : List Message),
        ∀ call ∈ appendMessagesCalls (storeChannelMessagesIfNeed pc env fromUID messages).events,
          ∃ first ∈ messages,
            call.1 = (if first.ChannelType = pc.ChannelTypePerson then
                GetFakeChannelIDWith fromUID first.ChannelID
              else first.ChannelID)) := by
  refine ⟨by decide, by decide, by rfl, ?_, ?_, ?_⟩
  · intro h
    have hlen := congrArg String.length h
    unfold GetFakeChannelIDWith fakeChannelDelimiter at hlen
    split_ifs at hlen <;> simp [String.length_append] at hlen <;> revert hlen <;> decide
  · intro pc env fromUID messages a b c d e hmem
    obtain ⟨evs, calls, hev, hstream, hcalls, _⟩ :=
      storeChannelMessagesIfNeed_events pc env fromUID messages
    rw [hev] at hmem
    rcases List.mem_append.mp hmem with h | h
    · obtain ⟨m, hm, heq⟩ := hstream _ h
      injection heq with h1 h2
      exact ⟨m, hm, h1, h2⟩
    · rcases hcalls with hnil | ⟨cid, ct, hc, _⟩
      · rw [hnil] at h; cases h
      · rw [hc, List.mem_singleton] at h
        cases h
  · intro pc env fromUID messages call hcall
    obtain ⟨first, hfirst, hkey, _⟩ :=
      storeChannelMessagesIfNeed_call_key pc env fromUID messages call hcall
    exact ⟨first, hfirst, hkey⟩

/-! ## The flag `more` on an empty result -/

/-- C30, failing input: a request with limit 0 (or a negative limit) for which the store
returns no messages. `syncMessages` answers with `more = 1` and an empty message list, since
`len(messageResps) < limit` is false. With a positive limit and no messages `more` is 0. -/
theorem syncMessages_empty_result_reports_more :
    (syncMessages sampleConsts (fun _ => Except.ok []) (Except.ok { Limit := 0 })).outcome =
        SyncOutcome.json
          { StartMessageSeq := 0, EndMessageSeq := 0, More := 1, Messages := [] } ∧
      (syncMessages sampleConsts (fun _ => Except.ok [])
          (Except.ok { StartMessageSeq := 10, EndMessageSeq := 5, Limit := -3,
                       PullMode := PullModeUp })).outcome =
        SyncOutcome.json
          { StartMessageSeq := 10, EndMessageSeq := 5, More := 1, Messages := [] } ∧
      (∀ (pc : ProtoConsts) (load : LoadCall → Except String (List Message))
          (req : SyncRequest),
        load (syncCall pc req) = Except.ok [] →
          ∃ body, (syncMessages pc load (Except.ok req)).outcome = SyncOutcome.json body ∧
            body.Messages = [] ∧ (body.More = 0 ↔ 0 < req.Limit)) := by
  refine ⟨by decide, by decide, ?_⟩
  intro pc load req hload
  refine ⟨_, syncMessages_outcome pc load req [] hload, rfl, ?_⟩
  have hlim : (0 : Int) < syncLimit req ↔ 0 < req.Limit := by
    unfold syncLimit
    split_ifs with h
    · constructor
      · intro _; omega
      · intro _; norm_num
    · exact Iff.rfl
  rw [← hlim]
  by_cases h0 : (0 : Int) < syncLimit req
  · simp [BoolToInt, syncMore, h0]
  · simp [BoolToInt, syncMore, h0]

/-! ## Rejected CONNECTs leave the state as it was -/

theorem onlinesEmitted_append (a b : List Event) :
    onlinesEmitted (a ++ b) = onlinesEmitted a ++ onlinesEmitted b := by
  induction a with
  | nil => rfl
  | cons ev rest ih => cases ev <;> simp [onlinesEmitted, ih]

theorem tokenVerify_emits_no_online (pc : ProtoConsts) (env : AuthEnv) (pkt : ConnectPacket) :
    onlinesEmitted (tokenVerify pc env pkt).events = [] := by
  unfold tokenVerify
  split_ifs
  all_goals
    first
    | rfl
    | (cases hget : env.GetUserToken pkt.UID pkt.DeviceFlag with
        | error e => rfl
        | ok v =>
          obtain ⟨token, level⟩ := v
          simp only
          split_ifs <;> rfl)

/-- A rejected run of `processAuth` emits no online webhook, and it is rejected exactly for
one of the causes: a blank clientKey, a failed token verification, a failed channel-info
lookup, a ban, or a clientKey that does not decode. -/
theorem processAuth_rejected_causes (pc : ProtoConsts) (env : AuthEnv) (index : List Conn)
    (conn : Conn) (pkt : ConnectPacket) :
    (((processAuth pc env index conn pkt).returned = AuthReturn.authFail ∨
        (processAuth pc env index conn pkt).returned = AuthReturn.ban) →
      onlinesEmitted (processAuth pc env index conn pkt).events = []) ∧
    (((processAuth pc env index conn pkt).returned = AuthReturn.authFail ∨
        (processAuth pc env index conn pkt).returned = AuthReturn.ban) ↔
      (TrimSpace pkt.ClientKey = "" ∨ (tokenVerify pc env pkt).level = none ∨
        (∃ e, env.GetChannel pkt.UID pc.ChannelTypePerson = Except.error e) ∨
        (∃ info, env.GetChannel pkt.UID pc.ChannelTypePerson = Except.ok (some info) ∧
          info.Ban = true) ∨
        env.getClientAesKeyAndIV pkt.ClientKey env.dhServerPrivKey = AesOutcome.error)) := by
  have t := tokenVerify_emits_no_online pc env pkt
  unfold processAuth
  by_cases hk : TrimSpace pkt.ClientKey = ""
  · exact ⟨fun _ => by simp [hk, onlinesEmitted_append, t, onlinesEmitted,
        responseConnack, responseConnackAuthFail, response], by simp [hk]⟩
  · cases hl : (tokenVerify pc env pkt).level with
    | none =>
      exact ⟨fun _ => by simp [hk, hl, onlinesEmitted_append, t, onlinesEmitted,
        responseConnack, responseConnackAuthFail, response], by simp [hk, hl]⟩
    | some v =>
      obtain ⟨devceLevel, devceLevelI⟩ := v
      cases hc : env.GetChannel pkt.UID pc.ChannelTypePerson with
      | error e =>
        exact ⟨fun _ => by simp [hk, hl, hc, onlinesEmitted_append, t, onlinesEmitted,
        responseConnack, responseConnackAuthFail, response], by simp [hk, hl, hc]⟩
      | ok info =>
        cases info with
        | none =>
          cases ha : env.getClientAesKeyAndIV pkt.ClientKey env.dhServerPrivKey with
          | sliceOutOfRange => simp [hk, hl, hc, ha]
          | error =>
            exact ⟨fun _ => by simp [hk, hl, hc, ha, onlinesEmitted_append, t, onlinesEmitted,
        responseConnack, responseConnackAuthFail, response], by simp [hk, hl, hc, ha]⟩
          | ok aesKey aesIV => simp [hk, hl, hc, ha]
        | some i =>
          cases hb : i.Ban with
          | true =>
            exact ⟨fun _ => by simp [hk, hl, hc, hb, onlinesEmitted_append, t, onlinesEmitted,
        responseConnack, responseConnackAuthFail, response], by simp [hk, hl, hc, hb]⟩
          | false =>
            cases ha : env.getClientAesKeyAndIV pkt.ClientKey env.dhServerPrivKey with
            | sliceOutOfRange => simp [hk, hl, hc, ha, hb]
            | error =>
              exact ⟨fun _ => by simp [hk, hl, hc, ha, hb, onlinesEmitted_append, t, onlinesEmitted,
        responseConnack, responseConnackAuthFail, response], by simp [hk, hl, hc, ha, hb]⟩
            | ok aesKey aesIV => simp [hk, hl, hc, ha, hb]

/-- C26: every CONNECT that `processAuth` answers with a non-success Connack leaves the state
unchanged: the connection index is the one before, so no existing connection is removed and the
new one is not added; no Disconnect is sent and no close is scheduled; the connection is as
before, so it is not marked authed and gets no aesKey or aesIV; no online webhook is emitted;
the only frame sent is the Connack, to the connecting connection. The rejecting causes are
those listed: blank clientKey, failed token verification (manager token, empty token, token
lookup error, token mismatch), channel-info lookup error, ban, undecodable clientKey. -/
theorem processAuth_rejected_leaves_state (pc : ProtoConsts) (env : AuthEnv)
    (index : List Conn) (conn : Conn) (pkt : ConnectPacket)
    (hrej : (processAuth pc env index conn pkt).returned = AuthReturn.authFail ∨
      (processAuth pc env index conn pkt).returned = AuthReturn.ban) :
    (processAuth pc env index conn pkt).index = index ∧
      (processAuth pc env index conn pkt).conn = conn ∧
      (processAuth pc env index conn pkt).conn.authed = conn.authed ∧
      (processAuth pc env index conn pkt).conn.aesKey = conn.aesKey ∧
      (processAuth pc env index conn pkt).conn.aesIV = conn.aesIV ∧
      disconnectsSent (processAuth pc env index conn pkt).events = [] ∧
      closesScheduled (processAuth pc env index conn pkt).events = [] ∧
      onlinesEmitted (processAuth pc env index conn pkt).events = [] ∧
      (∀ connID, connID ≠ conn.id →
        framesSentTo connID (processAuth pc env index conn pkt).events = []) ∧
      (∃ code, code ≠ ReasonCode.ReasonSuccess ∧
        framesSentTo conn.id (processAuth pc env index conn pkt).events =
          [OutFrame.connack { ReasonCode := code }]) ∧
      (TrimSpace pkt.ClientKey = "" ∨ (tokenVerify pc env pkt).level = none ∨
        (∃ e, env.GetChannel pkt.UID pc.ChannelTypePerson = Except.error e) ∨
        (∃ info, env.GetChannel pkt.UID pc.ChannelTypePerson = Except.ok (some info) ∧
          info.Ban = true) ∨
        env.getClientAesKeyAndIV pkt.ClientKey env.dhServerPrivKey = AesOutcome.error) := by
  obtain ⟨pre, code, hev, h1, _, h3, h4, hcode, hconn, hindex⟩ :=
    processAuth_rejected_shape pc env index conn pkt hrej
  obtain ⟨honline, hcauses⟩ := processAuth_rejected_causes pc env index conn pkt
  have hne : code ≠ ReasonCode.ReasonSuccess := by
    rcases hcode with ⟨h, _⟩ | ⟨h, _⟩ <;> rw [h] <;> decide
  refine ⟨hindex, hconn, by rw [hconn], by rw [hconn], by rw [hconn], ?_, ?_, honline hrej,
    ?_, ⟨code, hne, ?_⟩, hcauses.mp hrej⟩
  · rw [hev, disconnectsSent_append, h3]; rfl
  · rw [hev, closesScheduled_append, h1]; rfl
  · intro connID hne2
    rw [hev, framesSentTo_append, h4]
    simp only [responseConnack, response, framesSentTo, List.nil_append]
    rw [if_neg (fun h => hne2 h.symm)]
  · rw [hev, framesSentTo_append, h4]
    simp [responseConnack, response, framesSentTo]

theorem processAuth_rejected_leaves_state_witness :
    (processAuth sampleConsts sampleEnv sampleIndex { id := 9 }
          { sampleConnect with Token := "wrong" }).index = sampleIndex ∧
      (processAuth sampleConsts sampleEnv sampleIndex { id := 9 }
          { sampleConnect with Token := "wrong" }).conn = { id := 9 } ∧
      (processAuth sampleConsts sampleEnv sampleIndex { id := 9 }
          { sampleConnect with Token := "wrong" }).conn.authed = ({ id := 9 } : Conn).authed ∧
      (processAuth sampleConsts sampleEnv sampleIndex { id := 9 }
          { sampleConnect with Token := "wrong" }).conn.aesKey = ({ id := 9 } : Conn).aesKey ∧
      (processAuth sampleConsts sampleEnv sampleIndex { id := 9 }
          { sampleConnect with Token := "wrong" }).conn.aesIV = ({ id := 9 } : Conn).aesIV ∧
      disconnectsSent (processAuth sampleConsts sampleEnv sampleIndex { id := 9 }
          { sampleConnect with Token := "wrong" }).events = [] ∧
      closesScheduled (processAuth sampleConsts sampleEnv sampleIndex { id := 9 }
          { sampleConnect with Token := "wrong" }).events = [] ∧
      onlinesEmitted (processAuth sampleConsts sampleEnv sampleIndex { id := 9 }
          { sampleConnect with Token := "wrong" }).events = [] ∧
      (∀ connID, connID ≠ ({ id := 9 } : Conn).id →
        framesSentTo connID (processAuth sampleConsts sampleEnv sampleIndex { id := 9 }
          { sampleConnect with Token := "wrong" }).events = []) ∧
      (∃ code, code ≠ ReasonCode.ReasonSuccess ∧
        framesSentTo ({ id := 9 } : Conn).id
            (processAuth sampleConsts sampleEnv sampleIndex { id := 9 }
              { sampleConnect with Token := "wrong" }).events =
          [OutFrame.connack { ReasonCode := code }]) ∧
      (TrimSpace ({ sampleConnect with Token := "wrong" } : ConnectPacket).ClientKey = "" ∨
        (tokenVerify sampleConsts sampleEnv { sampleConnect with Token := "wrong" }).level =
          none ∨
        (∃ e, sampleEnv.GetChannel ({ sampleConnect with Token := "wrong" } : ConnectPacket).UID
          sampleConsts.ChannelTypePerson = Except.error e) ∨
        (∃ info, sampleEnv.GetChannel
            ({ sampleConnect with Token := "wrong" } : ConnectPacket).UID
            sampleConsts.ChannelTypePerson = Except.ok (some info) ∧ info.Ban = true) ∨
        sampleEnv.getClientAesKeyAndIV
            ({ sampleConnect with Token := "wrong" } : ConnectPacket).ClientKey
            sampleEnv.dhServerPrivKey = AesOutcome.error) :=
  processAuth_rejected_leaves_state sampleConsts sampleEnv sampleIndex { id := 9 }
    { sampleConnect with Token := "wrong" } (Or.inl (by decide))

/-! ## Short client keys -/

/-- C25, failing input: the clientKey `AAAA` is valid base64 of three bytes. `DecodeString`
returns a slice of capacity 3, and `getClientAesKeyAndIV` fails on `clientKeyBytes[:32]`
instead of returning an error. The same happens for every clientKey that decodes and has fewer
than 44 bytes of text; a clientKey of 44 characters that decodes to 31 bytes yields a key, not
an error. Whenever a key and IV are returned, the key has 16 characters and the IV is
`GetRandomString(16)`. -/
theorem getClientAesKeyAndIV_short_key_fails :
    sampleKeyEnv.DecodeString "AAAA" = Except.ok [0, 0, 0] ∧
      getClientAesKeyAndIV sampleKeyEnv "AAAA" [] = AesOutcome.sliceOutOfRange ∧
      (∀ (env : KeyEnv) (clientKey : String) (priv bytes : List Nat),
        env.DecodeString clientKey = Except.ok bytes → clientKey.utf8ByteSize < 44 →
          getClientAesKeyAndIV env clientKey priv = AesOutcome.sliceOutOfRange) ∧
      (sampleKeyEnv.DecodeString "AAAAAAAAAAAAAAAAAAAAAAAAAAAAAAAAAAAAAAAAAQ==" =
          Except.ok (List.replicate 30 0 ++ [1]) ∧
        getClientAesKeyAndIV sampleKeyEnv "AAAAAAAAAAAAAAAAAAAAAAAAAAAAAAAAAAAAAAAAAQ==" [] =
          AesOutcome.ok "0123456789abcdef" "rrrrrrrrrrrrrrrr") ∧
      (∀ (env : KeyEnv) (clientKey : String) (priv : List Nat) (aesKey aesIV : String),
        getClientAesKeyAndIV env clientKey priv = AesOutcome.ok aesKey aesIV →
          aesKey.length = 16 ∧ aesIV = env.GetRandomString 16) := by
  refine ⟨by rfl, by decide, ?_, ⟨by rfl, by decide⟩, ?_⟩
  · intro env clientKey priv bytes hdec hlen
    have hcap : 32 > DecodedLen clientKey.utf8ByteSize := by
      unfold DecodedLen
      omega
    simp only [getClientAesKeyAndIV, hdec, hcap, if_true]
  · intro env clientKey priv aesKey aesIV hok
    unfold getClientAesKeyAndIV at hok
    cases hdec : env.DecodeString clientKey with
    | error e => simp [hdec] at hok
    | ok bytes =>
      simp only [hdec] at hok
      split_ifs at hok with h1 h2
      injection hok with hk hiv
      refine ⟨?_, hiv.symm⟩
      rw [← hk]
      have h16 : 16 ≤ (env.MD5 (env.EncodeToString (env.GetCurve25519Key priv
          (List.take 32 (bytes ++ List.replicate 32 0))))).data.length := not_lt.mp h2
      show (List.take 16 _).length = 16
      rw [List.length_take]
      exact Nat.min_eq_left h16

/-! ## Overwriting the denylist -/

/-- C21, failing input: with the fake-channel bypass on, the denylist of the person channel
`alice@bob` is set to `bob` and `carol`. `blacklistSet` removes all entries again in the second
iteration of its loop, so that store and cache end with `carol` only and `bob` is not denied.
With an empty uid list on the same channel the loop does not run: nothing is removed and the
prior entry `dave` stays. For a channel type other than Person, when store and channel manager
succeed, store and cache hold exactly the requested uids afterwards. -/
theorem blacklistSet_person_keeps_last_uid_only :
    (blacklistSet sampleConsts sampleBypassEnv (Except.ok sampleBlacklistTwo)).events =
        [DenyEvent.removeAllDenylist "alice@bob" 1,
         DenyEvent.addDenylist "alice@bob" 1 ["bob"],
         DenyEvent.getChannel "alice@bob" 1,
         DenyEvent.setDenylist "alice@bob" 1 ["bob"],
         DenyEvent.removeAllDenylist "alice@bob" 1,
         DenyEvent.addDenylist "alice@bob" 1 ["carol"],
         DenyEvent.getChannel "alice@bob" 1,
         DenyEvent.setDenylist "alice@bob" 1 ["carol"],
         DenyEvent.responseOK] ∧
      storeDenylistAfter "alice@bob" 1
        (blacklistSet sampleConsts sampleBypassEnv (Except.ok sampleBlacklistTwo)).events
        ["dave"] = ["carol"] ∧
      cacheDenylistAfter "alice@bob" 1
        (blacklistSet sampleConsts sampleBypassEnv (Except.ok sampleBlacklistTwo)).events
        ["dave"] = ["carol"] ∧
      (blacklistSet sampleConsts sampleBypassEnv (Except.ok sampleBlacklistNone)).events =
        [DenyEvent.responseOK] ∧
      storeDenylistAfter "alice@bob" 1
        (blacklistSet sampleConsts sampleBypassEnv (Except.ok sampleBlacklistNone)).events
        ["dave"] = ["dave"] ∧
      (∀ (pc : ProtoConsts) (env : DenylistEnv) (req : blacklistReq) (channel : Channel)
          (held : List String),
        TrimSpace req.ChannelID ≠ "" → req.ChannelType ≠ pc.ChannelTypePerson →
        env.RemoveAllDenylist req.ChannelID req.ChannelType = none →
        env.AddDenylist req.ChannelID req.ChannelType req.UIDs = none →
        env.GetChannel req.ChannelID req.ChannelType = Except.ok (some channel) →
          (blacklistSet pc env (Except.ok req)).events.getLast? = some DenyEvent.responseOK ∧
          storeDenylistAfter req.ChannelID req.ChannelType
            (blacklistSet pc env (Except.ok req)).events held = req.UIDs ∧
          cacheDenylistAfter req.ChannelID req.ChannelType
            (blacklistSet pc env (Except.ok req)).events held = req.UIDs) := by
  refine ⟨by decide, by decide, by decide, by decide, by decide, ?_⟩
  intro pc env req channel held hid htype hremove hadd hchannel
  cases huids : req.UIDs with
  | nil =>
    have hlen : ¬ (([] : List String).length > 0) := by simp
    simp [blacklistSet, hid, htype, setDenylistOf, hremove, huids, hchannel,
      storeDenylistAfter, cacheDenylistAfter]
  | cons u us =>
    rw [huids] at hadd
    simp [blacklistSet, hid, htype, setDenylistOf, hremove, huids, hadd, hchannel,
      storeDenylistAfter, cacheDenylistAfter]

/-! ## Partition of a batch by channel -/

theorem digitChar_decimalValue (k : Nat) (hk : k < 10) :
    (Nat.digitChar k).toNat - 48 = k ∧ Nat.digitChar k ≠ '-' := by
  interval_cases k <;> decide

theorem decimalValue_append_singleton (ds : List Char) (c : Char) :
    decimalValue (ds ++ [c]) = 10 * decimalValue ds + (c.toNat - 48) := by
  simp [decimalValue, List.foldl_append]

theorem toDigitsCore_decimal : ∀ (fuel n : Nat) (acc : List Char), n < fuel →
    ∃ ds, Nat.toDigitsCore 10 fuel n acc = ds ++ acc ∧ (∀ c ∈ ds, c ≠ '-') ∧
      decimalValue ds = n := by
  intro fuel
  induction fuel with
  | zero => intro n acc h; exact absurd h (Nat.not_lt_zero n)
  | succ fuel ih =>
    intro n acc hn
    obtain ⟨hval, hne⟩ := digitChar_decimalValue (n % 10) (Nat.mod_lt n (by norm_num))
    by_cases hq : n / 10 = 0
    · refine ⟨[Nat.digitChar (n % 10)], by simp [Nat.toDigitsCore, hq], ?_, ?_⟩
      · intro c hc
        rw [List.mem_singleton] at hc
        rw [hc]; exact hne
      · have hlt : n < 10 := by
          by_contra hge
          exact absurd hq (Nat.pos_iff_ne_zero.mp (Nat.div_pos (not_lt.mp hge) (by norm_num)))
        simp only [decimalValue, List.foldl_cons, List.foldl_nil, Nat.mul_zero, Nat.zero_add]
        rw [hval]
        exact Nat.mod_eq_of_lt hlt
    · have hlt : n / 10 < fuel := by omega
      obtain ⟨ds, hds, hno, hv⟩ := ih (n / 10) (Nat.digitChar (n % 10) :: acc) hlt
      refine ⟨ds ++ [Nat.digitChar (n % 10)], ?_, ?_, ?_⟩
      · simp [Nat.toDigitsCore, hq, hds]
      · intro c hc
        rcases List.mem_append.mp hc with h | h
        · exact hno c h
        · rw [List.mem_singleton] at h
          rw [h]; exact hne
      · rw [decimalValue_append_singleton, hv, hval]
        omega

theorem toString_decimal (n : Nat) :
    (∀ c ∈ (toString n).data, c ≠ '-') ∧ decimalValue (toString n).data = n := by
  obtain ⟨ds, hds, hno, hv⟩ := toDigitsCore_decimal (n + 1) n [] (Nat.lt_succ_self n)
  have hdata : (toString n).data = ds := by
    show (Nat.repr n).data = ds
    simp only [Nat.repr, Nat.toDigits, List.asString, hds, List.append_nil]
  rw [hdata]
  exact ⟨hno, hv⟩

theorem append_cons_inj_left {α : Type} (a : α) :
    ∀ (x₁ x₂ z₁ z₂ : List α), a ∉ x₁ → a ∉ x₂ → x₁ ++ a :: z₁ = x₂ ++ a :: z₂ →
      x₁ = x₂ ∧ z₁ = z₂ := by
  intro x₁
  induction x₁ with
  | nil =>
    intro x₂ z₁ z₂ _ h2 heq
    cases x₂ with
    | nil => exact ⟨rfl, by simpa using heq⟩
    | cons b x₂ =>
      simp only [List.nil_append, List.cons_append, List.cons.injEq] at heq
      exact absurd (heq.1 ▸ List.mem_cons_self _ _) h2
  | cons b x₁ ih =>
    intro x₂ z₁ z₂ h1 h2 heq
    cases x₂ with
    | nil =>
      simp only [List.nil_append, List.cons_append, List.cons.injEq] at heq
      exact absurd (heq.1 ▸ List.mem_cons_self _ _) h1
    | cons c x₂ =>
      simp only [List.cons_append, List.cons.injEq] at heq
      obtain ⟨hx, hz⟩ := ih x₂ z₁ z₂ (fun h => h1 (List.mem_cons_of_mem _ h))
        (fun h => h2 (List.mem_cons_of_mem _ h)) heq.2
      exact ⟨by rw [heq.1, hx], hz⟩

/-- The key of `processMsgs` determines channel id and channel type: the decimal numeral holds
no `-`, so the key splits at its last `-`. -/
theorem channelKey_injective (p q : SendPacket) :
    channelKey p = channelKey q ↔
      p.ChannelID = q.ChannelID ∧ p.ChannelType = q.ChannelType := by
  constructor
  · intro h
    have hdata : p.ChannelID.data ++ '-' :: (toString p.ChannelType).data =
        q.ChannelID.data ++ '-' :: (toString q.ChannelType).data := by
      have := congrArg String.data h
      simpa [channelKey, String.data_append] using this
    have hrev := congrArg List.reverse hdata
    simp only [List.reverse_append, List.reverse_cons, List.append_assoc,
      List.singleton_append] at hrev
    obtain ⟨hp1, hp2⟩ := toString_decimal p.ChannelType
    obtain ⟨hq1, hq2⟩ := toString_decimal q.ChannelType
    obtain ⟨hx, hz⟩ := append_cons_inj_left '-' _ _ _ _
      (fun hm => hp1 _ (List.mem_reverse.mp hm) rfl)
      (fun hm => hq1 _ (List.mem_reverse.mp hm) rfl) hrev
    have hnum : (toString p.ChannelType).data = (toString q.ChannelType).data :=
      List.reverse_injective hx
    have hid : p.ChannelID.data = q.ChannelID.data := List.reverse_injective hz
    refine ⟨String.ext hid, ?_⟩
    rw [← hp2, ← hq2, hnum]
  · rintro ⟨h1, h2⟩
    simp [channelKey, h1, h2]

theorem mapAppend_keys (m : List (String × List SendPacket)) (k : String) (p : SendPacket) :
    (mapAppend m k p).map Prod.fst =
      if k ∈ m.map Prod.fst then m.map Prod.fst else m.map Prod.fst ++ [k] := by
  induction m with
  | nil => simp [mapAppend]
  | cons e rest ih =>
    obtain ⟨k', ps⟩ := e
    by_cases hk : k' = k
    · simp [mapAppend, hk]
    · have hk' : ¬ k = k' := fun h => hk h.symm
      simp only [mapAppend, hk, if_false, List.map_cons, ih, List.mem_cons, hk', false_or]
      split_ifs <;> simp

theorem mem_mapAppend (m : List (String × List SendPacket)) (k : String) (p : SendPacket)
    (hnd : (m.map Prod.fst).Nodup) :
    ∀ e ∈ mapAppend m k p,
      (e.1 ≠ k ∧ e ∈ m) ∨
        (e.1 = k ∧ ((∃ ps, (k, ps) ∈ m ∧ e.2 = ps ++ [p]) ∨
          (k ∉ m.map Prod.fst ∧ e.2 = [p]))) := by
  induction m with
  | nil =>
    intro e he
    simp only [mapAppend, List.mem_singleton] at he
    subst he
    exact Or.inr ⟨rfl, Or.inr ⟨by simp, rfl⟩⟩
  | cons head rest ih =>
    obtain ⟨k', ps⟩ := head
    have hnd' : (rest.map Prod.fst).Nodup := (List.nodup_cons.mp hnd).2
    have hnotin : k' ∉ rest.map Prod.fst := (List.nodup_cons.mp hnd).1
    intro e he
    by_cases hk : k' = k
    · simp only [mapAppend, hk, if_true, List.mem_cons] at he
      rcases he with he | he
      · subst he
        exact Or.inr ⟨rfl, Or.inl ⟨ps, by simp [hk], rfl⟩⟩
      · have hne : e.1 ≠ k := by
          intro heq
          apply hnotin
          rw [hk, ← heq]
          exact List.mem_map_of_mem Prod.fst he
        exact Or.inl ⟨hne, List.mem_cons_of_mem _ he⟩
    · simp only [mapAppend, hk, if_false, List.mem_cons] at he
      rcases he with he | he
      · subst he
        exact Or.inl ⟨hk, List.mem_cons_self _ _⟩
      · rcases ih hnd' e he with ⟨h1, h2⟩ | ⟨h1, ⟨ps', h2, h3⟩ | ⟨h2, h3⟩⟩
        · exact Or.inl ⟨h1, List.mem_cons_of_mem _ h2⟩
        · exact Or.inr ⟨h1, Or.inl ⟨ps', List.mem_cons_of_mem _ h2, h3⟩⟩
        · refine Or.inr ⟨h1, Or.inr ⟨?_, h3⟩⟩
          simp only [List.map_cons, List.mem_cons, not_or]
          exact ⟨fun h => hk h.symm, h2⟩

theorem partitionOf_mapAppend (m : List (String × List SendPacket)) (done : List SendPacket)
    (p : SendPacket) (h : partitionOf m done) :
    partitionOf (mapAppend m (channelKey p) p) (done ++ [p]) := by
  obtain ⟨hnd, hb, hc⟩ := h
  refine ⟨?_, ?_, ?_⟩
  · rw [mapAppend_keys]
    split_ifs with hin
    · exact hnd
    · exact List.Nodup.append hnd (List.nodup_singleton _)
        (by simpa [List.disjoint_singleton] using hin)
  · intro e he
    rcases mem_mapAppend m (channelKey p) p hnd e he with
      ⟨h1, h2⟩ | ⟨h1, ⟨ps, h2, h3⟩ | ⟨h2, h3⟩⟩
    · obtain ⟨hf, hne⟩ := hb e h2
      refine ⟨?_, hne⟩
      have : ¬ channelKey p = e.1 := fun heq => h1 heq.symm
      simp [List.filter_append, List.filter_cons, this, ← hf]
    · obtain ⟨hf, _⟩ := hb _ h2
      simp only at hf
      refine ⟨?_, by rw [h3]; simp⟩
      rw [h3, h1, hf]
      simp [List.filter_append, List.filter_cons]
    · refine ⟨?_, by rw [h3]; simp⟩
      have hnone : done.filter (fun q => decide (channelKey q = channelKey p)) = [] := by
        rw [List.filter_eq_nil_iff]
        intro q hq hk
        have hk' : channelKey q = channelKey p := by simpa using hk
        exact h2 (hk' ▸ hc q hq)
      rw [h3, h1]
      simp [List.filter_append, List.filter_cons, hnone]
  · intro q hq
    rw [mapAppend_keys]
    rcases List.mem_append.mp hq with hq | hq
    · split_ifs
      · exact hc q hq
      · exact List.mem_append_left _ (hc q hq)
    · rw [List.mem_singleton] at hq
      subst hq
      split_ifs with hin
      · exact hin
      · exact List.mem_append_right _ (List.mem_singleton_self _)

theorem partitionOf_splitByChannel (rest : List SendPacket) :
    ∀ (m : List (String × List SendPacket)) (done : List SendPacket), partitionOf m done →
      partitionOf (splitByChannel rest m) (done ++ rest) := by
  induction rest with
  | nil => intro m done h; simpa [splitByChannel] using h
  | cons p rest ih =>
    intro m done h
    have := ih _ _ (partitionOf_mapAppend m done p h)
    simpa [splitByChannel, List.append_assoc] using this

/-! ## One sendack per packet -/

theorem assignSeqs_clientRef (stored : Message → Bool) :
    ∀ (messages : List Message) (seqs : List Nat),
      (assignSeqs stored messages seqs).map Message.clientRef =
        messages.map Message.clientRef := by
  intro messages
  induction messages with
  | nil => intro seqs; rfl
  | cons m rest ih =>
    intro seqs
    by_cases hs : stored m = true
    · cases seqs with
      | nil => simp [assignSeqs, hs, ih]
      | cons seq more => simp [assignSeqs, hs, ih, Message.clientRef]
    · simp [assignSeqs, hs, ih]

theorem storeChannelMessagesIfNeed_clientRef (pc : ProtoConsts) (env : MsgEnv)
    (fromUID : String) (messages : List Message) :
    (storeChannelMessagesIfNeed pc env fromUID messages).messages.map Message.clientRef =
      messages.map Message.clientRef := by
  unfold storeChannelMessagesIfNeed
  by_cases hlen : messages.length = 0
  · simp only [hlen, if_true]
  · simp only [hlen, if_false]
    cases (storeLoop env fromUID messages [] []).err with
    | some err => rfl
    | none =>
      simp only
      cases (storeLoop env fromUID messages [] []).storeMessages with
      | nil => rfl
      | cons firstMessage others =>
        simp only
        cases env.AppendMessages
            (if firstMessage.ChannelType = pc.ChannelTypePerson then
              GetFakeChannelIDWith fromUID firstMessage.ChannelID
            else firstMessage.ChannelID) firstMessage.ChannelType (firstMessage :: others) with
        | error err => rfl
        | ok seqs => exact assignSeqs_clientRef _ messages seqs

/-- The packet loop of `prcocessChannelMessages` accounts for every packet once: each packet
adds one sendack to the collected list, or one sendack sent directly, or one built message,
with the packet's client reference. -/
theorem buildMessages_accounts (env : MsgEnv) (conn : Conn) (channel : Channel)
    (aesKey aesIV : String) (hkey : conn.aesKey = some aesKey) (hiv : conn.aesIV = some aesIV) :
    ∀ (sps : List SendPacket) (st : BuildState),
      List.Perm
        ((sendacksSent (buildMessages env conn channel sps st).events).map
            SendackPacket.clientRef ++
          ((buildMessages env conn channel sps st).sendackPackets.map SendackPacket.clientRef ++
            (buildMessages env conn channel sps st).messages.map Message.clientRef))
        (((sendacksSent st.events).map SendackPacket.clientRef ++
          (st.sendackPackets.map SendackPacket.clientRef ++
            st.messages.map Message.clientRef)) ++ sps.map SendPacket.clientRef) := by
  intro sps
  induction sps with
  | nil => intro st; simp [buildMessages]
  | cons sp rest ih =>
    intro st
    by_cases hsync : sp.framer.SyncOnce = true
    · have hunf : buildMessages env conn channel (sp :: rest) st =
          buildMessages env conn channel rest
            { st with
              handled := st.handled + 1
              sendackPackets := st.sendackPackets ++
                [syncOnceSendack sp (env.genMessageID st.handled)] } := by
        simp [buildMessages, hsync]
      rw [hunf]
      refine (ih _).trans ?_
      simp only [List.map_append, List.map_cons, List.map_nil, List.append_assoc]
      have hr : (syncOnceSendack sp (env.genMessageID st.handled)).clientRef = sp.clientRef :=
        rfl
      rw [hr]
      refine List.Perm.append_left _ (List.Perm.append_left _ ?_)
      simpa using (@List.perm_middle _ sp.clientRef
        (st.messages.map Message.clientRef)
        (rest.map SendPacket.clientRef)).symm
    · have hsync2 : sp.framer.SyncOnce = false := by
        cases h : sp.framer.SyncOnce with
        | true => exact absurd h hsync
        | false => rfl
      cases hchk : checkAndDecodePayload env sp conn with
      | crashed => exact absurd hchk (checkAndDecodePayload_not_crashed env conn sp _ _ hkey hiv)
      | err e =>
        have hunf : buildMessages env conn channel (sp :: rest) st =
            buildMessages env conn channel rest
              { st with
                handled := st.handled + 1
                events := st.events ++
                  [MsgEvent.response conn.id
                    (payloadErrorSendack sp (env.genMessageID st.handled))] } := by
          simp [buildMessages, hsync2, hchk]
        rw [hunf]
        refine (ih _).trans ?_
        simp only [sendacksSent_append, sendacksSent, List.map_append, List.map_cons,
          List.map_nil, List.append_assoc]
        have hr : (payloadErrorSendack sp (env.genMessageID st.handled)).clientRef =
            sp.clientRef := rfl
        rw [hr]
        refine List.Perm.append_left _ ?_
        simpa [List.append_assoc] using (@List.perm_middle _ sp.clientRef
          (st.sendackPackets.map SendackPacket.clientRef ++
            st.messages.map Message.clientRef)
          (rest.map SendPacket.clientRef)).symm
      | ok payload =>
        have hunf : buildMessages env conn channel (sp :: rest) st =
            buildMessages env conn channel rest
              { st with
                handled := st.handled + 1
                messages := st.messages ++
                  [newMessage conn channel sp (env.genMessageID st.handled)
                    (wrapInt32 (env.nowUnix st.handled)) payload] } := by
          simp [buildMessages, hsync2, hchk]
        rw [hunf]
        refine (ih _).trans ?_
        simp only [List.map_append, List.map_cons, List.map_nil, List.append_assoc]
        have hr : (newMessage conn channel sp (env.genMessageID st.handled)
            (wrapInt32 (env.nowUnix st.handled)) payload).clientRef = sp.clientRef := rfl
        rw [hr]
        simp

theorem sendacksSent_notifyQueue (env : MsgEnv) (messages : List Message) :
    sendacksSent (storeChannelMessagesToNotifyQueue env messages).1 = [] := by
  unfold storeChannelMessagesToNotifyQueue
  split_ifs <;> rfl

/-- On a connection that holds aesKey and aesIV a run of `prcocessChannelMessages` does not
fail, and the client references of its sendacks, sent directly or returned, are a permutation
of those of the packets. -/
theorem prcocessChannelMessages_accounts (pc : ProtoConsts) (env : MsgEnv)
    (conn : Conn) (channelID : String) (channelType : Nat) (sendPackets : List SendPacket)
    (aesKey aesIV : String) (hkey : conn.aesKey = some aesKey)
    (hiv : conn.aesIV = some aesIV) :
    (prcocessChannelMessages pc env conn channelID channelType sendPackets).crashed = false ∧
      List.Perm
        ((prcocessChannelMessages pc env conn channelID channelType
          sendPackets).allSendacks.map SendackPacket.clientRef)
        (sendPackets.map SendPacket.clientRef) := by
  have hdirect : ∀ code : ReasonCode,
      (sendPackets.map (fun sendPacket =>
        getSendackPacketWithSendPacket sendPacket code)).map SendackPacket.clientRef =
        sendPackets.map SendPacket.clientRef := by
    intro code
    rw [List.map_map]
    rfl
  simp only [prcocessChannelMessages, ChannelMessagesResult.allSendacks]
  generalize (if channelType = pc.ChannelTypePerson then
      GetFakeChannelIDWith conn.uid channelID else channelID) = key
  cases env.GetChannel key channelType with
  | error e => exact ⟨rfl, by simp [sendacksSent, hdirect]⟩
  | ok found =>
    cases found with
    | none => exact ⟨rfl, by simp [sendacksSent, hdirect]⟩
    | some channel =>
      dsimp only
      have hacc := buildMessages_accounts env conn channel aesKey aesIV hkey hiv sendPackets
        ⟨[], [], [MsgEvent.getChannel key channelType], 0, false⟩
      obtain ⟨hcr, _, _, _⟩ := buildMessages_spec env conn channel aesKey aesIV hkey hiv
        sendPackets ⟨[], [], [MsgEvent.getChannel key channelType], 0, false⟩
      generalize buildMessages env conn channel sendPackets
        ⟨[], [], [MsgEvent.getChannel key channelType], 0, false⟩ = st at hacc hcr
      simp only [sendacksSent, List.map_nil, List.nil_append] at hacc
      have hcr' : st.crashed = false := hcr
      cases (hasPermission pc env.Allow channel conn.uid).1 with
      | false => exact ⟨rfl, by simp [sendacksSent, hdirect]⟩
      | true =>
        simp only [Bool.true_eq_false, Bool.false_eq_true, if_false, hcr']
        by_cases hl : st.messages.length = 0
        · have hnil : st.messages = [] := List.length_eq_zero.mp hl
          simp only [hl, if_true]
          refine ⟨trivial, ?_⟩
          rw [hnil] at hacc
          simpa using hacc
        · simp only [hl, if_false]
          have hq := (storeChannelMessagesIfNeed_quiet pc env conn.uid st.messages).1
          have hrefs := storeChannelMessagesIfNeed_clientRef pc env conn.uid st.messages
          have hn := sendacksSent_notifyQueue env
            (storeChannelMessagesIfNeed pc env conn.uid st.messages).messages
          have hfinal : ∀ code : ReasonCode, List.Perm
              ((sendacksSent st.events ++ (st.sendackPackets ++
                (storeChannelMessagesIfNeed pc env conn.uid st.messages).messages.map
                  (fun m => getSendackPacket m code))).map SendackPacket.clientRef)
              (sendPackets.map SendPacket.clientRef) := by
            intro code
            have hmap : ((storeChannelMessagesIfNeed pc env conn.uid st.messages).messages.map
                (fun m => getSendackPacket m code)).map SendackPacket.clientRef =
                st.messages.map Message.clientRef := by
              rw [List.map_map, ← hrefs]
              rfl
            simp only [List.map_append, hmap]
            exact hacc
          cases (storeChannelMessagesIfNeed pc env conn.uid st.messages).err with
          | some err =>
            refine ⟨rfl, ?_⟩
            simp only [sendacksSent_append, hq, List.append_nil]
            exact hfinal _
          | none =>
            simp only
            have hn2 : sendacksSent (if env.WebhookOn = true then
                storeChannelMessagesToNotifyQueue env
                  (storeChannelMessagesIfNeed pc env conn.uid st.messages).messages
              else ([], none)).1 = [] := by
              split_ifs
              · exact hn
              · rfl
            cases (if env.WebhookOn = true then
                storeChannelMessagesToNotifyQueue env
                  (storeChannelMessagesIfNeed pc env conn.uid st.messages).messages
              else ([], none)).2 with
            | some err =>
              refine ⟨rfl, ?_⟩
              simp only [sendacksSent_append, hq, hn2, List.append_nil]
              exact hfinal _
            | none =>
              simp only
              cases env.Put channel
                  (storeChannelMessagesIfNeed pc env conn.uid st.messages).messages
                  conn.uid conn.deviceFlag conn.deviceID with
              | some err =>
                refine ⟨rfl, ?_⟩
                simp only [sendacksSent_append, hq, hn2, sendacksSent, List.append_nil]
                exact hfinal _
              | none =>
                refine ⟨rfl, ?_⟩
                simp only [sendacksSent_append, hq, hn2, sendacksSent, List.append_nil]
                exact hfinal _

/-- C23: on a connection that holds aesKey and aesIV, for every list of SendPackets, every
channel id and channel type, the sendacks that `prcocessChannelMessages` produces (those it sends
directly on a payload failure and those it returns) are in one-to-one correspondence with the
SendPackets: their client references (clientSeq, clientMsgNo) are a permutation of those of the
packets, so there is exactly one sendack per packet, on every path, and the run does not
fail. -/
theorem prcocessChannelMessages_one_sendack_per_packet (pc : ProtoConsts) (env : MsgEnv)
    (conn : Conn) (channelID : String) (channelType : Nat) (sendPackets : List SendPacket)
    (aesKey aesIV : String) (hkey : conn.aesKey = some aesKey)
    (hiv : conn.aesIV = some aesIV) :
    (prcocessChannelMessages pc env conn channelID channelType sendPackets).crashed = false ∧
      List.Perm
        ((prcocessChannelMessages pc env conn channelID channelType
          sendPackets).allSendacks.map SendackPacket.clientRef)
        (sendPackets.map SendPacket.clientRef) ∧
      (prcocessChannelMessages pc env conn channelID channelType
        sendPackets).allSendacks.length = sendPackets.length := by
  have hmain := prcocessChannelMessages_accounts pc env conn channelID channelType sendPackets
    aesKey aesIV hkey hiv
  refine ⟨hmain.1, hmain.2, ?_⟩
  have := hmain.2.length_eq
  simpa using this

theorem prcocessChannelMessages_one_sendack_per_packet_witness :
    (prcocessChannelMessages sampleConsts sampleMsgEnv sampleAuthedConn "grp" 2
        [sampleSend, sampleBadKeySend, sampleSyncOnceSend]).crashed = false ∧
      List.Perm
        ((prcocessChannelMessages sampleConsts sampleMsgEnv sampleAuthedConn "grp" 2
          [sampleSend, sampleBadKeySend, sampleSyncOnceSend]).allSendacks.map
            SendackPacket.clientRef)
        ([sampleSend, sampleBadKeySend, sampleSyncOnceSend].map SendPacket.clientRef) ∧
      (prcocessChannelMessages sampleConsts sampleMsgEnv sampleAuthedConn "grp" 2
        [sampleSend, sampleBadKeySend, sampleSyncOnceSend]).allSendacks.length =
          [sampleSend, sampleBadKeySend, sampleSyncOnceSend].length :=
  prcocessChannelMessages_one_sendack_per_packet sampleConsts sampleMsgEnv sampleAuthedConn
    "grp" 2 [sampleSend, sampleBadKeySend, sampleSyncOnceSend] "K" "IV" rfl rfl

/-! ## Runs of frames of one type -/

/-- C27: for every run of `n >= 1` PING frames handed to `processSameFrame`, exactly one Pong
is sent, to the connection, whatever `n` is: the run sends the Pong and then calls
`finishFrames(n)` (which needs the connection context), and does nothing else. -/
theorem processSameFrame_ping_sends_one_pong (pc : ProtoConsts) (env : FrameEnv) (conn : Conn)
    (frames : List Frame) (hn : 1 ≤ frames.length)
    (hping : ∀ f ∈ frames, f.GetFrameType = FrameType.PING) :
    pongsSent (processSameFrame pc env conn FrameType.PING frames).events = [conn.id] ∧
      (processSameFrame pc env conn FrameType.PING frames).events =
        FrameEvent.pong conn.id ::
          (if conn.hasContext = true then [FrameEvent.finishFrames frames.length] else []) ∧
      (conn.hasContext = true →
        (processSameFrame pc env conn FrameType.PING frames).crashed = false) ∧
      (∀ c ∈ processFrames pc env conn frames, pongsSent c.events = [conn.id]) := by
  have hone : ∀ fs : List Frame, 1 ≤ fs.length →
      pongsSent (processSameFrame pc env conn FrameType.PING fs).events = [conn.id] ∧
      (processSameFrame pc env conn FrameType.PING fs).events =
        FrameEvent.pong conn.id ::
          (if conn.hasContext = true then [FrameEvent.finishFrames fs.length] else []) ∧
      (conn.hasContext = true →
        (processSameFrame pc env conn FrameType.PING fs).crashed = false) := by
    intro fs hfs
    cases fs with
    | nil => simp at hfs
    | cons f rest =>
      cases hctx : conn.hasContext <;>
        simp [processSameFrame, processPing, hctx, pongsSent]
  obtain ⟨h1, h2, h3⟩ := hone frames hn
  refine ⟨h1, h2, h3, ?_⟩
  intro c hc
  obtain ⟨call, hcall, hceq⟩ := List.mem_map.mp hc
  obtain ⟨_, hwf, _, _, _⟩ :=
    sameFramesFrom_spec frames frames.length 0 (Nat.zero_le _) (Nat.le_refl _)
  obtain ⟨w1, w2, w3, _⟩ := hwf call hcall
  have hsub : ∀ f ∈ call.fs, f ∈ frames := by
    intro f hf
    rw [w3] at hf
    exact List.mem_of_mem_take (List.mem_of_mem_drop hf)
  cases hfs : call.fs with
  | nil =>
    have hlt : call.s < frames.length := by omega
    have hmem : frames.get ⟨call.s, hlt⟩ ∈ goSlice frames call.s call.e :=
      goSlice_head frames call.s call.e _ w1 (by rw [List.getElem?_eq_getElem hlt]; rfl)
    rw [← w3, hfs] at hmem
    cases hmem
  | cons first rest =>
    have hfirst : first.GetFrameType = FrameType.PING :=
      hping first (hsub first (by rw [hfs]; exact List.mem_cons_self _ _))
    rw [← hceq]
    simp only [hfs, hfirst]
    exact (hone (first :: rest) (by simp)).1

theorem processSameFrame_ping_sends_one_pong_witness :
    pongsSent (processSameFrame sampleConsts sampleFrameEnv sampleAuthedConn FrameType.PING
        [⟨FrameType.PING, 1⟩, ⟨FrameType.PING, 2⟩, ⟨FrameType.PING, 3⟩]).events =
        [sampleAuthedConn.id] ∧
      (processSameFrame sampleConsts sampleFrameEnv sampleAuthedConn FrameType.PING
          [⟨FrameType.PING, 1⟩, ⟨FrameType.PING, 2⟩, ⟨FrameType.PING, 3⟩]).events =
        FrameEvent.pong sampleAuthedConn.id ::
          (if sampleAuthedConn.hasContext = true then
            [FrameEvent.finishFrames
              [(⟨FrameType.PING, 1⟩ : Frame), ⟨FrameType.PING, 2⟩, ⟨FrameType.PING, 3⟩].length]
          else []) ∧
      (sampleAuthedConn.hasContext = true →
        (processSameFrame sampleConsts sampleFrameEnv sampleAuthedConn FrameType.PING
          [⟨FrameType.PING, 1⟩, ⟨FrameType.PING, 2⟩, ⟨FrameType.PING, 3⟩]).crashed = false) ∧
      (∀ c ∈ processFrames sampleConsts sampleFrameEnv sampleAuthedConn
          [⟨FrameType.PING, 1⟩, ⟨FrameType.PING, 2⟩, ⟨FrameType.PING, 3⟩],
        pongsSent c.events = [sampleAuthedConn.id]) :=
  processSameFrame_ping_sends_one_pong sampleConsts sampleFrameEnv sampleAuthedConn
    [⟨FrameType.PING, 1⟩, ⟨FrameType.PING, 2⟩, ⟨FrameType.PING, 3⟩] (by decide) (by decide)

/-! ## `finishFrames` once per group -/

theorem finishCounts_append (a b : List FrameEvent) :
    finishCounts (a ++ b) = finishCounts a ++ finishCounts b := by
  induction a with
  | nil => rfl
  | cons ev rest ih => cases ev <;> simp [finishCounts, ih]

theorem finishCounts_map_msg (evs : List MsgEvent) :
    finishCounts (evs.map FrameEvent.msg) = [] := by
  induction evs with
  | nil => rfl
  | cons ev rest ih => simpa [finishCounts] using ih

theorem finishCounts_map_ack (evs : List AckEvent) :
    finishCounts (evs.map FrameEvent.ack) = [] := by
  induction evs with
  | nil => rfl
  | cons ev rest ih => simpa [finishCounts] using ih

theorem finishCounts_map_sub (evs : List SubEvent) :
    finishCounts (evs.map FrameEvent.sub) = [] := by
  induction evs with
  | nil => rfl
  | cons ev rest ih => simpa [finishCounts] using ih

theorem processSub_not_crashed (pc : ProtoConsts) (env : SubEnv) (conn : Conn)
    (subPacket : SubPacket) (hctx : conn.hasContext = true) :
    (processSub pc env conn subPacket).crashed = false := by
  unfold processSub
  cases env.urlParse subPacket.ChannelID with
  | error e => rfl
  | ok u =>
    dsimp only
    by_cases hblank : TrimSpace u.Path = ""
    · rw [if_pos hblank]
    · rw [if_neg hblank]
      by_cases htype : subPacket.ChannelType ≠ pc.ChannelTypeData
      · rw [if_pos htype]
      · rw [if_neg htype]
        cases env.GetChannel u.Path subPacket.ChannelType with
        | error e => rfl
        | ok found =>
          cases found with
          | none => rfl
          | some channel =>
            dsimp only
            have hc : ¬ conn.hasContext = false := by rw [hctx]; decide
            rw [if_neg hc]
            by_cases hact : subPacket.Action = SubAction.Subscribe
            · rw [if_pos hact]
            · rw [if_neg hact]

theorem processSubs_not_crashed (pc : ProtoConsts) (env : SubEnv) (conn : Conn)
    (hctx : conn.hasContext = true) :
    ∀ (subPackets : List SubPacket) (events : List SubEvent),
      (processSubs pc env conn subPackets events).2 = false := by
  intro subPackets
  induction subPackets with
  | nil => intro events; rfl
  | cons p rest ih =>
    intro events
    simp only [processSubs, processSub_not_crashed pc env conn p hctx, Bool.false_eq_true,
      if_false]
    exact ih _

theorem processChannels_not_crashed (pc : ProtoConsts) (env : MsgEnv) (conn : Conn)
    (aesKey aesIV : String) (hkey : conn.aesKey = some aesKey)
    (hiv : conn.aesIV = some aesIV) :
    ∀ (groups : List (String × List SendPacket)) (events : List MsgEvent)
      (sendackPackets : List SendackPacket), (∀ e ∈ groups, e.2 ≠ []) →
      (processChannels pc env conn groups events sendackPackets).crashed = false := by
  intro groups
  induction groups with
  | nil => intro events acks _; rfl
  | cons g rest ih =>
    intro events acks hne
    obtain ⟨k, ps⟩ := g
    cases hps : ps with
    | nil => exact absurd hps (hne (k, ps) (List.mem_cons_self _ _))
    | cons first more =>
      have hcr := (prcocessChannelMessages_accounts pc env conn first.ChannelID
        first.ChannelType (first :: more) aesKey aesIV hkey hiv).1
      simp only [processChannels, hcr, Bool.false_eq_true, if_false]
      exact ih _ _ (fun e he => hne e (List.mem_cons_of_mem _ he))

theorem processMsgs_not_crashed (pc : ProtoConsts) (env : MsgEnv) (conn : Conn)
    (sendPackets : List SendPacket) (aesKey aesIV : String) (hkey : conn.aesKey = some aesKey)
    (hiv : conn.aesIV = some aesIV) :
    (processMsgs pc env conn sendPackets).crashed = false := by
  have hinv := partitionOf_splitByChannel sendPackets [] []
    ⟨List.nodup_nil, fun _ h => absurd h (List.not_mem_nil _),
      fun _ h => absurd h (List.not_mem_nil _)⟩
  exact processChannels_not_crashed pc env conn aesKey aesIV hkey hiv _ [] []
    (fun e he => (hinv.2.1 e he).2)

/-- On a connection with context, aesKey and aesIV a run of `processSameFrame` on a non-empty
group does not fail, whatever the frame type is, and calls `finishFrames` exactly once, with
the length of the group. -/
theorem processSameFrame_finishes (pc : ProtoConsts) (env : FrameEnv) (conn : Conn)
    (frameType : FrameType) (frames : List Frame) (aesKey aesIV : String)
    (hctx : conn.hasContext = true) (hkey : conn.aesKey = some aesKey)
    (hiv : conn.aesIV = some aesIV) (hne : frames ≠ []) :
    (processSameFrame pc env conn frameType frames).crashed = false ∧
      finishCounts (processSameFrame pc env conn frameType frames).events =
        [frames.length] := by
  have hmsgs := processMsgs_not_crashed pc env.msg conn (frames.map env.sendPacketOf) aesKey
    aesIV hkey hiv
  have hsubs := processSubs_not_crashed pc env.sub conn hctx (frames.map env.subPacketOf) []
  cases frames with
  | nil => exact absurd rfl hne
  | cons f rest =>
    simp only [List.map_cons] at hmsgs hsubs
    cases frameType <;>
      simp [processSameFrame, processPing, hctx, hmsgs, hsubs, finishCounts_append,
        finishCounts_map_msg, finishCounts_map_ack, finishCounts_map_sub, finishCounts]

/-- C28: for every batch of frames drained from a connection (which therefore has a context,
and holds aesKey and aesIV since it is authed), `processFrames` runs `processSameFrame` once per
group of `sameFrames`; every run ends without failing and calls `finishFrames` exactly once,
with the length of its group, whatever the frame type of the group is; an unsupported frame type
produces no other event. The counts passed to `finishFrames` sum to the number of frames of the
batch. -/
theorem processFrames_finishes_every_group (pc : ProtoConsts) (env : FrameEnv) (conn : Conn)
    (frames : List Frame) (aesKey aesIV : String)
    (hctx : conn.hasContext = true) (hkey : conn.aesKey = some aesKey)
    (hiv : conn.aesIV = some aesIV) :
    (processFrames pc env conn frames).length = (sameFrames frames).length ∧
      (∀ r ∈ processFrames pc env conn frames, r.crashed = false) ∧
      (processFrames pc env conn frames).map (fun r => finishCounts r.events) =
        (sameFrames frames).map (fun c => [c.fs.length]) ∧
      ((processFrames pc env conn frames).map (fun r => (finishCounts r.events).sum)).sum =
        frames.length ∧
      (∀ (frameType : FrameType) (group : List Frame), group ≠ [] →
        frameType ≠ FrameType.PING → frameType ≠ FrameType.SEND →
        frameType ≠ FrameType.RECVACK → frameType ≠ FrameType.SUB →
        (processSameFrame pc env conn frameType group).events =
          [FrameEvent.finishFrames group.length]) := by
  obtain ⟨hflat, hwf, _, _, _⟩ :=
    sameFramesFrom_spec frames frames.length 0 (Nat.zero_le _) (Nat.le_refl _)
  have hgroup : ∀ c ∈ sameFrames frames, c.fs ≠ [] := by
    intro c hc hnil
    obtain ⟨w1, w2, w3, _⟩ := hwf c hc
    have hlt : c.s < frames.length := by omega
    have hmem : frames.get ⟨c.s, hlt⟩ ∈ goSlice frames c.s c.e :=
      goSlice_head frames c.s c.e _ w1 (by rw [List.getElem?_eq_getElem hlt]; rfl)
    rw [← w3, hnil] at hmem
    cases hmem
  have hrun : ∀ c ∈ sameFrames frames,
      (match c.fs with
        | [] => (⟨[], true⟩ : FrameResult)
        | first :: _ => processSameFrame pc env conn first.GetFrameType c.fs).crashed = false ∧
      finishCounts (match c.fs with
        | [] => (⟨[], true⟩ : FrameResult)
        | first :: _ => processSameFrame pc env conn first.GetFrameType c.fs).events =
        [c.fs.length] := by
    intro c hc
    cases hfs : c.fs with
    | nil => exact absurd hfs (hgroup c hc)
    | cons first rest =>
      exact processSameFrame_finishes pc env conn first.GetFrameType (first :: rest) aesKey
        aesIV hctx hkey hiv (by simp)
  have hcounts : (processFrames pc env conn frames).map (fun r => finishCounts r.events) =
      (sameFrames frames).map (fun c => [c.fs.length]) := by
    unfold processFrames
    rw [List.map_map]
    apply List.map_congr_left
    intro c hc
    exact (hrun c hc).2
  refine ⟨by simp [processFrames], ?_, hcounts, ?_, ?_⟩
  · intro r hr
    obtain ⟨c, hc, hceq⟩ := List.mem_map.mp hr
    rw [← hceq]
    exact (hrun c hc).1
  · have hsum : (processFrames pc env conn frames).map
        (fun r => (finishCounts r.events).sum) =
        ((processFrames pc env conn frames).map (fun r => finishCounts r.events)).map
          List.sum := by
      rw [List.map_map]; rfl
    rw [hsum, hcounts, List.map_map]
    have hlen : ((sameFrames frames).map (List.sum ∘ fun c => [c.fs.length])) =
        ((sameFrames frames).map Call.fs).map List.length := by
      rw [List.map_map]
      apply List.map_congr_left
      intro c _
      simp
    have hflat' : ((sameFrames frames).map Call.fs).flatten = frames := by
      simpa [sameFrames] using hflat
    rw [hlen, ← List.length_flatten, hflat']
  · intro frameType group hne h1 h2 h3 h4
    cases group with
    | nil => exact absurd rfl hne
    | cons f rest =>
      cases frameType <;> simp_all [processSameFrame]

theorem processFrames_finishes_every_group_witness :
    (processFrames sampleConsts sampleFrameEnv sampleAuthedConn sampleFrames).length =
        (sameFrames sampleFrames).length ∧
      (∀ r ∈ processFrames sampleConsts sampleFrameEnv sampleAuthedConn sampleFrames,
        r.crashed = false) ∧
      (processFrames sampleConsts sampleFrameEnv sampleAuthedConn sampleFrames).map
          (fun r => finishCounts r.events) =
        (sameFrames sampleFrames).map (fun c => [c.fs.length]) ∧
      ((processFrames sampleConsts sampleFrameEnv sampleAuthedConn sampleFrames).map
          (fun r => (finishCounts r.events).sum)).sum = sampleFrames.length ∧
      (∀ (frameType : FrameType) (group : List Frame), group ≠ [] →
        frameType ≠ FrameType.PING → frameType ≠ FrameType.SEND →
        frameType ≠ FrameType.RECVACK → frameType ≠ FrameType.SUB →
        (processSameFrame sampleConsts sampleFrameEnv sampleAuthedConn frameType group).events =
          [FrameEvent.finishFrames group.length]) :=
  processFrames_finishes_every_group sampleConsts sampleFrameEnv sampleAuthedConn sampleFrames
    "K" "IV" (by decide) rfl rfl

/-! ## `processMsgs` hands each partition to `prcocessChannelMessages` -/

/-- On a connection that holds aesKey and aesIV the second loop of `processMsgs` runs
`prcocessChannelMessages` once on every partition, with the channel of the partition's first
packet: what it did and what it collected are the concatenation of what these runs did and
returned. -/
theorem processChannels_runs (pc : ProtoConsts) (env : MsgEnv) (conn : Conn)
    (aesKey aesIV : String) (hkey : conn.aesKey = some aesKey)
    (hiv : conn.aesIV = some aesIV) :
    ∀ (groups : List (String × List SendPacket)) (events : List MsgEvent)
      (sendackPackets : List SendackPacket), (∀ e ∈ groups, e.2 ≠ []) →
      (processChannels pc env conn groups events sendackPackets).crashed = false ∧
        (processChannels pc env conn groups events sendackPackets).events =
          events ++ (groups.map (fun e =>
            match e.2 with
            | [] => []
            | first :: _ =>
              (prcocessChannelMessages pc env conn first.ChannelID first.ChannelType
                e.2).events)).flatten ∧
        (processChannels pc env conn groups events sendackPackets).sendackPackets =
          sendackPackets ++ (groups.map (fun e =>
            match e.2 with
            | [] => []
            | first :: _ =>
              (prcocessChannelMessages pc env conn first.ChannelID first.ChannelType
                e.2).sendackPackets)).flatten := by
  intro groups
  induction groups with
  | nil => intro events acks _; simp [processChannels]
  | cons g rest ih =>
    intro events acks hne
    obtain ⟨k, ps⟩ := g
    cases hps : ps with
    | nil => exact absurd hps (hne (k, ps) (List.mem_cons_self _ _))
    | cons first more =>
      have hcr := (prcocessChannelMessages_accounts pc env conn first.ChannelID
        first.ChannelType (first :: more) aesKey aesIV hkey hiv).1
      have hacks : (if (prcocessChannelMessages pc env conn first.ChannelID first.ChannelType
            (first :: more)).sendackPackets.length > 0 then
          acks ++ (prcocessChannelMessages pc env conn first.ChannelID first.ChannelType
            (first :: more)).sendackPackets
          else acks) =
          acks ++ (prcocessChannelMessages pc env conn first.ChannelID first.ChannelType
            (first :: more)).sendackPackets := by
        split_ifs with hlen
        · rfl
        · have hnil : (prcocessChannelMessages pc env conn first.ChannelID first.ChannelType
              (first :: more)).sendackPackets = [] :=
            List.eq_nil_of_length_eq_zero (by omega)
          rw [hnil, List.append_nil]
      obtain ⟨h1, h2, h3⟩ := ih
        (events ++ (prcocessChannelMessages pc env conn first.ChannelID first.ChannelType
          (first :: more)).events)
        (acks ++ (prcocessChannelMessages pc env conn first.ChannelID first.ChannelType
          (first :: more)).sendackPackets)
        (fun e he => hne e (List.mem_cons_of_mem _ he))
      simp only [processChannels, hcr, Bool.false_eq_true, if_false, hacks, List.map_cons,
        List.flatten_cons]
      refine ⟨h1, ?_, ?_⟩
      · rw [h2, List.append_assoc]
      · rw [h3, List.append_assoc]

/-- C24: in `processMsgs` the key built from channelId, `-` and the decimal channelType is
injective on pairs, so two packets have the same key exactly when they have the same channelId
and channelType. The partitions have distinct keys and none is empty; the partition of a key
is the list of the packets of the batch with that key, in input order, so two packets of the
batch are in the same partition if and only if they have the same channelId and channelType;
every packet of the batch lands in exactly one partition. The sample batch of five packets is
split into the three partitions `a-1-2`, `a-12` and `a-2`. These partitions are what
`processMsgs` processes: on a connection that holds aesKey and aesIV, `processMsgs` does not
fail, and what it does and the sendacks it collects for its final response are the
concatenation, over the partitions, of what `prcocessChannelMessages` does and returns on the
packets of the partition with the channelId and channelType of its first packet. On the sample
batch `processMsgs` looks up the three channels once each and answers the packets partition by
partition, in input order within a partition. -/
theorem processMsgs_partitions_by_channel (pc : ProtoConsts) (env : MsgEnv) (conn : Conn)
    (sendPackets : List SendPacket) :
    (∀ p q : SendPacket, channelKey p = channelKey q ↔
        p.ChannelID = q.ChannelID ∧ p.ChannelType = q.ChannelType) ∧
      ((splitByChannel sendPackets []).map Prod.fst).Nodup ∧
      (∀ e ∈ splitByChannel sendPackets [],
        e.2 ≠ [] ∧
        e.2 = sendPackets.filter (fun p => decide (channelKey p = e.1)) ∧
        List.Sublist e.2 sendPackets ∧
        (∀ p ∈ e.2, ∀ q ∈ sendPackets,
          (q ∈ e.2 ↔ q.ChannelID = p.ChannelID ∧ q.ChannelType = p.ChannelType))) ∧
      (∀ p ∈ sendPackets, ∃ e ∈ splitByChannel sendPackets [],
        p ∈ e.2 ∧ ∀ e' ∈ splitByChannel sendPackets [], p ∈ e'.2 → e' = e) ∧
      (splitByChannel sampleBatch []).map (fun e => (e.1, e.2.map (fun p => p.ClientSeq))) =
        [("a-1-2", [1, 3]), ("a-12", [2, 5]), ("a-2", [4])] ∧
      (∀ aesKey aesIV : String, conn.aesKey = some aesKey → conn.aesIV = some aesIV →
        (processMsgs pc env conn sendPackets).crashed = false ∧
          (processMsgs pc env conn sendPackets).events =
            ((splitByChannel sendPackets []).map (fun e =>
              match e.2 with
              | [] => []
              | first :: _ =>
                (prcocessChannelMessages pc env conn first.ChannelID first.ChannelType
                  e.2).events)).flatten ∧
          (processMsgs pc env conn sendPackets).sendackPackets =
            ((splitByChannel sendPackets []).map (fun e =>
              match e.2 with
              | [] => []
              | first :: _ =>
                (prcocessChannelMessages pc env conn first.ChannelID first.ChannelType
                  e.2).sendackPackets)).flatten) ∧
      channelsLookedUp
          (processMsgs sampleConsts sampleMsgEnv sampleAuthedConn sampleBatch).events =
        [("a-1", 2), ("a", 12), ("a", 2)] ∧
      (sendacksSent
          (processMsgs sampleConsts sampleMsgEnv sampleAuthedConn sampleBatch).events).map
          (fun sendack => sendack.ClientSeq) = [1, 3, 2, 5, 4] := by
  have hinv : partitionOf (splitByChannel sendPackets []) sendPackets := by
    have := partitionOf_splitByChannel sendPackets [] []
      ⟨List.nodup_nil, fun _ h => absurd h (List.not_mem_nil _),
        fun _ h => absurd h (List.not_mem_nil _)⟩
    simpa using this
  obtain ⟨hnd, hb, hc⟩ := hinv
  have hmem : ∀ e ∈ splitByChannel sendPackets [], ∀ q, q ∈ e.2 ↔
      q ∈ sendPackets ∧ channelKey q = e.1 := by
    intro e he q
    obtain ⟨hf, _⟩ := hb e he
    rw [hf, List.mem_filter]
    simp
  have huniq : ∀ e ∈ splitByChannel sendPackets [], ∀ e' ∈ splitByChannel sendPackets [],
      e'.1 = e.1 → e' = e := by
    intro e he e' he' hk
    have h1 := (hb e he).1
    have h2 := (hb e' he').1
    rw [hk] at h2
    exact Prod.ext hk (h2.trans h1.symm)
  refine ⟨channelKey_injective, hnd, ?_, ?_, by decide, ?_, by decide, by decide⟩
  · intro e he
    obtain ⟨hf, hne⟩ := hb e he
    refine ⟨hne, hf, ?_, ?_⟩
    · rw [hf]; exact List.filter_sublist _
    · intro p hp q hq
      have hpk := ((hmem e he p).mp hp).2
      rw [hmem e he q, ← hpk, channelKey_injective]
      exact ⟨fun h => h.2, fun h => ⟨hq, h⟩⟩
  · intro p hp
    obtain ⟨e, he, hk⟩ := List.mem_map.mp (hc p hp)
    refine ⟨e, he, (hmem e he p).mpr ⟨hp, hk.symm⟩, ?_⟩
    intro e' he' hp'
    have hk' := ((hmem e' he' p).mp hp').2
    exact huniq e he e' he' (by rw [← hk', hk])
  · intro aesKey aesIV hkey hiv
    have hruns := processChannels_runs pc env conn aesKey aesIV hkey hiv
      (splitByChannel sendPackets []) [] [] (fun e he => (hb e he).2)
    simpa [processMsgs] using hruns

/-- Witness for C24: on the sample batch and the sample connection, which holds aesKey and
aesIV, `processMsgs` does not fail and does exactly what the runs of
`prcocessChannelMessages` on the three partitions do. -/
theorem processMsgs_partitions_by_channel_witness :
    (processMsgs sampleConsts sampleMsgEnv sampleAuthedConn sampleBatch).crashed = false ∧
      (processMsgs sampleConsts sampleMsgEnv sampleAuthedConn sampleBatch).events =
        ((splitByChannel sampleBatch []).map (fun e =>
          match e.2 with
          | [] => []
          | first :: _ =>
            (prcocessChannelMessages sampleConsts sampleMsgEnv sampleAuthedConn
              first.ChannelID first.ChannelType e.2).events)).flatten ∧
      (processMsgs sampleConsts sampleMsgEnv sampleAuthedConn sampleBatch).sendackPackets =
        ((splitByChannel sampleBatch []).map (fun e =>
          match e.2 with
          | [] => []
          | first :: _ =>
            (prcocessChannelMessages sampleConsts sampleMsgEnv sampleAuthedConn
              first.ChannelID first.ChannelType e.2).sendackPackets)).flatten :=
  (processMsgs_partitions_by_channel sampleConsts sampleMsgEnv sampleAuthedConn
    sampleBatch).2.2.2.2.2.1 "K" "IV" rfl rfl
